import Mathlib

/-!
# odissey: the configuration parser (`src/core/od_config.c`)

A shallow embedding of the recursive-descent configuration parser and of the
three collaborators it talks to (token source, scheme store, error log),
followed by theorems about the parser.

Conventions of the embedding:

* a C function that mutates `od_config_t *config` and returns `int` becomes a
  function returning the `int` together with the new `od_config_t`;
* every `while (! eof)` loop becomes a function recursive on a fuel argument;
  `none` is returned only when the fuel is exhausted, and `od_configparse`
  supplies one unit of fuel per remaining token plus one;
* a pointer to a collection entry (`od_schemeserver_t *`, ...) becomes the
  index of the entry in its collection;
* a `char *` field becomes an `Option String` (`none` is `NULL`).
-/

set_option autoImplicit false

/-! ## Tokens -/

/-- Token identifiers. The literal kinds and the punctuation kind follow the
tagged union of the token source; the keyword identifiers are those named in
the second column of `od_config_keywords`. A punctuation token is identified
by its character code, which is what `od_lexpop` returns for it. -/
inductive od_tokenid where
  | OD_LERROR
  | OD_LEOF
  | OD_LNUMBER
  | OD_LSTRING
  | OD_LPUNCT (c : Nat)
  | OD_LODISSEY
  | OD_LYES
  | OD_LNO
  | OD_LON
  | OD_LOFF
  | OD_LDAEMONIZE
  | OD_LLOG_VERBOSITY
  | OD_LLOG_FILE
  | OD_LPID_FILE
  | OD_LSYSLOG
  | OD_LSYSLOG_IDENT
  | OD_LSYSLOG_FACILITY
  | OD_LPOOLING
  | OD_LLISTEN
  | OD_LHOST
  | OD_LPORT
  | OD_LBACKLOG
  | OD_LNODELAY
  | OD_LKEEPALIVE
  | OD_LWORKERS
  | OD_LCLIENT_MAX
  | OD_LSERVER
  | OD_LROUTING
  | OD_LDEFAULT
  | OD_LROUTE
  | OD_LMODE
  | OD_LDATABASE
  | OD_LUSER
  | OD_LPASSWORD
  | OD_LTTL
  | OD_LPOOL_MIN
  | OD_LPOOL_MAX
  | OD_LUSERS
  deriving DecidableEq, Repr

open od_tokenid

/-- The character code of an opening brace, the `id` passed to `od_confignext`
at the start of every block. -/
def OD_LBRACE : od_tokenid := OD_LPUNCT 123

/-- The character code of a closing brace, the `case` label that ends every
block loop. -/
def OD_RBRACE : od_tokenid := OD_LPUNCT 125

/-- The keyword table `od_config_keywords` (without its terminating sentinel):
literal text and keyword identifier, in the order of the source. -/
def od_config_keywords : List (String × od_tokenid) :=
  [ ("odissey", OD_LODISSEY), ("yes", OD_LYES), ("no", OD_LNO), ("on", OD_LON),
    ("off", OD_LOFF), ("daemonize", OD_LDAEMONIZE),
    ("log_verbosity", OD_LLOG_VERBOSITY), ("log_file", OD_LLOG_FILE),
    ("pid_file", OD_LPID_FILE), ("syslog", OD_LSYSLOG),
    ("syslog_ident", OD_LSYSLOG_IDENT), ("syslog_facility", OD_LSYSLOG_FACILITY),
    ("pooling", OD_LPOOLING),
    ("listen", OD_LLISTEN), ("host", OD_LHOST), ("port", OD_LPORT),
    ("backlog", OD_LBACKLOG), ("nodelay", OD_LNODELAY),
    ("keepalive", OD_LKEEPALIVE), ("workers", OD_LWORKERS),
    ("client_max", OD_LCLIENT_MAX),
    ("server", OD_LSERVER),
    ("routing", OD_LROUTING), ("default", OD_LDEFAULT), ("route", OD_LROUTE),
    ("mode", OD_LMODE), ("database", OD_LDATABASE), ("user", OD_LUSER),
    ("password", OD_LPASSWORD), ("ttl", OD_LTTL), ("pool_min", OD_LPOOL_MIN),
    ("pool_max", OD_LPOOL_MAX),
    ("users", OD_LUSERS) ]

/-- Modelled from the spec: the token record of `od_lex.h`, which is not part
of the sources. A token carries its identifier, the line where it began and
the value union `v` (`v.string` for a STRING token, `v.num` for a NUMBER
token). A lexical-error token carries the diagnostic text in `string`. -/
structure od_token_t where
  id : od_tokenid
  line : Int
  string : String := ""
  num : Int := 0
  deriving DecidableEq, Repr

instance : Inhabited od_token_t := ⟨{ id := OD_LEOF, line := 0 }⟩

/-! ## Token source -/

/-- Modelled from the spec: the lexer state of `od_lex.h`. `toks` is the input
that has not been read yet, `eof_line` the line on which the input ends,
`line` the current line counter, `error` the diagnostic of the last lexical
error, and `popped` counts the calls of `od_lexpop`. -/
structure od_lex_t where
  toks : List od_token_t
  eof_line : Int
  line : Int
  error : String
  popped : Nat
  deriving DecidableEq, Repr

/-- Modelled from the spec: `od_lexpop` of the token source, which is not part
of the sources. It returns the next token and advances; once the input is
exhausted it returns an end-of-input token on every call; for a lexical-error
token it records the diagnostic. The `int` result of the C function is the
`id` of the returned token. -/
def od_lexpop (l : od_lex_t) : od_token_t × od_lex_t :=
  match l.toks with
  | [] =>
    ({ id := OD_LEOF, line := l.eof_line },
     { l with line := l.eof_line, popped := l.popped + 1 })
  | t :: rest =>
    (t, { l with toks := rest, line := t.line, popped := l.popped + 1,
                 error := if t.id = OD_LERROR then t.string else l.error })

/-- Modelled from the spec: `od_lexname_of`, the symbolic name of a token
kind, which is not part of the sources. Keywords are named by their text in
`od_config_keywords`. -/
def od_lexname_of (id : od_tokenid) : String :=
  match id with
  | OD_LERROR => "error"
  | OD_LEOF => "eof"
  | OD_LNUMBER => "number"
  | OD_LSTRING => "string"
  | OD_LPUNCT _ => "punctuation"
  | k =>
    match od_config_keywords.find? (fun e => e.2 = k) with
    | some e => e.1
    | none => ""

/-- The C library's `ispunct` in the "C" locale, on a character code. -/
def ispunct (c : Nat) : Bool :=
  (33 ≤ c && c ≤ 47) || (58 ≤ c && c ≤ 64) || (91 ≤ c && c ≤ 96) ||
  (123 ≤ c && c ≤ 126)

/-! ## Scheme store -/

/-- Modelled from the spec: a server entry of `od_scheme.h`. -/
structure od_schemeserver_t where
  name : Option String := none
  host : Option String := none
  port : Int := 0
  deriving DecidableEq, Repr

/-- Modelled from the spec: a route entry of `od_scheme.h`. -/
structure od_schemeroute_t where
  target : Option String := none
  route : Option String := none
  database : Option String := none
  user : Option String := none
  password : Option String := none
  ttl : Int := 0
  client_max : Int := 0
  pool_min : Int := 0
  pool_max : Int := 0
  is_default : Int := 0
  deriving DecidableEq, Repr

/-- Modelled from the spec: a user entry of `od_scheme.h`. -/
structure od_schemeuser_t where
  user : Option String := none
  password : Option String := none
  deriving DecidableEq, Repr

/-- Modelled from the spec: the configuration tree of `od_scheme.h`: the
scalar global settings and the three collections in insertion order. `mem` is
the number of entries the store can still allocate; it is what decides
whether `od_schemeserver_add`, `od_schemeroute_add` and `od_schemeuser_add`
return `NULL`. -/
structure od_scheme_t where
  config_file : String := ""
  daemonize : Int := 0
  log_verbosity : Int := 0
  log_file : Option String := none
  pid_file : Option String := none
  syslog : Int := 0
  syslog_ident : Option String := none
  syslog_facility : Option String := none
  pooling : Option String := none
  host : Option String := none
  port : Int := 0
  backlog : Int := 0
  nodelay : Int := 0
  keepalive : Int := 0
  workers : Int := 0
  client_max : Int := 0
  routing : Option String := none
  servers : List od_schemeserver_t := []
  routes : List od_schemeroute_t := []
  users : List od_schemeuser_t := []
  mem : Nat := 0
  deriving DecidableEq, Repr

/-- Modelled from the spec: `od_schemeserver_add`, which is not part of the
sources: append a fresh entry to the Servers collection and return a handle
to it, or return `NULL` when the entry cannot be allocated. -/
def od_schemeserver_add (scheme : od_scheme_t) : Option (od_scheme_t × Nat) :=
  if scheme.mem = 0 then none
  else some ({ scheme with servers := scheme.servers ++ [{}],
                           mem := scheme.mem - 1 }, scheme.servers.length)

/-- Modelled from the spec: `od_schemeroute_add`, which is not part of the
sources: append a fresh entry to the Routes collection and return a handle to
it, or return `NULL` when the entry cannot be allocated. -/
def od_schemeroute_add (scheme : od_scheme_t) : Option (od_scheme_t × Nat) :=
  if scheme.mem = 0 then none
  else some ({ scheme with routes := scheme.routes ++ [{}],
                           mem := scheme.mem - 1 }, scheme.routes.length)

/-- Modelled from the spec: `od_schemeuser_add`, which is not part of the
sources: append a fresh entry to the Users collection and return a handle to
it, or return `NULL` when the entry cannot be allocated. -/
def od_schemeuser_add (scheme : od_scheme_t) : Option (od_scheme_t × Nat) :=
  if scheme.mem = 0 then none
  else some ({ scheme with users := scheme.users ++ [{}],
                           mem := scheme.mem - 1 }, scheme.users.length)

/-- A write through an entry pointer: apply `f` to the entry at index `i`. -/
def od_entry_update {α : Type} (f : α → α) : List α → Nat → List α
  | [], _ => []
  | x :: xs, 0 => f x :: xs
  | x :: xs, i + 1 => x :: od_entry_update f xs i

/-- A write `server->field = ...` through a server handle. -/
def od_scheme_t.server_set (scheme : od_scheme_t) (server : Nat)
    (f : od_schemeserver_t → od_schemeserver_t) : od_scheme_t :=
  { scheme with servers := od_entry_update f scheme.servers server }

/-- A write `route->field = ...` through a route handle. -/
def od_scheme_t.route_set (scheme : od_scheme_t) (route : Nat)
    (f : od_schemeroute_t → od_schemeroute_t) : od_scheme_t :=
  { scheme with routes := od_entry_update f scheme.routes route }

/-- A write `user->field = ...` through a user handle. -/
def od_scheme_t.user_set (scheme : od_scheme_t) (user : Nat)
    (f : od_schemeuser_t → od_schemeuser_t) : od_scheme_t :=
  { scheme with users := od_entry_update f scheme.users user }

/-! ## Error log -/

/-- One call of `od_error(log, NULL, "%s:%d %s", file, line, msg)`: the three
arguments of the format. -/
structure od_report where
  file : String
  line : Int
  msg : String
  deriving DecidableEq, Repr

/-- The parser object: lexer, log sink and scheme. -/
structure od_config_t where
  lex : od_lex_t
  log : List od_report
  scheme : od_scheme_t
  deriving DecidableEq, Repr

/-- The effect of `vsnprintf(msg, sizeof(msg), ...)` on a `char msg[256]`: the
formatted text is cut to 255 characters (characters are counted as bytes). -/
def od_msg256 (s : String) : String :=
  if s.length < 256 then s else String.mk (s.data.take 255)

/-- The function `od_configerror`: one report, at the line of `tk` when a
token is given and at the lexer's line counter otherwise. The argument `text`
is the expansion of the format string with its arguments. -/
def od_configerror (config : od_config_t) (tk : Option od_token_t)
    (text : String) : od_config_t :=
  let msg := od_msg256 text
  let line := match tk with
    | some t => t.line
    | none => config.lex.line
  { config with log := config.log ++ [{ file := config.scheme.config_file,
                                        line := line, msg := msg }] }

/-! ## The two token helpers -/

/-- The function `od_confignext`: pop one token and compare its kind with
`id`. The second component of the result is what is stored through the token
out-pointer: nothing after a lexical error, the popped token otherwise (a
caller that passes `NULL` ignores it). -/
def od_confignext (config : od_config_t) (id : od_tokenid) :
    Int × Option od_token_t × od_config_t :=
  let (tkp, lex) := od_lexpop config.lex
  let config := { config with lex := lex }
  let token := tkp.id
  if token = OD_LERROR then
    (-1, none, od_configerror config none config.lex.error)
  else if token ≠ id then
    match id with
    | OD_LPUNCT c =>
      if c < 0xff ∧ ispunct c then
        (-1, some tkp, od_configerror config (some tkp)
          ("expected '" ++ String.singleton (Char.ofNat c) ++ "'"))
      else
        (-1, some tkp, od_configerror config (some tkp)
          ("expected '" ++ od_lexname_of id ++ "'"))
    | _ =>
      (-1, some tkp, od_configerror config (some tkp)
        ("expected '" ++ od_lexname_of id ++ "'"))
  else
    (0, some tkp, config)

/-- The function `od_confignext_yes_no`: pop one token, `1` for `yes`, `0`
for `no`, otherwise report and return `-1`. The popped token is stored
through the out-pointer in every case. -/
def od_confignext_yes_no (config : od_config_t) :
    Int × od_token_t × od_config_t :=
  let (tk, lex) := od_lexpop config.lex
  let config := { config with lex := lex }
  let rc := tk.id
  if rc = OD_LYES then (1, tk, config)
  else if rc = OD_LNO then (0, tk, config)
  else (-1, tk, od_configerror config (some tk) "expected yes/no")

/-! ## Block parsers -/

/-- The `while (! eof)` loop of `od_configparse_listen`. -/
def od_configparse_listen_loop : Nat → od_config_t → Option (Int × od_config_t)
  | 0, _ => none
  | fuel + 1, config =>
    let (tk, lex) := od_lexpop config.lex
    let config := { config with lex := lex }
    match tk.id with
    | OD_LHOST =>
      let (rc, out, config) := od_confignext config OD_LSTRING
      if rc = -1 then some (-1, config) else
      let tk := out.getD tk
      od_configparse_listen_loop fuel
        { config with scheme := { config.scheme with host := some tk.string } }
    | OD_LPORT =>
      let (rc, out, config) := od_confignext config OD_LNUMBER
      if rc = -1 then some (-1, config) else
      let tk := out.getD tk
      od_configparse_listen_loop fuel
        { config with scheme := { config.scheme with port := tk.num } }
    | OD_LBACKLOG =>
      let (rc, out, config) := od_confignext config OD_LNUMBER
      if rc = -1 then some (-1, config) else
      let tk := out.getD tk
      od_configparse_listen_loop fuel
        { config with scheme := { config.scheme with backlog := tk.num } }
    | OD_LNODELAY =>
      let (rc, _, config) := od_confignext_yes_no config
      if rc = -1 then some (-1, config) else
      od_configparse_listen_loop fuel
        { config with scheme := { config.scheme with nodelay := rc } }
    | OD_LKEEPALIVE =>
      let (rc, out, config) := od_confignext config OD_LNUMBER
      if rc = -1 then some (-1, config) else
      let tk := out.getD tk
      od_configparse_listen_loop fuel
        { config with scheme := { config.scheme with keepalive := tk.num } }
    | OD_LCLIENT_MAX =>
      let (rc, out, config) := od_confignext config OD_LNUMBER
      if rc = -1 then some (-1, config) else
      let tk := out.getD tk
      od_configparse_listen_loop fuel
        { config with scheme := { config.scheme with client_max := tk.num } }
    | OD_LWORKERS =>
      let (rc, out, config) := od_confignext config OD_LNUMBER
      if rc = -1 then some (-1, config) else
      let tk := out.getD tk
      od_configparse_listen_loop fuel
        { config with scheme := { config.scheme with workers := tk.num } }
    | OD_LEOF =>
      some (-1, od_configerror config (some tk) "unexpected end of config file")
    | OD_LPUNCT 125 => some (0, config)
    | _ => some (-1, od_configerror config (some tk) "unknown option")

/-- The function `od_configparse_listen`. -/
def od_configparse_listen (fuel : Nat) (config : od_config_t) :
    Option (Int × od_config_t) :=
  let (rc, _, config) := od_confignext config OD_LBRACE
  if rc = -1 then some (-1, config) else
  od_configparse_listen_loop fuel config

/-- The `while (! eof)` loop of `od_configparse_server`; `server` is the
handle returned by `od_schemeserver_add`. -/
def od_configparse_server_loop :
    Nat → od_config_t → Nat → Option (Int × od_config_t)
  | 0, _, _ => none
  | fuel + 1, config, server =>
    let (tk, lex) := od_lexpop config.lex
    let config := { config with lex := lex }
    match tk.id with
    | OD_LHOST =>
      let (rc, out, config) := od_confignext config OD_LSTRING
      if rc = -1 then some (-1, config) else
      let tk := out.getD tk
      od_configparse_server_loop fuel
        { config with scheme := (config.scheme.server_set server
            (fun s => { s with host := some tk.string })) } server
    | OD_LPORT =>
      let (rc, out, config) := od_confignext config OD_LNUMBER
      if rc = -1 then some (-1, config) else
      let tk := out.getD tk
      od_configparse_server_loop fuel
        { config with scheme := (config.scheme.server_set server
            (fun s => { s with port := tk.num })) } server
    | OD_LEOF =>
      some (-1, od_configerror config (some tk) "unexpected end of config file")
    | OD_LPUNCT 125 => some (0, config)
    | _ => some (-1, od_configerror config (some tk) "unknown option")

/-- The function `od_configparse_server`. The local `tk` is uninitialised
before the first `od_confignext`; it is read only after a successful call. -/
def od_configparse_server (fuel : Nat) (config : od_config_t) :
    Option (Int × od_config_t) :=
  match od_schemeserver_add config.scheme with
  | none => some (-1, config)
  | some (scheme, server) =>
    let config := { config with scheme := scheme }
    let (rc, out, config) := od_confignext config OD_LSTRING
    if rc = -1 then some (-1, config) else
    let tk := out.getD default
    let config := { config with scheme := (config.scheme.server_set server
            (fun s => { s with name := some tk.string })) }
    let (rc, _, config) := od_confignext config OD_LBRACE
    if rc = -1 then some (-1, config) else
    od_configparse_server_loop fuel config server

/-- The `while (! eof)` loop of `od_configparse_route`; `route` is the handle
returned by `od_schemeroute_add`. -/
def od_configparse_route_loop :
    Nat → od_config_t → Nat → Option (Int × od_config_t)
  | 0, _, _ => none
  | fuel + 1, config, route =>
    let (tk, lex) := od_lexpop config.lex
    let config := { config with lex := lex }
    match tk.id with
    | OD_LROUTE =>
      let (rc, out, config) := od_confignext config OD_LSTRING
      if rc = -1 then some (-1, config) else
      let tk := out.getD tk
      od_configparse_route_loop fuel
        { config with scheme := (config.scheme.route_set route
            (fun r => { r with route := some tk.string })) } route
    | OD_LCLIENT_MAX =>
      let (rc, out, config) := od_confignext config OD_LNUMBER
      if rc = -1 then some (-1, config) else
      let tk := out.getD tk
      od_configparse_route_loop fuel
        { config with scheme := (config.scheme.route_set route
            (fun r => { r with client_max := tk.num })) } route
    | OD_LPOOL_MIN =>
      let (rc, out, config) := od_confignext config OD_LNUMBER
      if rc = -1 then some (-1, config) else
      let tk := out.getD tk
      od_configparse_route_loop fuel
        { config with scheme := (config.scheme.route_set route
            (fun r => { r with pool_min := tk.num })) } route
    | OD_LPOOL_MAX =>
      let (rc, out, config) := od_confignext config OD_LNUMBER
      if rc = -1 then some (-1, config) else
      let tk := out.getD tk
      od_configparse_route_loop fuel
        { config with scheme := (config.scheme.route_set route
            (fun r => { r with pool_max := tk.num })) } route
    | OD_LDATABASE =>
      let (rc, out, config) := od_confignext config OD_LSTRING
      if rc = -1 then some (-1, config) else
      let tk := out.getD tk
      od_configparse_route_loop fuel
        { config with scheme := (config.scheme.route_set route
            (fun r => { r with database := some tk.string })) } route
    | OD_LUSER =>
      let (rc, out, config) := od_confignext config OD_LSTRING
      if rc = -1 then some (-1, config) else
      let tk := out.getD tk
      od_configparse_route_loop fuel
        { config with scheme := (config.scheme.route_set route
            (fun r => { r with user := some tk.string })) } route
    | OD_LPASSWORD =>
      let (rc, out, config) := od_confignext config OD_LSTRING
      if rc = -1 then some (-1, config) else
      let tk := out.getD tk
      od_configparse_route_loop fuel
        { config with scheme := (config.scheme.route_set route
            (fun r => { r with password := some tk.string })) } route
    | OD_LTTL =>
      let (rc, out, config) := od_confignext config OD_LNUMBER
      if rc = -1 then some (-1, config) else
      let tk := out.getD tk
      od_configparse_route_loop fuel
        { config with scheme := (config.scheme.route_set route
            (fun r => { r with ttl := tk.num })) } route
    | OD_LEOF =>
      some (-1, od_configerror config (some tk) "unexpected end of config file")
    | OD_LPUNCT 125 => some (0, config)
    | _ => some (-1, od_configerror config (some tk) "unknown option")

/-- The function `od_configparse_route`; `name` is `none` for the call with
`NULL` (the default route) and the STRING token otherwise. -/
def od_configparse_route (fuel : Nat) (config : od_config_t)
    (name : Option od_token_t) : Option (Int × od_config_t) :=
  match od_schemeroute_add config.scheme with
  | none => some (-1, config)
  | some (scheme, route) =>
    let config := { config with scheme := scheme }
    let config :=
      match name with
      | none =>
        { config with scheme := (config.scheme.route_set route
            (fun r => { r with is_default := 1, target := some "" })) }
      | some name =>
        { config with scheme := (config.scheme.route_set route
            (fun r => { r with target := some name.string })) }
    let (rc, _, config) := od_confignext config OD_LBRACE
    if rc = -1 then some (-1, config) else
    od_configparse_route_loop fuel config route

/-- The function `od_configparse_routing`, its loop included. -/
def od_configparse_routing_loop : Nat → od_config_t → Option (Int × od_config_t)
  | 0, _ => none
  | fuel + 1, config =>
    let (tk, lex) := od_lexpop config.lex
    let config := { config with lex := lex }
    match tk.id with
    | OD_LMODE =>
      let (rc, out, config) := od_confignext config OD_LSTRING
      if rc = -1 then some (-1, config) else
      let tk := out.getD tk
      od_configparse_routing_loop fuel
        { config with scheme := { config.scheme with routing := some tk.string } }
    | OD_LSTRING =>
      match od_configparse_route fuel config (some tk) with
      | none => none
      | some (rc, config) =>
        if rc = -1 then some (-1, config) else
        od_configparse_routing_loop fuel config
    | OD_LDEFAULT =>
      match od_configparse_route fuel config none with
      | none => none
      | some (rc, config) =>
        if rc = -1 then some (-1, config) else
        od_configparse_routing_loop fuel config
    | OD_LEOF =>
      some (-1, od_configerror config (some tk) "unexpected end of config file")
    | OD_LPUNCT 125 => some (0, config)
    | _ => some (-1, od_configerror config (some tk) "unknown option")

/-- The function `od_configparse_routing`. -/
def od_configparse_routing (fuel : Nat) (config : od_config_t) :
    Option (Int × od_config_t) :=
  let (rc, _, config) := od_confignext config OD_LBRACE
  if rc = -1 then some (-1, config) else
  od_configparse_routing_loop fuel config

/-- The `while (! eof)` loop of `od_configparse_user`; `user` is the handle
returned by `od_schemeuser_add`. -/
def od_configparse_user_loop :
    Nat → od_config_t → Nat → Option (Int × od_config_t)
  | 0, _, _ => none
  | fuel + 1, config, user =>
    let (tk, lex) := od_lexpop config.lex
    let config := { config with lex := lex }
    match tk.id with
    | OD_LPASSWORD =>
      let (rc, out, config) := od_confignext config OD_LSTRING
      if rc = -1 then some (-1, config) else
      let tk := out.getD tk
      od_configparse_user_loop fuel
        { config with scheme := (config.scheme.user_set user
            (fun u => { u with password := some tk.string })) } user
    | OD_LEOF =>
      some (-1, od_configerror config (some tk) "unexpected end of config file")
    | OD_LPUNCT 125 => some (0, config)
    | _ => some (-1, od_configerror config (some tk) "unknown option")

/-- The function `od_configparse_user`; `name` is the STRING token popped by
the caller. -/
def od_configparse_user (fuel : Nat) (config : od_config_t)
    (name : od_token_t) : Option (Int × od_config_t) :=
  match od_schemeuser_add config.scheme with
  | none => some (-1, config)
  | some (scheme, user) =>
    let config := { config with scheme := scheme }
    let config := { config with scheme := (config.scheme.user_set user
            (fun u => { u with user := some name.string })) }
    let (rc, _, config) := od_confignext config OD_LBRACE
    if rc = -1 then some (-1, config) else
    od_configparse_user_loop fuel config user

/-- The `while (! eof)` loop of `od_configparse_users`. -/
def od_configparse_users_loop : Nat → od_config_t → Option (Int × od_config_t)
  | 0, _ => none
  | fuel + 1, config =>
    let (tk, lex) := od_lexpop config.lex
    let config := { config with lex := lex }
    match tk.id with
    | OD_LSTRING =>
      match od_configparse_user fuel config tk with
      | none => none
      | some (rc, config) =>
        if rc = -1 then some (-1, config) else
        od_configparse_users_loop fuel config
    | OD_LEOF =>
      some (-1, od_configerror config (some tk) "unexpected end of config file")
    | OD_LPUNCT 125 => some (0, config)
    | _ => some (-1, od_configerror config (some tk) "unknown option")

/-- The function `od_configparse_users`. -/
def od_configparse_users (fuel : Nat) (config : od_config_t) :
    Option (Int × od_config_t) :=
  let (rc, _, config) := od_confignext config OD_LBRACE
  if rc = -1 then some (-1, config) else
  od_configparse_users_loop fuel config

/-- The `while (! eof)` loop of `od_configparse`. -/
def od_configparse_loop : Nat → od_config_t → Option (Int × od_config_t)
  | 0, _ => none
  | fuel + 1, config =>
    let (tk, lex) := od_lexpop config.lex
    let config := { config with lex := lex }
    match tk.id with
    | OD_LDAEMONIZE =>
      let (rc, _, config) := od_confignext_yes_no config
      if rc = -1 then some (-1, config) else
      od_configparse_loop fuel
        { config with scheme := { config.scheme with daemonize := rc } }
    | OD_LLOG_VERBOSITY =>
      let (rc, out, config) := od_confignext config OD_LNUMBER
      if rc = -1 then some (-1, config) else
      let tk := out.getD tk
      od_configparse_loop fuel
        { config with scheme := { config.scheme with log_verbosity := tk.num } }
    | OD_LLOG_FILE =>
      let (rc, out, config) := od_confignext config OD_LSTRING
      if rc = -1 then some (-1, config) else
      let tk := out.getD tk
      od_configparse_loop fuel
        { config with scheme := { config.scheme with log_file := some tk.string } }
    | OD_LPID_FILE =>
      let (rc, out, config) := od_confignext config OD_LSTRING
      if rc = -1 then some (-1, config) else
      let tk := out.getD tk
      od_configparse_loop fuel
        { config with scheme := { config.scheme with pid_file := some tk.string } }
    | OD_LSYSLOG =>
      let (rc, _, config) := od_confignext_yes_no config
      if rc = -1 then some (-1, config) else
      od_configparse_loop fuel
        { config with scheme := { config.scheme with syslog := rc } }
    | OD_LSYSLOG_IDENT =>
      let (rc, out, config) := od_confignext config OD_LSTRING
      if rc = -1 then some (-1, config) else
      let tk := out.getD tk
      od_configparse_loop fuel
        { config with scheme :=
            { config.scheme with syslog_ident := some tk.string } }
    | OD_LSYSLOG_FACILITY =>
      let (rc, out, config) := od_confignext config OD_LSTRING
      if rc = -1 then some (-1, config) else
      let tk := out.getD tk
      od_configparse_loop fuel
        { config with scheme :=
            { config.scheme with syslog_facility := some tk.string } }
    | OD_LPOOLING =>
      let (rc, out, config) := od_confignext config OD_LSTRING
      if rc = -1 then some (-1, config) else
      let tk := out.getD tk
      od_configparse_loop fuel
        { config with scheme := { config.scheme with pooling := some tk.string } }
    | OD_LLISTEN =>
      match od_configparse_listen fuel config with
      | none => none
      | some (rc, config) =>
        if rc = -1 then some (-1, config) else
        od_configparse_loop fuel config
    | OD_LSERVER =>
      match od_configparse_server fuel config with
      | none => none
      | some (rc, config) =>
        if rc = -1 then some (-1, config) else
        od_configparse_loop fuel config
    | OD_LROUTING =>
      match od_configparse_routing fuel config with
      | none => none
      | some (rc, config) =>
        if rc = -1 then some (-1, config) else
        od_configparse_loop fuel config
    | OD_LUSERS =>
      match od_configparse_users fuel config with
      | none => none
      | some (rc, config) =>
        if rc = -1 then some (-1, config) else
        od_configparse_loop fuel config
    | OD_LEOF =>
      some (-1, od_configerror config (some tk) "unexpected end of config file")
    | OD_LPUNCT 125 => some (0, config)
    | _ => some (-1, od_configerror config (some tk) "unknown option")

/-- The function `od_configparse` with an explicit amount of fuel for its
loops. -/
def od_configparse_fuel (fuel : Nat) (config : od_config_t) :
    Option (Int × od_config_t) :=
  let (rc, _, config) := od_confignext config OD_LODISSEY
  if rc = -1 then some (-1, config) else
  let (rc, _, config) := od_confignext config OD_LBRACE
  if rc = -1 then some (-1, config) else
  od_configparse_loop fuel config

/-- The function `od_configparse`: every loop iteration pops a token, so one
unit of fuel per unread token, plus one, is enough for every loop. -/
def od_configparse (config : od_config_t) : Option (Int × od_config_t) :=
  od_configparse_fuel (config.lex.toks.length + 1) config

/-! ## Test data -/

/-- A keyword or punctuation token on a line. -/
def od_tok (id : od_tokenid) (line : Int) : od_token_t :=
  { id := id, line := line }

/-- A STRING token. -/
def od_tok_string (s : String) (line : Int) : od_token_t :=
  { id := OD_LSTRING, line := line, string := s }

/-- A NUMBER token. -/
def od_tok_number (n : Int) (line : Int) : od_token_t :=
  { id := OD_LNUMBER, line := line, num := n }

/-- A parser object on a token list, with an empty scheme able to allocate
`mem` entries, an empty log and the lexer at line 1. -/
def od_config_on (toks : List od_token_t) (eof_line : Int) (mem : Nat) :
    od_config_t :=
  { lex := { toks := toks, eof_line := eof_line, line := 1, error := "",
             popped := 0 },
    log := [],
    scheme := { config_file := "odissey.conf", mem := mem } }

/-- The end-to-end example of the specification, tokenised. -/
def od_example_tokens : List od_token_t :=
  [ od_tok OD_LODISSEY 1, od_tok OD_LBRACE 1,
    od_tok OD_LLISTEN 2, od_tok OD_LBRACE 2, od_tok OD_LHOST 2,
    od_tok_string "0.0.0.0" 2, od_tok OD_LPORT 2, od_tok_number 6432 2,
    od_tok OD_RBRACE 2,
    od_tok OD_LUSERS 3, od_tok OD_LBRACE 3, od_tok_string "alice" 3,
    od_tok OD_LBRACE 3, od_tok OD_LPASSWORD 3, od_tok_string "secret" 3,
    od_tok OD_RBRACE 3, od_tok OD_RBRACE 3,
    od_tok OD_LROUTING 4, od_tok OD_LBRACE 4, od_tok OD_LDEFAULT 4,
    od_tok OD_LBRACE 4, od_tok OD_LPOOL_MAX 4, od_tok_number 5 4,
    od_tok OD_RBRACE 4, od_tok OD_RBRACE 4,
    od_tok OD_RBRACE 5 ]


/-! ## The grammar of the specification, as syntax trees over tokens -/

/-- The three kinds of value a field keyword can require. -/
inductive od_valuekind where
  | string
  | number
  | yes_no
  deriving DecidableEq, Repr

/-- A field in the token stream: a keyword token followed by its value
token. -/
structure od_field where
  key : od_token_t
  value : od_token_t
  deriving DecidableEq, Repr

/-- A field is well formed for a block when the block's grammar lists its
keyword and its value token has the kind the keyword requires. -/
def od_field.ok (kind : od_tokenid → Option od_valuekind) (f : od_field) : Prop :=
  match kind f.key.id with
  | some od_valuekind.string => f.value.id = OD_LSTRING
  | some od_valuekind.number => f.value.id = OD_LNUMBER
  | some od_valuekind.yes_no => f.value.id = OD_LYES ∨ f.value.id = OD_LNO
  | none => False

/-- The boolean a `yes`/`no` token stands for, as the integer stored. -/
def od_yes_no_value (t : od_token_t) : Int :=
  if t.id = OD_LYES then 1 else 0

/-- Grammar: `listen_field := host | port | backlog | nodelay | keepalive |
client_max | workers`, with the value kind of each. -/
def od_listen_kind : od_tokenid → Option od_valuekind
  | OD_LHOST => some od_valuekind.string
  | OD_LPORT => some od_valuekind.number
  | OD_LBACKLOG => some od_valuekind.number
  | OD_LNODELAY => some od_valuekind.yes_no
  | OD_LKEEPALIVE => some od_valuekind.number
  | OD_LCLIENT_MAX => some od_valuekind.number
  | OD_LWORKERS => some od_valuekind.number
  | _ => none

/-- What a listen field means: the global listen setting named by the keyword
takes the value of the value token. -/
def od_listen_assign (s : od_scheme_t) (f : od_field) : od_scheme_t :=
  match f.key.id with
  | OD_LHOST => { s with host := some f.value.string }
  | OD_LPORT => { s with port := f.value.num }
  | OD_LBACKLOG => { s with backlog := f.value.num }
  | OD_LNODELAY => { s with nodelay := od_yes_no_value f.value }
  | OD_LKEEPALIVE => { s with keepalive := f.value.num }
  | OD_LCLIENT_MAX => { s with client_max := f.value.num }
  | OD_LWORKERS => { s with workers := f.value.num }
  | _ => s

/-- The tokens of a list of syntax items, in order. -/
def od_items_tokens {α : Type} (tokens : α → List od_token_t) :
    List α → List od_token_t
  | [] => []
  | x :: xs => tokens x ++ od_items_tokens tokens xs

/-- The number of collection entries a list of syntax items allocates. -/
def od_items_need {α : Type} (need : α → Nat) : List α → Nat
  | [] => 0
  | x :: xs => need x + od_items_need need xs

/-- The tokens of a field: the keyword, then the value. -/
def od_field.tokens (f : od_field) : List od_token_t := [f.key, f.value]

/-- Grammar: the fields of a server block, `host | port`. -/
def od_server_kind : od_tokenid → Option od_valuekind
  | OD_LHOST => some od_valuekind.string
  | OD_LPORT => some od_valuekind.number
  | _ => none

/-- What a server field means for the server entry it belongs to. -/
def od_server_assign (e : od_schemeserver_t) (f : od_field) : od_schemeserver_t :=
  match f.key.id with
  | OD_LHOST => { e with host := some f.value.string }
  | OD_LPORT => { e with port := f.value.num }
  | _ => e

/-- Grammar: `route_field := route_alias | client_max | pool_min | pool_max |
database | user | password | ttl`. -/
def od_route_kind : od_tokenid → Option od_valuekind
  | OD_LROUTE => some od_valuekind.string
  | OD_LCLIENT_MAX => some od_valuekind.number
  | OD_LPOOL_MIN => some od_valuekind.number
  | OD_LPOOL_MAX => some od_valuekind.number
  | OD_LDATABASE => some od_valuekind.string
  | OD_LUSER => some od_valuekind.string
  | OD_LPASSWORD => some od_valuekind.string
  | OD_LTTL => some od_valuekind.number
  | _ => none

/-- What a route field means for the route entry it belongs to. -/
def od_route_assign (e : od_schemeroute_t) (f : od_field) : od_schemeroute_t :=
  match f.key.id with
  | OD_LROUTE => { e with route := some f.value.string }
  | OD_LCLIENT_MAX => { e with client_max := f.value.num }
  | OD_LPOOL_MIN => { e with pool_min := f.value.num }
  | OD_LPOOL_MAX => { e with pool_max := f.value.num }
  | OD_LDATABASE => { e with database := some f.value.string }
  | OD_LUSER => { e with user := some f.value.string }
  | OD_LPASSWORD => { e with password := some f.value.string }
  | OD_LTTL => { e with ttl := f.value.num }
  | _ => e

/-- Grammar: the only field of a user entry, `password`. -/
def od_user_kind : od_tokenid → Option od_valuekind
  | OD_LPASSWORD => some od_valuekind.string
  | _ => none

/-- What a user field means for the user entry it belongs to. -/
def od_user_assign (e : od_schemeuser_t) (f : od_field) : od_schemeuser_t :=
  match f.key.id with
  | OD_LPASSWORD => { e with password := some f.value.string }
  | _ => e

/-- Grammar: the scalar statements of the top level, `daemonize |
log_verbosity | log_file | pid_file | syslog | syslog_ident | syslog_facility
| pooling`. -/
def od_global_kind : od_tokenid → Option od_valuekind
  | OD_LDAEMONIZE => some od_valuekind.yes_no
  | OD_LLOG_VERBOSITY => some od_valuekind.number
  | OD_LLOG_FILE => some od_valuekind.string
  | OD_LPID_FILE => some od_valuekind.string
  | OD_LSYSLOG => some od_valuekind.yes_no
  | OD_LSYSLOG_IDENT => some od_valuekind.string
  | OD_LSYSLOG_FACILITY => some od_valuekind.string
  | OD_LPOOLING => some od_valuekind.string
  | _ => none

/-- What a scalar top-level statement means for the global settings. -/
def od_global_assign (s : od_scheme_t) (f : od_field) : od_scheme_t :=
  match f.key.id with
  | OD_LDAEMONIZE => { s with daemonize := od_yes_no_value f.value }
  | OD_LLOG_VERBOSITY => { s with log_verbosity := f.value.num }
  | OD_LLOG_FILE => { s with log_file := some f.value.string }
  | OD_LPID_FILE => { s with pid_file := some f.value.string }
  | OD_LSYSLOG => { s with syslog := od_yes_no_value f.value }
  | OD_LSYSLOG_IDENT => { s with syslog_ident := some f.value.string }
  | OD_LSYSLOG_FACILITY => { s with syslog_facility := some f.value.string }
  | OD_LPOOLING => { s with pooling := some f.value.string }
  | _ => s

/-- Grammar: the only scalar field of a routing block, `mode`. -/
def od_mode_kind : od_tokenid → Option od_valuekind
  | OD_LMODE => some od_valuekind.string
  | _ => none

/-- A named sub-block in the token stream: the identifying token, the opening
brace, the fields and the closing brace. -/
structure od_entry where
  name : od_token_t
  lbrace : od_token_t
  fields : List od_field
  rbrace : od_token_t
  deriving DecidableEq, Repr

/-- The tokens of a named sub-block. -/
def od_entry.tokens (e : od_entry) : List od_token_t :=
  e.name :: e.lbrace :: (od_items_tokens od_field.tokens e.fields ++ [e.rbrace])

/-- A named sub-block is well formed when its braces are braces and its
fields are fields of the block; the identifying token is checked by the
enclosing construct. -/
def od_entry.ok (kind : od_tokenid → Option od_valuekind) (e : od_entry) : Prop :=
  e.lbrace.id = OD_LBRACE ∧ e.rbrace.id = OD_RBRACE ∧ ∀ f ∈ e.fields, f.ok kind

/-- Grammar: the items of a routing block, `mode | route_named |
route_default`. -/
inductive od_routing_item where
  | mode (f : od_field)
  | route (e : od_entry)
  deriving DecidableEq, Repr

/-- The tokens of a routing item. -/
def od_routing_item.tokens : od_routing_item → List od_token_t
  | od_routing_item.mode f => f.tokens
  | od_routing_item.route e => e.tokens

/-- A routing item is well formed: `mode STRING`, or a route block whose
identifying token is a STRING or the `default` keyword. -/
def od_routing_item.ok : od_routing_item → Prop
  | od_routing_item.mode f => f.ok od_mode_kind
  | od_routing_item.route e =>
    (e.name.id = OD_LSTRING ∨ e.name.id = OD_LDEFAULT) ∧ e.ok od_route_kind

/-- The entries a routing item allocates. -/
def od_routing_item.need : od_routing_item → Nat
  | od_routing_item.mode _ => 0
  | od_routing_item.route _ => 1

/-- The route entry as it stands when the fields of its block start: the
default route is flagged and has the empty target, a named route has the text
of its STRING token as target. -/
def od_route_start (name : od_token_t) : od_schemeroute_t :=
  if name.id = OD_LDEFAULT then { is_default := 1, target := some "" }
  else { target := some name.string }

/-- What a routing item means: `mode` sets the routing mode, a route block
appends one route entry carrying its fields. -/
def od_routing_item.denote (s : od_scheme_t) : od_routing_item → od_scheme_t
  | od_routing_item.mode f => { s with routing := some f.value.string }
  | od_routing_item.route e =>
    { s with routes := s.routes ++ [e.fields.foldl od_route_assign (od_route_start e.name)],
             mem := s.mem - 1 }

/-- What a user entry means: one user entry is appended, named by the STRING
token and carrying the fields. -/
def od_user_denote (s : od_scheme_t) (e : od_entry) : od_scheme_t :=
  { s with users := s.users ++ [e.fields.foldl od_user_assign { user := some e.name.string }],
           mem := s.mem - 1 }

/-- What a server block means: one server entry is appended, named by the
STRING token and carrying the fields. -/
def od_server_denote (s : od_scheme_t) (e : od_entry) : od_scheme_t :=
  { s with servers := s.servers ++ [e.fields.foldl od_server_assign { name := some e.name.string }],
           mem := s.mem - 1 }

/-- Grammar: the statements of the top-level block. -/
inductive od_stmt where
  | global (f : od_field)
  | listen (kw lbrace : od_token_t) (fields : List od_field) (rbrace : od_token_t)
  | server (kw : od_token_t) (e : od_entry)
  | routing (kw lbrace : od_token_t) (items : List od_routing_item)
      (rbrace : od_token_t)
  | users (kw lbrace : od_token_t) (entries : List od_entry) (rbrace : od_token_t)
  deriving DecidableEq, Repr

/-- The tokens of a statement. -/
def od_stmt.tokens : od_stmt → List od_token_t
  | od_stmt.global f => f.tokens
  | od_stmt.listen kw lbrace fields rbrace =>
    kw :: lbrace :: (od_items_tokens od_field.tokens fields ++ [rbrace])
  | od_stmt.server kw e => kw :: e.tokens
  | od_stmt.routing kw lbrace items rbrace =>
    kw :: lbrace :: (od_items_tokens od_routing_item.tokens items ++ [rbrace])
  | od_stmt.users kw lbrace entries rbrace =>
    kw :: lbrace :: (od_items_tokens od_entry.tokens entries ++ [rbrace])

/-- A statement is well formed according to the grammar. -/
def od_stmt.ok : od_stmt → Prop
  | od_stmt.global f => f.ok od_global_kind
  | od_stmt.listen kw lbrace fields rbrace =>
    kw.id = OD_LLISTEN ∧ lbrace.id = OD_LBRACE ∧ rbrace.id = OD_RBRACE ∧
    ∀ f ∈ fields, f.ok od_listen_kind
  | od_stmt.server kw e =>
    kw.id = OD_LSERVER ∧ e.name.id = OD_LSTRING ∧ e.ok od_server_kind
  | od_stmt.routing kw lbrace items rbrace =>
    kw.id = OD_LROUTING ∧ lbrace.id = OD_LBRACE ∧ rbrace.id = OD_RBRACE ∧
    ∀ i ∈ items, i.ok
  | od_stmt.users kw lbrace entries rbrace =>
    kw.id = OD_LUSERS ∧ lbrace.id = OD_LBRACE ∧ rbrace.id = OD_RBRACE ∧
    ∀ e ∈ entries, e.name.id = OD_LSTRING ∧ e.ok od_user_kind

/-- The entries a statement allocates. -/
def od_stmt.need : od_stmt → Nat
  | od_stmt.global _ => 0
  | od_stmt.listen _ _ _ _ => 0
  | od_stmt.server _ _ => 1
  | od_stmt.routing _ _ items _ => od_items_need od_routing_item.need items
  | od_stmt.users _ _ entries _ => entries.length

/-- What a statement means for the scheme. -/
def od_stmt.denote (s : od_scheme_t) : od_stmt → od_scheme_t
  | od_stmt.global f => od_global_assign s f
  | od_stmt.listen _ _ fields _ => fields.foldl od_listen_assign s
  | od_stmt.server _ e => od_server_denote s e
  | od_stmt.routing _ _ items _ => items.foldl od_routing_item.denote s
  | od_stmt.users _ _ entries _ => entries.foldl od_user_denote s

/-- Grammar: `config := KW_ROOT '{' stmt* '}'`. -/
structure od_sentence where
  root : od_token_t
  lbrace : od_token_t
  stmts : List od_stmt
  rbrace : od_token_t
  deriving DecidableEq, Repr

/-- The tokens of a configuration. -/
def od_sentence.tokens (c : od_sentence) : List od_token_t :=
  c.root :: c.lbrace :: (od_items_tokens od_stmt.tokens c.stmts ++ [c.rbrace])

/-- A configuration is well formed according to the grammar. -/
def od_sentence.ok (c : od_sentence) : Prop :=
  c.root.id = OD_LODISSEY ∧ c.lbrace.id = OD_LBRACE ∧ c.rbrace.id = OD_RBRACE ∧
  ∀ st ∈ c.stmts, st.ok

/-- The entries a configuration allocates. -/
def od_sentence.need (c : od_sentence) : Nat :=
  od_items_need od_stmt.need c.stmts

/-- What a configuration means: its statements applied in order. -/
def od_sentence.denote (s : od_scheme_t) (c : od_sentence) : od_scheme_t :=
  c.stmts.foldl od_stmt.denote s

/-- The route entry after the prologue of `od_configparse_route`, by the
`name` argument of the call. -/
def od_route_init (name : Option od_token_t) : od_schemeroute_t :=
  match name with
  | none => { is_default := 1, target := some "" }
  | some name => { target := some name.string }

/-- The server blocks of a list of statements, in declaration order. -/
def od_server_blocks : List od_stmt → List od_entry
  | [] => []
  | od_stmt.server _ e :: rest => e :: od_server_blocks rest
  | _ :: rest => od_server_blocks rest

/-- The server entry a server block describes: the name of its STRING token,
and the host and port its fields assign. -/
def od_server_entry (e : od_entry) : od_schemeserver_t :=
  e.fields.foldl od_server_assign { name := some e.name.string }

/-- The end-to-end example of the specification, as a syntax tree. -/
def od_example_sentence : od_sentence :=
  { root := od_tok OD_LODISSEY 1, lbrace := od_tok OD_LBRACE 1,
    stmts :=
      [ od_stmt.listen (od_tok OD_LLISTEN 2) (od_tok OD_LBRACE 2)
          [ { key := od_tok OD_LHOST 2, value := od_tok_string "0.0.0.0" 2 },
            { key := od_tok OD_LPORT 2, value := od_tok_number 6432 2 } ]
          (od_tok OD_RBRACE 2),
        od_stmt.users (od_tok OD_LUSERS 3) (od_tok OD_LBRACE 3)
          [ { name := od_tok_string "alice" 3, lbrace := od_tok OD_LBRACE 3,
              fields := [ { key := od_tok OD_LPASSWORD 3,
                            value := od_tok_string "secret" 3 } ],
              rbrace := od_tok OD_RBRACE 3 } ]
          (od_tok OD_RBRACE 3),
        od_stmt.routing (od_tok OD_LROUTING 4) (od_tok OD_LBRACE 4)
          [ od_routing_item.route
              { name := od_tok OD_LDEFAULT 4, lbrace := od_tok OD_LBRACE 4,
                fields := [ { key := od_tok OD_LPOOL_MAX 4,
                              value := od_tok_number 5 4 } ],
                rbrace := od_tok OD_RBRACE 4 } ]
          (od_tok OD_RBRACE 4) ],
    rbrace := od_tok OD_RBRACE 5 }

/-- The lexer after `n` calls of `od_lexpop`. -/
def od_lexpops : Nat → od_lex_t → od_lex_t
  | 0, l => l
  | n + 1, l => od_lexpops n (od_lexpop l).2

/-! ## Positions: a block that is open, and what has been read of it -/

/-- The innermost open block and the part of it that has been read: the
tokens that opened it and the complete fields or entries that followed. -/
inductive od_open_block where
  | top
  | listen (kw lbrace : od_token_t) (fields : List od_field)
  | server (kw name lbrace : od_token_t) (fields : List od_field)
  | routing (kw lbrace : od_token_t) (items : List od_routing_item)
  | route (kw lbrace : od_token_t) (items : List od_routing_item)
      (name lbrace2 : od_token_t) (fields : List od_field)
  | users (kw lbrace : od_token_t) (entries : List od_entry)
  | user (kw lbrace : od_token_t) (entries : List od_entry)
      (name lbrace2 : od_token_t) (fields : List od_field)
  deriving DecidableEq, Repr

/-- The tokens read since the last complete top-level statement. -/
def od_open_block.tokens : od_open_block → List od_token_t
  | od_open_block.top => []
  | od_open_block.listen kw lbrace fields =>
    kw :: lbrace :: od_items_tokens od_field.tokens fields
  | od_open_block.server kw name lbrace fields =>
    kw :: name :: lbrace :: od_items_tokens od_field.tokens fields
  | od_open_block.routing kw lbrace items =>
    kw :: lbrace :: od_items_tokens od_routing_item.tokens items
  | od_open_block.route kw lbrace items name lbrace2 fields =>
    kw :: lbrace :: (od_items_tokens od_routing_item.tokens items ++
      name :: lbrace2 :: od_items_tokens od_field.tokens fields)
  | od_open_block.users kw lbrace entries =>
    kw :: lbrace :: od_items_tokens od_entry.tokens entries
  | od_open_block.user kw lbrace entries name lbrace2 fields =>
    kw :: lbrace :: (od_items_tokens od_entry.tokens entries ++
      name :: lbrace2 :: od_items_tokens od_field.tokens fields)

/-- The part of the open block that has been read follows the grammar. -/
def od_open_block.ok : od_open_block → Prop
  | od_open_block.top => True
  | od_open_block.listen kw lbrace fields =>
    kw.id = OD_LLISTEN ∧ lbrace.id = OD_LBRACE ∧ ∀ f ∈ fields, f.ok od_listen_kind
  | od_open_block.server kw name lbrace fields =>
    kw.id = OD_LSERVER ∧ name.id = OD_LSTRING ∧ lbrace.id = OD_LBRACE ∧
    ∀ f ∈ fields, f.ok od_server_kind
  | od_open_block.routing kw lbrace items =>
    kw.id = OD_LROUTING ∧ lbrace.id = OD_LBRACE ∧ ∀ i ∈ items, i.ok
  | od_open_block.route kw lbrace items name lbrace2 fields =>
    kw.id = OD_LROUTING ∧ lbrace.id = OD_LBRACE ∧ (∀ i ∈ items, i.ok) ∧
    (name.id = OD_LSTRING ∨ name.id = OD_LDEFAULT) ∧ lbrace2.id = OD_LBRACE ∧
    ∀ f ∈ fields, f.ok od_route_kind
  | od_open_block.users kw lbrace entries =>
    kw.id = OD_LUSERS ∧ lbrace.id = OD_LBRACE ∧
    ∀ e ∈ entries, e.name.id = OD_LSTRING ∧ e.ok od_user_kind
  | od_open_block.user kw lbrace entries name lbrace2 fields =>
    kw.id = OD_LUSERS ∧ lbrace.id = OD_LBRACE ∧
    (∀ e ∈ entries, e.name.id = OD_LSTRING ∧ e.ok od_user_kind) ∧
    name.id = OD_LSTRING ∧ lbrace2.id = OD_LBRACE ∧
    ∀ f ∈ fields, f.ok od_user_kind

/-- The entries allocated since the last complete top-level statement. -/
def od_open_block.need : od_open_block → Nat
  | od_open_block.top => 0
  | od_open_block.listen _ _ _ => 0
  | od_open_block.server _ _ _ _ => 1
  | od_open_block.routing _ _ items => od_items_need od_routing_item.need items
  | od_open_block.route _ _ items _ _ _ =>
    od_items_need od_routing_item.need items + 1
  | od_open_block.users _ _ entries => entries.length
  | od_open_block.user _ _ entries _ _ _ => entries.length + 1

/-- The scheme as the open block has left it so far, from the scheme `s` at
the last complete top-level statement. -/
def od_open_block.scheme (s : od_scheme_t) : od_open_block → od_scheme_t
  | od_open_block.top => s
  | od_open_block.listen _ _ fields => fields.foldl od_listen_assign s
  | od_open_block.server _ name _ fields =>
    { s with servers := s.servers ++
               [fields.foldl od_server_assign { name := some name.string }],
             mem := s.mem - 1 }
  | od_open_block.routing _ _ items => items.foldl od_routing_item.denote s
  | od_open_block.route _ _ items name _ fields =>
    { items.foldl od_routing_item.denote s with
        routes := (items.foldl od_routing_item.denote s).routes ++
               [fields.foldl od_route_assign (od_route_start name)],
        mem := (items.foldl od_routing_item.denote s).mem - 1 }
  | od_open_block.users _ _ entries => entries.foldl od_user_denote s
  | od_open_block.user _ _ entries name _ fields =>
    { entries.foldl od_user_denote s with
        users := (entries.foldl od_user_denote s).users ++
               [fields.foldl od_user_assign { user := some name.string }],
        mem := (entries.foldl od_user_denote s).mem - 1 }

/-- The loop of the open block, as it runs from a position inside the block;
the entry being filled is the last one of its collection. -/
def od_open_block.run (b : od_open_block) (fuel : Nat) (config : od_config_t) :
    Option (Int × od_config_t) :=
  match b with
  | od_open_block.top => od_configparse_loop fuel config
  | od_open_block.listen _ _ _ => od_configparse_listen_loop fuel config
  | od_open_block.server _ _ _ _ =>
    od_configparse_server_loop fuel config (config.scheme.servers.length - 1)
  | od_open_block.routing _ _ _ => od_configparse_routing_loop fuel config
  | od_open_block.route _ _ _ _ _ _ =>
    od_configparse_route_loop fuel config (config.scheme.routes.length - 1)
  | od_open_block.users _ _ _ => od_configparse_users_loop fuel config
  | od_open_block.user _ _ _ _ _ _ =>
    od_configparse_user_loop fuel config (config.scheme.users.length - 1)

/-- The `case` labels of the `switch` in the loop of the open block (every
token kind that does not fall to `default`). -/
def od_open_block.labels : od_open_block → List od_tokenid
  | od_open_block.top =>
    [OD_LDAEMONIZE, OD_LLOG_VERBOSITY, OD_LLOG_FILE, OD_LPID_FILE, OD_LSYSLOG,
     OD_LSYSLOG_IDENT, OD_LSYSLOG_FACILITY, OD_LPOOLING, OD_LLISTEN, OD_LSERVER,
     OD_LROUTING, OD_LUSERS, OD_LEOF, OD_RBRACE]
  | od_open_block.listen _ _ _ =>
    [OD_LHOST, OD_LPORT, OD_LBACKLOG, OD_LNODELAY, OD_LKEEPALIVE, OD_LCLIENT_MAX,
     OD_LWORKERS, OD_LEOF, OD_RBRACE]
  | od_open_block.server _ _ _ _ => [OD_LHOST, OD_LPORT, OD_LEOF, OD_RBRACE]
  | od_open_block.routing _ _ _ =>
    [OD_LMODE, OD_LSTRING, OD_LDEFAULT, OD_LEOF, OD_RBRACE]
  | od_open_block.route _ _ _ _ _ _ =>
    [OD_LROUTE, OD_LCLIENT_MAX, OD_LPOOL_MIN, OD_LPOOL_MAX, OD_LDATABASE, OD_LUSER,
     OD_LPASSWORD, OD_LTTL, OD_LEOF, OD_RBRACE]
  | od_open_block.users _ _ _ => [OD_LSTRING, OD_LEOF, OD_RBRACE]
  | od_open_block.user _ _ _ _ _ _ => [OD_LPASSWORD, OD_LEOF, OD_RBRACE]

/-- The yes/no fields of a block: `daemonize` and `syslog` at the top level,
`nodelay` in the listen block. -/
def od_open_block.yes_no_field (b : od_open_block) (id : od_tokenid) : Prop :=
  match b with
  | od_open_block.top => id = OD_LDAEMONIZE ∨ id = OD_LSYSLOG
  | od_open_block.listen _ _ _ => id = OD_LNODELAY
  | _ => False

/-- A position of the parser at which a block loop is about to pop a token:
the root keyword and brace, the complete top-level statements read so far,
and the block that is open. -/
structure od_position where
  root : od_token_t
  lbrace : od_token_t
  stmts : List od_stmt
  block : od_open_block
  deriving DecidableEq, Repr

/-- All the tokens read up to the position. -/
def od_position.tokens (p : od_position) : List od_token_t :=
  p.root :: p.lbrace :: (od_items_tokens od_stmt.tokens p.stmts ++ p.block.tokens)

/-- Everything read up to the position follows the grammar. -/
def od_position.ok (p : od_position) : Prop :=
  p.root.id = OD_LODISSEY ∧ p.lbrace.id = OD_LBRACE ∧ (∀ st ∈ p.stmts, st.ok) ∧
  p.block.ok

/-- The entries allocated up to the position. -/
def od_position.need (p : od_position) : Nat :=
  od_items_need od_stmt.need p.stmts + p.block.need

/-- The scheme at the position, from the scheme `s` at the start. -/
def od_position.scheme (s : od_scheme_t) (p : od_position) : od_scheme_t :=
  p.block.scheme (p.stmts.foldl od_stmt.denote s)

/-- The parser object at the position. -/
def od_position.config (config : od_config_t) (p : od_position) : od_config_t :=
  { lex := od_lexpops p.tokens.length config.lex, log := config.log,
    scheme := p.scheme config.scheme }

/-- A position inside a listen block, after `odissey { listen { host "h"`. -/
def od_example_listen_position : od_position :=
  { root := od_tok OD_LODISSEY 1, lbrace := od_tok OD_LBRACE 1, stmts := [],
    block := od_open_block.listen (od_tok OD_LLISTEN 2) (od_tok OD_LBRACE 2)
      [ { key := od_tok OD_LHOST 3, value := od_tok_string "h" 3 } ] }

/-- A position at the top level, after `odissey { log_verbosity 3`. -/
def od_example_top_position : od_position :=
  { root := od_tok OD_LODISSEY 1, lbrace := od_tok OD_LBRACE 1,
    stmts := [ od_stmt.global { key := od_tok OD_LLOG_VERBOSITY 2,
                                value := od_tok_number 3 2 } ],
    block := od_open_block.top }

/-- A configuration with two server blocks, `odissey { server "a" { host "h1"
port 1 } log_verbosity 2 server "b" { port 2 } }`. -/
def od_example_two_servers : od_sentence :=
  { root := od_tok OD_LODISSEY 1, lbrace := od_tok OD_LBRACE 1,
    stmts :=
      [ od_stmt.server (od_tok OD_LSERVER 2)
          { name := od_tok_string "a" 2, lbrace := od_tok OD_LBRACE 2,
            fields := [ { key := od_tok OD_LHOST 2, value := od_tok_string "h1" 2 },
                        { key := od_tok OD_LPORT 2, value := od_tok_number 1 2 } ],
            rbrace := od_tok OD_RBRACE 2 },
        od_stmt.global { key := od_tok OD_LLOG_VERBOSITY 3,
                         value := od_tok_number 2 3 },
        od_stmt.server (od_tok OD_LSERVER 4)
          { name := od_tok_string "b" 4, lbrace := od_tok OD_LBRACE 4,
            fields := [ { key := od_tok OD_LPORT 4, value := od_tok_number 2 4 } ],
            rbrace := od_tok OD_RBRACE 4 } ],
    rbrace := od_tok OD_RBRACE 5 }

/-- A parser object whose Servers collection already holds one entry. -/
def od_example_config_one_server (toks : List od_token_t) : od_config_t :=
  { lex := { toks := toks, eof_line := 6, line := 1, error := "", popped := 0 },
    log := [],
    scheme := { config_file := "odissey.conf",
                servers := [{ name := some "old", host := none, port := 7 }],
                mem := 2 } }

/-- The tokens of `odissey { routing { default { ttl n } } }`, one token per
line. -/
def od_example_default_route (n : Int) : List od_token_t :=
  [ od_tok OD_LODISSEY 1, od_tok OD_LBRACE 2, od_tok OD_LROUTING 3,
    od_tok OD_LBRACE 4, od_tok OD_LDEFAULT 5, od_tok OD_LBRACE 6, od_tok OD_LTTL 7,
    od_tok_number n 8, od_tok OD_RBRACE 9, od_tok OD_RBRACE 10,
    od_tok OD_RBRACE 11 ]

/-- The tokens of `odissey { routing { "s" { pool_max n } } }`, one token per
line. -/
def od_example_named_route (s : String) (n : Int) : List od_token_t :=
  [ od_tok OD_LODISSEY 1, od_tok OD_LBRACE 2, od_tok OD_LROUTING 3,
    od_tok OD_LBRACE 4, od_tok_string s 5, od_tok OD_LBRACE 6,
    od_tok OD_LPOOL_MAX 7, od_tok_number n 8, od_tok OD_RBRACE 9,
    od_tok OD_RBRACE 10, od_tok OD_RBRACE 11 ]

/-- The tokens of a construct that has been started at a position but is not
complete: a field keyword whose value is missing, a block keyword or an entry
name whose opening brace is missing, the `server` keyword whose name is
missing. -/
def od_open_block.pending (b : od_open_block) (ts : List od_token_t) : Prop :=
  match b, ts with
  | od_open_block.top, [kw] =>
    od_global_kind kw.id ≠ none ∨ kw.id = OD_LLISTEN ∨ kw.id = OD_LSERVER ∨
    kw.id = OD_LROUTING ∨ kw.id = OD_LUSERS
  | od_open_block.top, [kw, name] => kw.id = OD_LSERVER ∧ name.id = OD_LSTRING
  | od_open_block.listen _ _ _, [kw] => od_listen_kind kw.id ≠ none
  | od_open_block.server _ _ _ _, [kw] => od_server_kind kw.id ≠ none
  | od_open_block.routing _ _ _, [kw] =>
    od_mode_kind kw.id ≠ none ∨ kw.id = OD_LSTRING ∨ kw.id = OD_LDEFAULT
  | od_open_block.route _ _ _ _ _ _, [kw] => od_route_kind kw.id ≠ none
  | od_open_block.users _ _ _, [kw] => kw.id = OD_LSTRING
  | od_open_block.user _ _ _ _ _ _, [kw] => od_user_kind kw.id ≠ none
  | _, _ => False

/-- A position inside a route block, after
`odissey { routing { "db" { pool_min 1`. -/
def od_example_route_position : od_position :=
  { root := od_tok OD_LODISSEY 1, lbrace := od_tok OD_LBRACE 1, stmts := [],
    block := od_open_block.route (od_tok OD_LROUTING 2) (od_tok OD_LBRACE 2) []
      (od_tok_string "db" 3) (od_tok OD_LBRACE 3)
      [ { key := od_tok OD_LPOOL_MIN 4, value := od_tok_number 1 4 } ] }

/-! ## Definitions for the message texts, stored values and frames -/

/-- The text `od_confignext` reports when the popped token is not of the
expected kind `id`: the literal character when `id` is a punctuation character
below 0xff, the symbolic name of the token kind otherwise. -/
def od_expected_text (id : od_tokenid) : String :=
  match id with
  | OD_LPUNCT c =>
    if c < 0xff ∧ ispunct c then
      "expected '" ++ String.singleton (Char.ofNat c) ++ "'"
    else "expected '" ++ od_lexname_of id ++ "'"
  | _ => "expected '" ++ od_lexname_of id ++ "'"

/-- The field keywords of the open block's loop and the kind of value each
requires (the `users` block has no fields of its own). -/
def od_open_block.kind : od_open_block → od_tokenid → Option od_valuekind
  | od_open_block.top => od_global_kind
  | od_open_block.listen _ _ _ => od_listen_kind
  | od_open_block.server _ _ _ _ => od_server_kind
  | od_open_block.routing _ _ _ => od_mode_kind
  | od_open_block.route _ _ _ _ _ _ => od_route_kind
  | od_open_block.users _ _ _ => fun _ => none
  | od_open_block.user _ _ _ _ _ _ => od_user_kind

/-- The scheme with the global listen fields blanked: two schemes agree
outside the listen fields exactly when their frames are equal. -/
def od_listen_frame (s : od_scheme_t) : od_scheme_t :=
  { s with host := none, port := 0, backlog := 0, nodelay := 0, keepalive := 0,
           client_max := 0, workers := 0 }

/-- The parser object `config` reading the token list `toks` instead of its
own. -/
def od_config_with (config : od_config_t) (toks : List od_token_t) : od_config_t :=
  { config with lex := { config.lex with toks := toks } }

/-- The tokens of `odissey { users { "alice" { } "bob" { password "x"
password "y" } } }`: a user entry with an empty body and one with two
password fields. -/
def od_example_loose_users : List od_token_t :=
  [ od_tok OD_LODISSEY 1, od_tok OD_LBRACE 1, od_tok OD_LUSERS 2, od_tok OD_LBRACE 2,
    od_tok_string "alice" 3, od_tok OD_LBRACE 3, od_tok OD_RBRACE 3,
    od_tok_string "bob" 4, od_tok OD_LBRACE 4,
    od_tok OD_LPASSWORD 4, od_tok_string "x" 4,
    od_tok OD_LPASSWORD 4, od_tok_string "y" 4, od_tok OD_RBRACE 4,
    od_tok OD_RBRACE 5, od_tok OD_RBRACE 6 ]

/-- The message of the helper that reads a value of kind `vk`: the one of
`od_confignext` called with `OD_LSTRING` or `OD_LNUMBER`, the one of
`od_confignext_yes_no`. -/
def od_value_text : od_valuekind → String
  | od_valuekind.string => od_expected_text OD_LSTRING
  | od_valuekind.number => od_expected_text OD_LNUMBER
  | od_valuekind.yes_no => "expected yes/no"

/-- The token `t` is a value of kind `vk`. -/
def od_valuekind.accepts (vk : od_valuekind) (t : od_token_t) : Prop :=
  match vk with
  | od_valuekind.string => t.id = OD_LSTRING
  | od_valuekind.number => t.id = OD_LNUMBER
  | od_valuekind.yes_no => t.id = OD_LYES ∨ t.id = OD_LNO

/-- The helper call with which a block loop reads the value of a field of
kind `vk`: its return code and the parser object after it. -/
def od_read_value (vk : od_valuekind) (config : od_config_t) : Int × od_config_t :=
  match vk with
  | od_valuekind.string =>
    ((od_confignext config OD_LSTRING).1, (od_confignext config OD_LSTRING).2.2)
  | od_valuekind.number =>
    ((od_confignext config OD_LNUMBER).1, (od_confignext config OD_LNUMBER).2.2)
  | od_valuekind.yes_no =>
    ((od_confignext_yes_no config).1, (od_confignext_yes_no config).2.2)

/-- What the parser is waiting for after the tokens of a construct that has
been started: the value of a field keyword, the opening brace of a block, or
the name of a server. -/
inductive od_awaited where
  | value (vk : od_valuekind)
  | brace
  | name
  deriving DecidableEq, Repr

/-- The message reported when the awaited token does not come: the one of the
helper that reads a value, or the one of `od_confignext` called with the
opening brace or with `OD_LSTRING`. -/
def od_awaited.text : od_awaited → String
  | od_awaited.value vk => od_value_text vk
  | od_awaited.brace => od_expected_text OD_LBRACE
  | od_awaited.name => od_expected_text OD_LSTRING

/-- The token `t` is the awaited one. -/
def od_awaited.accepts (a : od_awaited) (t : od_token_t) : Prop :=
  match a with
  | od_awaited.value vk => vk.accepts t
  | od_awaited.brace => t.id = OD_LBRACE
  | od_awaited.name => t.id = OD_LSTRING

/-- The construct that the tokens `ts` have started at a position of the open
block, by what the parser awaits next: after a field keyword its value, after
`listen`, `routing`, `users`, a route name, `default` or a user name the
opening brace, after `server` the name and after the name the opening brace;
`none` when `ts` starts no construct. -/
def od_open_block.awaits (b : od_open_block) (ts : List od_token_t) :
    Option od_awaited :=
  match b, ts with
  | od_open_block.top, [kw] =>
    match od_global_kind kw.id with
    | some vk => some (od_awaited.value vk)
    | none =>
      if kw.id = OD_LSERVER then some od_awaited.name
      else if kw.id = OD_LLISTEN ∨ kw.id = OD_LROUTING ∨ kw.id = OD_LUSERS then
        some od_awaited.brace
      else none
  | od_open_block.top, [kw, name] =>
    if kw.id = OD_LSERVER ∧ name.id = OD_LSTRING then some od_awaited.brace else none
  | od_open_block.listen _ _ _, [kw] => (od_listen_kind kw.id).map od_awaited.value
  | od_open_block.server _ _ _ _, [kw] => (od_server_kind kw.id).map od_awaited.value
  | od_open_block.routing _ _ _, [kw] =>
    match od_mode_kind kw.id with
    | some vk => some (od_awaited.value vk)
    | none =>
      if kw.id = OD_LSTRING ∨ kw.id = OD_LDEFAULT then some od_awaited.brace else none
  | od_open_block.route _ _ _ _ _ _, [kw] => (od_route_kind kw.id).map od_awaited.value
  | od_open_block.users _ _ _, [kw] =>
    if kw.id = OD_LSTRING then some od_awaited.brace else none
  | od_open_block.user _ _ _ _ _ _, [kw] => (od_user_kind kw.id).map od_awaited.value
  | _, _ => none

/-- The entries that the construct started by `ts` allocates before the
awaited token is popped: one for `server`, for a route name or `default`, and
for a user name. -/
def od_open_block.pending_need (b : od_open_block) (ts : List od_token_t) : Nat :=
  match b, ts with
  | od_open_block.top, [kw] => if kw.id = OD_LSERVER then 1 else 0
  | od_open_block.top, [_, _] => 1
  | od_open_block.routing _ _ _, [kw] =>
    if kw.id = OD_LSTRING ∨ kw.id = OD_LDEFAULT then 1 else 0
  | od_open_block.users _ _ _, [_] => 1
  | _, _ => 0

/-- The scheme when the awaited token is popped, from the scheme `s` at the
position: `od_configparse_server` has appended a fresh server entry (and named
it once the name is read), `od_configparse_route` a route entry with its
target, `od_configparse_user` a user entry with its name; every other
construct has written nothing yet. -/
def od_open_block.started (b : od_open_block) (ts : List od_token_t)
    (s : od_scheme_t) : od_scheme_t :=
  match b, ts with
  | od_open_block.top, [kw] =>
    if kw.id = OD_LSERVER then
      { s with servers := s.servers ++ [{}], mem := s.mem - 1 }
    else s
  | od_open_block.top, [_, name] =>
    { s with servers := s.servers ++ [{ name := some name.string }], mem := s.mem - 1 }
  | od_open_block.routing _ _ _, [kw] =>
    if kw.id = OD_LSTRING ∨ kw.id = OD_LDEFAULT then
      { s with routes := s.routes ++ [od_route_start kw], mem := s.mem - 1 }
    else s
  | od_open_block.users _ _ _, [kw] =>
    { s with users := s.users ++ [{ user := some kw.string }], mem := s.mem - 1 }
  | _, _ => s

/-! ## Basic facts -/

theorem od_lexpops_add (a b : Nat) (l : od_lex_t) :
    od_lexpops (a + b) l = od_lexpops b (od_lexpops a l) := by
  induction a generalizing l with
  | zero => simp [od_lexpops]
  | succ n ih =>
    have : n + 1 + b = (n + b) + 1 := by omega
    rw [this]
    simp [od_lexpops, ih]

theorem od_lexpops_toks (n : Nat) (l : od_lex_t) :
    (od_lexpops n l).toks = l.toks.drop n := by
  induction n generalizing l with
  | zero => simp [od_lexpops]
  | succ n ih =>
    simp only [od_lexpops, ih]
    unfold od_lexpop
    cases h : l.toks <;> simp

theorem od_lexpops_toks_app (l : od_lex_t) (a b : List od_token_t) (n : Nat)
    (h : l.toks = a ++ b) (hn : n = a.length) : (od_lexpops n l).toks = b := by
  rw [od_lexpops_toks, h, hn, List.drop_left]

theorem od_lexpops_popped (n : Nat) (l : od_lex_t) :
    (od_lexpops n l).popped = l.popped + n := by
  induction n generalizing l with
  | zero => simp [od_lexpops]
  | succ n ih =>
    simp only [od_lexpops, ih]
    unfold od_lexpop
    cases h : l.toks <;> simp <;> omega

theorem od_msg256_unknown : od_msg256 "unknown option" = "unknown option" := by
  decide

theorem od_msg256_eof :
    od_msg256 "unexpected end of config file" = "unexpected end of config file" := by
  decide

theorem od_msg256_yes_no : od_msg256 "expected yes/no" = "expected yes/no" := by
  decide

theorem od_listen_loop_step (fuel : Nat) (config : od_config_t) (f : od_field)
    (rest : List od_token_t) (hok : f.ok od_listen_kind)
    (htoks : config.lex.toks = f.key :: f.value :: rest) :
    od_configparse_listen_loop (fuel + 1) config =
      od_configparse_listen_loop fuel
        { lex := od_lexpops 2 config.lex, log := config.log,
          scheme := od_listen_assign config.scheme f } := by
  cases hk : f.key.id <;> simp [od_field.ok, od_listen_kind, hk] at hok
  case OD_LNODELAY =>
    rcases hok with hv | hv <;>
    simp [od_configparse_listen_loop, od_lexpop, od_lexpops, htoks, hk, hv,
      od_confignext_yes_no, od_listen_assign, od_yes_no_value]
  all_goals
    simp [od_configparse_listen_loop, od_lexpop, od_lexpops, htoks, hk, hok,
      od_confignext, od_listen_assign]

theorem od_loop_items {α : Type}
    (L : Nat → od_config_t → Option (Int × od_config_t))
    (tokens : α → List od_token_t) (denote : od_scheme_t → α → od_scheme_t)
    (ok : α → Prop) (need : α → Nat)
    (hmem : ∀ s x, (denote s x).mem = s.mem - need x)
    (hpos : ∀ x, ok x → 0 < (tokens x).length)
    (hstep : ∀ (fuel : Nat) (config : od_config_t) (x : α) (rest : List od_token_t),
      ok x → need x ≤ config.scheme.mem →
      config.lex.toks = tokens x ++ rest → config.lex.toks.length < fuel + 1 →
      L (fuel + 1) config =
        L fuel { lex := od_lexpops (tokens x).length config.lex, log := config.log,
                 scheme := denote config.scheme x })
    (items : List α) :
    ∀ (fuel : Nat) (config : od_config_t) (rest : List od_token_t),
      (∀ x ∈ items, ok x) →
      od_items_need need items ≤ config.scheme.mem →
      config.lex.toks = od_items_tokens tokens items ++ rest →
      config.lex.toks.length < fuel →
      L fuel config =
        L (fuel - items.length)
          { lex := od_lexpops (od_items_tokens tokens items).length config.lex,
            log := config.log,
            scheme := items.foldl denote config.scheme } := by
  induction items with
  | nil => intro fuel config rest _ _ _ _; rfl
  | cons x xs ih =>
    intro fuel config rest hok hneed htoks hfuel
    obtain ⟨fuel, rfl⟩ : ∃ k, fuel = k + 1 := ⟨fuel - 1, by omega⟩
    simp only [od_items_need] at hneed
    simp only [od_items_tokens, List.append_assoc] at htoks
    have hp := hpos x (hok x (by simp))
    rw [hstep fuel config x (od_items_tokens tokens xs ++ rest) (hok x (by simp))
      (by omega) htoks hfuel]
    have h2 := ih fuel
      { lex := od_lexpops (tokens x).length config.lex, log := config.log,
        scheme := denote config.scheme x } rest
      (fun y hy => hok y (by simp [hy]))
      (by simp only [hmem]; omega)
      (by simp [od_lexpops_toks, htoks])
      (by simp only [od_lexpops_toks, htoks]; rw [htoks] at hfuel
          simp at hfuel ⊢; omega)
    rw [h2]
    have e1 : fuel + 1 - (x :: xs).length = fuel - xs.length := by simp
    rw [e1]
    simp only [od_items_tokens, List.length_append, od_lexpops_add, List.foldl_cons]

theorem od_entry_update_last {α : Type} (f : α → α) (pre : List α) (e : α) :
    od_entry_update f (pre ++ [e]) pre.length = pre ++ [f e] := by
  induction pre with
  | nil => rfl
  | cons x xs ih => simp [od_entry_update, ih]

theorem od_server_loop_step (fuel : Nat) (config : od_config_t) (server : Nat)
    (f : od_field) (rest : List od_token_t) (hok : f.ok od_server_kind)
    (htoks : config.lex.toks = f.key :: f.value :: rest) :
    od_configparse_server_loop (fuel + 1) config server =
      od_configparse_server_loop fuel
        { lex := od_lexpops 2 config.lex, log := config.log,
          scheme := config.scheme.server_set server (fun e => od_server_assign e f) }
        server := by
  cases hk : f.key.id <;> simp [od_field.ok, od_server_kind, hk] at hok
  all_goals
    simp [od_configparse_server_loop, od_lexpop, od_lexpops, htoks, hk, hok,
      od_confignext, od_server_assign]

theorem od_route_loop_step (fuel : Nat) (config : od_config_t) (route : Nat)
    (f : od_field) (rest : List od_token_t) (hok : f.ok od_route_kind)
    (htoks : config.lex.toks = f.key :: f.value :: rest) :
    od_configparse_route_loop (fuel + 1) config route =
      od_configparse_route_loop fuel
        { lex := od_lexpops 2 config.lex, log := config.log,
          scheme := config.scheme.route_set route (fun e => od_route_assign e f) }
        route := by
  cases hk : f.key.id <;> simp [od_field.ok, od_route_kind, hk] at hok
  all_goals
    simp [od_configparse_route_loop, od_lexpop, od_lexpops, htoks, hk, hok,
      od_confignext, od_route_assign]

theorem od_user_loop_step (fuel : Nat) (config : od_config_t) (user : Nat)
    (f : od_field) (rest : List od_token_t) (hok : f.ok od_user_kind)
    (htoks : config.lex.toks = f.key :: f.value :: rest) :
    od_configparse_user_loop (fuel + 1) config user =
      od_configparse_user_loop fuel
        { lex := od_lexpops 2 config.lex, log := config.log,
          scheme := config.scheme.user_set user (fun e => od_user_assign e f) }
        user := by
  cases hk : f.key.id <;> simp [od_field.ok, od_user_kind, hk] at hok
  all_goals
    simp [od_configparse_user_loop, od_lexpop, od_lexpops, htoks, hk, hok,
      od_confignext, od_user_assign]

theorem od_global_loop_step (fuel : Nat) (config : od_config_t)
    (f : od_field) (rest : List od_token_t) (hok : f.ok od_global_kind)
    (htoks : config.lex.toks = f.key :: f.value :: rest) :
    od_configparse_loop (fuel + 1) config =
      od_configparse_loop fuel
        { lex := od_lexpops 2 config.lex, log := config.log,
          scheme := od_global_assign config.scheme f } := by
  cases hk : f.key.id <;> simp [od_field.ok, od_global_kind, hk] at hok
  case OD_LDAEMONIZE =>
    rcases hok with hv | hv <;>
    simp [od_configparse_loop, od_lexpop, od_lexpops, htoks, hk, hv,
      od_confignext_yes_no, od_global_assign, od_yes_no_value]
  case OD_LSYSLOG =>
    rcases hok with hv | hv <;>
    simp [od_configparse_loop, od_lexpop, od_lexpops, htoks, hk, hv,
      od_confignext_yes_no, od_global_assign, od_yes_no_value]
  all_goals
    simp [od_configparse_loop, od_lexpop, od_lexpops, htoks, hk, hok,
      od_confignext, od_global_assign]

theorem od_mode_loop_step (fuel : Nat) (config : od_config_t)
    (f : od_field) (rest : List od_token_t) (hok : f.ok od_mode_kind)
    (htoks : config.lex.toks = f.key :: f.value :: rest) :
    od_configparse_routing_loop (fuel + 1) config =
      od_configparse_routing_loop fuel
        { lex := od_lexpops 2 config.lex, log := config.log,
          scheme := { config.scheme with routing := some f.value.string } } := by
  cases hk : f.key.id <;> simp [od_field.ok, od_mode_kind, hk] at hok
  all_goals
    simp [od_configparse_routing_loop, od_lexpop, od_lexpops, htoks, hk, hok,
      od_confignext]

theorem od_items_tokens_length_fields (fields : List od_field) :
    (od_items_tokens od_field.tokens fields).length = 2 * fields.length := by
  induction fields with
  | nil => rfl
  | cons f fs ih => simp [od_items_tokens, od_field.tokens, ih]; omega

theorem od_rc_ok : ((0 : Int) = -1) = False := by decide

theorem od_items_need_zero {α : Type} (items : List α) :
    od_items_need (fun _ => 0) items = 0 := by
  induction items with
  | nil => rfl
  | cons x xs ih => simp [od_items_need, ih]

theorem od_confignext_ok (config : od_config_t) (id : od_tokenid)
    (t : od_token_t) (rest : List od_token_t)
    (htoks : config.lex.toks = t :: rest) (hid : t.id = id) (hne : id ≠ OD_LERROR) :
    od_confignext config id =
      (0, some t, { lex := od_lexpops 1 config.lex, log := config.log,
                    scheme := config.scheme }) := by
  subst hid
  simp [od_confignext, od_lexpop, od_lexpops, htoks, hne]

theorem od_lexpop_cons (l : od_lex_t) (t : od_token_t) (rest : List od_token_t)
    (htoks : l.toks = t :: rest) : (od_lexpop l).1 = t := by
  simp [od_lexpop, htoks]

theorem od_listen_loop_fields (fields : List od_field) (fuel : Nat)
    (config : od_config_t) (rest : List od_token_t)
    (hok : ∀ f ∈ fields, f.ok od_listen_kind)
    (htoks : config.lex.toks = od_items_tokens od_field.tokens fields ++ rest)
    (hfuel : config.lex.toks.length < fuel) :
    od_configparse_listen_loop fuel config =
      od_configparse_listen_loop (fuel - fields.length)
        { lex := od_lexpops (od_items_tokens od_field.tokens fields).length config.lex,
          log := config.log,
          scheme := fields.foldl od_listen_assign config.scheme } := by
  refine od_loop_items od_configparse_listen_loop od_field.tokens od_listen_assign
    (fun f => f.ok od_listen_kind) (fun _ => 0) ?_ ?_ ?_ fields fuel config rest hok
    (by simp [od_items_need_zero]) htoks hfuel
  · intro s x; unfold od_listen_assign; split <;> rfl
  · intro x _; simp [od_field.tokens]
  · intro fuel config x rest hx _ ht _
    exact od_listen_loop_step fuel config x rest hx (by simpa [od_field.tokens] using ht)

theorem od_listen_loop_close (fuel : Nat) (config : od_config_t)
    (t : od_token_t) (rest : List od_token_t)
    (htoks : config.lex.toks = t :: rest) (hid : t.id = OD_RBRACE) :
    od_configparse_listen_loop (fuel + 1) config =
      some (0, { lex := od_lexpops 1 config.lex, log := config.log,
                 scheme := config.scheme }) := by
  simp [od_configparse_listen_loop, od_lexpop, od_lexpops, htoks, hid, OD_RBRACE]

theorem od_listen_open (fuel : Nat) (config : od_config_t)
    (lbrace : od_token_t) (fields : List od_field) (rest : List od_token_t)
    (hl : lbrace.id = OD_LBRACE)
    (hok : ∀ f ∈ fields, f.ok od_listen_kind)
    (htoks : config.lex.toks =
      lbrace :: (od_items_tokens od_field.tokens fields ++ rest))
    (hfuel : config.lex.toks.length < fuel + 1) :
    od_configparse_listen fuel config =
      od_configparse_listen_loop (fuel - fields.length)
        { lex := od_lexpops (1 + (od_items_tokens od_field.tokens fields).length)
                   config.lex,
          log := config.log,
          scheme := fields.foldl od_listen_assign config.scheme } := by
  have hlen := congrArg List.length htoks
  simp at hlen
  unfold od_configparse_listen
  rw [od_confignext_ok config OD_LBRACE lbrace _ htoks hl (by simp [OD_LBRACE])]
  simp only [od_rc_ok, if_false]
  rw [od_listen_loop_fields fields fuel _ rest hok
    (by simp [od_lexpops_toks, htoks]) (by simp [od_lexpops_toks, htoks]; omega)]
  simp only [← od_lexpops_add]

theorem od_listen_block (fuel : Nat) (config : od_config_t)
    (lbrace : od_token_t) (fields : List od_field) (rbrace : od_token_t)
    (rest : List od_token_t)
    (hl : lbrace.id = OD_LBRACE) (hr : rbrace.id = OD_RBRACE)
    (hok : ∀ f ∈ fields, f.ok od_listen_kind)
    (htoks : config.lex.toks =
      lbrace :: (od_items_tokens od_field.tokens fields ++ [rbrace]) ++ rest)
    (hfuel : config.lex.toks.length < fuel + 1) :
    od_configparse_listen fuel config =
      some (0, { lex := od_lexpops
                   (lbrace :: (od_items_tokens od_field.tokens fields ++ [rbrace])).length
                   config.lex,
                 log := config.log,
                 scheme := fields.foldl od_listen_assign config.scheme }) := by
  have hlen := congrArg List.length htoks
  simp at hlen
  rw [od_listen_open fuel config lbrace fields (rbrace :: rest) hl hok
    (by simpa using htoks) hfuel]
  obtain ⟨k, hk⟩ : ∃ k, fuel - fields.length = k + 1 :=
    ⟨fuel - fields.length - 1, by
      have := od_items_tokens_length_fields fields; omega⟩
  rw [hk, od_listen_loop_close k _ rbrace rest
    (od_lexpops_toks_app _ (lbrace :: od_items_tokens od_field.tokens fields) _ _
      (by simpa using htoks) (by simp; omega)) hr]
  simp only [← od_lexpops_add]
  congr 4
  simp; omega

theorem od_server_fold (fields : List od_field) :
    ∀ (s : od_scheme_t) (pre : List od_schemeserver_t) (e : od_schemeserver_t),
      s.servers = pre ++ [e] →
      fields.foldl
          (fun s f => s.server_set pre.length (fun e => od_server_assign e f)) s =
        { s with servers := pre ++ [fields.foldl od_server_assign e] } := by
  induction fields with
  | nil => intro s pre e h; cases s; simp at h; simp [h]
  | cons f fs ih =>
    intro s pre e h
    simp only [List.foldl_cons]
    rw [ih (s.server_set pre.length (fun e => od_server_assign e f)) pre
      (od_server_assign e f) (by simp [od_scheme_t.server_set, h, od_entry_update_last])]
    simp [od_scheme_t.server_set]

theorem od_server_loop_fields (fields : List od_field) (fuel : Nat)
    (config : od_config_t) (server : Nat) (rest : List od_token_t)
    (hok : ∀ f ∈ fields, f.ok od_server_kind)
    (htoks : config.lex.toks = od_items_tokens od_field.tokens fields ++ rest)
    (hfuel : config.lex.toks.length < fuel) :
    od_configparse_server_loop fuel config server =
      od_configparse_server_loop (fuel - fields.length)
        { lex := od_lexpops (od_items_tokens od_field.tokens fields).length config.lex,
          log := config.log,
          scheme := fields.foldl
            (fun s f => s.server_set server (fun e => od_server_assign e f))
            config.scheme } server := by
  refine od_loop_items (fun n c => od_configparse_server_loop n c server)
    od_field.tokens
    (fun s f => s.server_set server (fun e => od_server_assign e f))
    (fun f => f.ok od_server_kind) (fun _ => 0) ?_ ?_ ?_ fields fuel config rest hok
    (by simp [od_items_need_zero]) htoks hfuel
  · intro s x; rfl
  · intro x _; simp [od_field.tokens]
  · intro fuel config x rest hx _ ht _
    exact od_server_loop_step fuel config server x rest hx
      (by simpa [od_field.tokens] using ht)

theorem od_server_loop_close (fuel : Nat) (config : od_config_t) (server : Nat)
    (t : od_token_t) (rest : List od_token_t)
    (htoks : config.lex.toks = t :: rest) (hid : t.id = OD_RBRACE) :
    od_configparse_server_loop (fuel + 1) config server =
      some (0, { lex := od_lexpops 1 config.lex, log := config.log,
                 scheme := config.scheme }) := by
  simp [od_configparse_server_loop, od_lexpop, od_lexpops, htoks, hid, OD_RBRACE]

theorem od_server_open (fuel : Nat) (config : od_config_t)
    (name lbrace : od_token_t) (fields : List od_field) (rest : List od_token_t)
    (hn : name.id = OD_LSTRING) (hl : lbrace.id = OD_LBRACE)
    (hok : ∀ f ∈ fields, f.ok od_server_kind)
    (hmem : 0 < config.scheme.mem)
    (htoks : config.lex.toks =
      name :: lbrace :: (od_items_tokens od_field.tokens fields ++ rest))
    (hfuel : config.lex.toks.length < fuel + 1) :
    od_configparse_server fuel config =
      od_configparse_server_loop (fuel - fields.length)
        { lex := od_lexpops (2 + (od_items_tokens od_field.tokens fields).length)
                   config.lex,
          log := config.log,
          scheme := { config.scheme with
            servers := config.scheme.servers ++
              [fields.foldl od_server_assign { name := some name.string }],
            mem := config.scheme.mem - 1 } }
        config.scheme.servers.length := by
  have hlen := congrArg List.length htoks
  simp at hlen
  unfold od_configparse_server od_schemeserver_add
  rw [if_neg (by omega)]
  dsimp only
  rw [od_confignext_ok _ OD_LSTRING name
    (lbrace :: (od_items_tokens od_field.tokens fields ++ rest)) ?h1 hn (by simp)]
  case h1 => exact htoks
  dsimp only
  rw [if_neg (by decide)]
  rw [od_confignext_ok _ OD_LBRACE lbrace
    (od_items_tokens od_field.tokens fields ++ rest) ?h2 hl (by simp [OD_LBRACE])]
  case h2 => exact od_lexpops_toks_app _ [name] _ _ htoks rfl
  dsimp only
  rw [if_neg (by decide)]
  rw [od_server_loop_fields fields fuel _ _ rest hok ?h3 ?h4]
  case h3 =>
    exact od_lexpops_toks_app _ [lbrace] _ _
      (od_lexpops_toks_app _ [name] _ _ htoks rfl) rfl
  case h4 =>
    have h := od_lexpops_toks_app (od_lexpops 1 config.lex) [lbrace] _ 1
      (od_lexpops_toks_app _ [name] _ 1 htoks rfl) rfl
    show (od_lexpops 1 (od_lexpops 1 config.lex)).toks.length < fuel
    rw [h]; simp; omega
  rw [od_server_fold fields _ config.scheme.servers { name := some name.string }
    (by simp [od_scheme_t.server_set, od_entry_update_last])]
  simp only [← od_lexpops_add]
  rfl

theorem od_server_block (fuel : Nat) (config : od_config_t) (e : od_entry)
    (rest : List od_token_t)
    (hn : e.name.id = OD_LSTRING) (hok : e.ok od_server_kind)
    (hmem : 0 < config.scheme.mem)
    (htoks : config.lex.toks = e.tokens ++ rest)
    (hfuel : config.lex.toks.length < fuel + 1) :
    od_configparse_server fuel config =
      some (0, { lex := od_lexpops e.tokens.length config.lex, log := config.log,
                 scheme := od_server_denote config.scheme e }) := by
  obtain ⟨hl, hr, hf⟩ := hok
  have hlen := congrArg List.length htoks
  simp [od_entry.tokens] at hlen htoks
  rw [od_server_open fuel config e.name e.lbrace e.fields (e.rbrace :: rest) hn hl hf
    hmem (by simpa using htoks) hfuel]
  obtain ⟨k, hk⟩ : ∃ k, fuel - e.fields.length = k + 1 :=
    ⟨fuel - e.fields.length - 1, by
      have := od_items_tokens_length_fields e.fields; omega⟩
  rw [hk, od_server_loop_close k _ _ e.rbrace rest
    (od_lexpops_toks_app _
      (e.name :: e.lbrace :: od_items_tokens od_field.tokens e.fields) _ _
      (by simpa using htoks) (by simp; omega)) hr]
  simp only [← od_lexpops_add, od_server_denote]
  congr 4
  simp [od_entry.tokens]; omega

theorem od_route_fold (fields : List od_field) :
    ∀ (s : od_scheme_t) (pre : List od_schemeroute_t) (e : od_schemeroute_t),
      s.routes = pre ++ [e] →
      fields.foldl
          (fun s f => s.route_set pre.length (fun e => od_route_assign e f)) s =
        { s with routes := pre ++ [fields.foldl od_route_assign e] } := by
  induction fields with
  | nil => intro s pre e h; cases s; simp at h; simp [h]
  | cons f fs ih =>
    intro s pre e h
    simp only [List.foldl_cons]
    rw [ih (s.route_set pre.length (fun e => od_route_assign e f)) pre
      (od_route_assign e f) (by simp [od_scheme_t.route_set, h, od_entry_update_last])]
    simp [od_scheme_t.route_set]

theorem od_route_loop_fields (fields : List od_field) (fuel : Nat)
    (config : od_config_t) (route : Nat) (rest : List od_token_t)
    (hok : ∀ f ∈ fields, f.ok od_route_kind)
    (htoks : config.lex.toks = od_items_tokens od_field.tokens fields ++ rest)
    (hfuel : config.lex.toks.length < fuel) :
    od_configparse_route_loop fuel config route =
      od_configparse_route_loop (fuel - fields.length)
        { lex := od_lexpops (od_items_tokens od_field.tokens fields).length config.lex,
          log := config.log,
          scheme := fields.foldl
            (fun s f => s.route_set route (fun e => od_route_assign e f))
            config.scheme } route := by
  refine od_loop_items (fun n c => od_configparse_route_loop n c route)
    od_field.tokens
    (fun s f => s.route_set route (fun e => od_route_assign e f))
    (fun f => f.ok od_route_kind) (fun _ => 0) ?_ ?_ ?_ fields fuel config rest hok
    (by simp [od_items_need_zero]) htoks hfuel
  · intro s x; rfl
  · intro x _; simp [od_field.tokens]
  · intro fuel config x rest hx _ ht _
    exact od_route_loop_step fuel config route x rest hx
      (by simpa [od_field.tokens] using ht)

theorem od_route_loop_close (fuel : Nat) (config : od_config_t) (route : Nat)
    (t : od_token_t) (rest : List od_token_t)
    (htoks : config.lex.toks = t :: rest) (hid : t.id = OD_RBRACE) :
    od_configparse_route_loop (fuel + 1) config route =
      some (0, { lex := od_lexpops 1 config.lex, log := config.log,
                 scheme := config.scheme }) := by
  simp [od_configparse_route_loop, od_lexpop, od_lexpops, htoks, hid, OD_RBRACE]

theorem od_route_open (fuel : Nat) (config : od_config_t)
    (name : Option od_token_t) (lbrace : od_token_t) (fields : List od_field)
    (rest : List od_token_t)
    (hl : lbrace.id = OD_LBRACE)
    (hok : ∀ f ∈ fields, f.ok od_route_kind)
    (hmem : 0 < config.scheme.mem)
    (htoks : config.lex.toks =
      lbrace :: (od_items_tokens od_field.tokens fields ++ rest))
    (hfuel : config.lex.toks.length < fuel + 1) :
    od_configparse_route fuel config name =
      od_configparse_route_loop (fuel - fields.length)
        { lex := od_lexpops (1 + (od_items_tokens od_field.tokens fields).length)
                   config.lex,
          log := config.log,
          scheme := { config.scheme with
            routes := config.scheme.routes ++
              [fields.foldl od_route_assign (od_route_init name)],
            mem := config.scheme.mem - 1 } }
        config.scheme.routes.length := by
  have hlen := congrArg List.length htoks
  simp at hlen
  unfold od_configparse_route od_schemeroute_add
  rw [if_neg (by omega)]
  cases name with
  | none =>
    dsimp only
    rw [od_confignext_ok _ OD_LBRACE lbrace
      (od_items_tokens od_field.tokens fields ++ rest) ?h2 hl (by simp [OD_LBRACE])]
    case h2 => exact htoks
    dsimp only
    rw [if_neg (by decide)]
    rw [od_route_loop_fields fields fuel _ _ rest hok ?h3 ?h4]
    case h3 => exact od_lexpops_toks_app _ [lbrace] _ _ htoks rfl
    case h4 =>
      have h := od_lexpops_toks_app config.lex [lbrace] _ 1 htoks rfl
      show (od_lexpops 1 config.lex).toks.length < fuel
      rw [h]; simp; omega
    rw [od_route_fold fields _ config.scheme.routes (od_route_init none)
      (by simp [od_scheme_t.route_set, od_entry_update_last, od_route_init])]
    simp only [← od_lexpops_add]
    rfl
  | some name =>
    dsimp only
    rw [od_confignext_ok _ OD_LBRACE lbrace
      (od_items_tokens od_field.tokens fields ++ rest) ?h2 hl (by simp [OD_LBRACE])]
    case h2 => exact htoks
    dsimp only
    rw [if_neg (by decide)]
    rw [od_route_loop_fields fields fuel _ _ rest hok ?h3 ?h4]
    case h3 => exact od_lexpops_toks_app _ [lbrace] _ _ htoks rfl
    case h4 =>
      have h := od_lexpops_toks_app config.lex [lbrace] _ 1 htoks rfl
      show (od_lexpops 1 config.lex).toks.length < fuel
      rw [h]; simp; omega
    rw [od_route_fold fields _ config.scheme.routes (od_route_init (some name))
      (by simp [od_scheme_t.route_set, od_entry_update_last, od_route_init])]
    simp only [← od_lexpops_add]
    rfl

theorem od_route_block (fuel : Nat) (config : od_config_t)
    (name : Option od_token_t) (lbrace : od_token_t) (fields : List od_field)
    (rbrace : od_token_t) (rest : List od_token_t)
    (hl : lbrace.id = OD_LBRACE) (hr : rbrace.id = OD_RBRACE)
    (hok : ∀ f ∈ fields, f.ok od_route_kind)
    (hmem : 0 < config.scheme.mem)
    (htoks : config.lex.toks =
      lbrace :: (od_items_tokens od_field.tokens fields ++ rbrace :: rest))
    (hfuel : config.lex.toks.length < fuel + 1) :
    od_configparse_route fuel config name =
      some (0, { lex := od_lexpops (2 + (od_items_tokens od_field.tokens fields).length)
                   config.lex,
                 log := config.log,
                 scheme := { config.scheme with
                   routes := config.scheme.routes ++
                     [fields.foldl od_route_assign (od_route_init name)],
                   mem := config.scheme.mem - 1 } }) := by
  have hlen := congrArg List.length htoks
  simp at hlen
  rw [od_route_open fuel config name lbrace fields (rbrace :: rest) hl hok hmem htoks
    hfuel]
  obtain ⟨k, hk⟩ : ∃ k, fuel - fields.length = k + 1 :=
    ⟨fuel - fields.length - 1, by
      have := od_items_tokens_length_fields fields; omega⟩
  rw [hk, od_route_loop_close k _ _ rbrace rest
    (od_lexpops_toks_app _ (lbrace :: od_items_tokens od_field.tokens fields) _ _
      (by simpa using htoks) (by simp; omega)) hr]
  simp only [← od_lexpops_add]
  congr 4
  omega

theorem od_user_fold (fields : List od_field) :
    ∀ (s : od_scheme_t) (pre : List od_schemeuser_t) (e : od_schemeuser_t),
      s.users = pre ++ [e] →
      fields.foldl
          (fun s f => s.user_set pre.length (fun e => od_user_assign e f)) s =
        { s with users := pre ++ [fields.foldl od_user_assign e] } := by
  induction fields with
  | nil => intro s pre e h; cases s; simp at h; simp [h]
  | cons f fs ih =>
    intro s pre e h
    simp only [List.foldl_cons]
    rw [ih (s.user_set pre.length (fun e => od_user_assign e f)) pre
      (od_user_assign e f) (by simp [od_scheme_t.user_set, h, od_entry_update_last])]
    simp [od_scheme_t.user_set]

theorem od_user_loop_fields (fields : List od_field) (fuel : Nat)
    (config : od_config_t) (user : Nat) (rest : List od_token_t)
    (hok : ∀ f ∈ fields, f.ok od_user_kind)
    (htoks : config.lex.toks = od_items_tokens od_field.tokens fields ++ rest)
    (hfuel : config.lex.toks.length < fuel) :
    od_configparse_user_loop fuel config user =
      od_configparse_user_loop (fuel - fields.length)
        { lex := od_lexpops (od_items_tokens od_field.tokens fields).length config.lex,
          log := config.log,
          scheme := fields.foldl
            (fun s f => s.user_set user (fun e => od_user_assign e f))
            config.scheme } user := by
  refine od_loop_items (fun n c => od_configparse_user_loop n c user)
    od_field.tokens
    (fun s f => s.user_set user (fun e => od_user_assign e f))
    (fun f => f.ok od_user_kind) (fun _ => 0) ?_ ?_ ?_ fields fuel config rest hok
    (by simp [od_items_need_zero]) htoks hfuel
  · intro s x; rfl
  · intro x _; simp [od_field.tokens]
  · intro fuel config x rest hx _ ht _
    exact od_user_loop_step fuel config user x rest hx
      (by simpa [od_field.tokens] using ht)

theorem od_user_loop_close (fuel : Nat) (config : od_config_t) (user : Nat)
    (t : od_token_t) (rest : List od_token_t)
    (htoks : config.lex.toks = t :: rest) (hid : t.id = OD_RBRACE) :
    od_configparse_user_loop (fuel + 1) config user =
      some (0, { lex := od_lexpops 1 config.lex, log := config.log,
                 scheme := config.scheme }) := by
  simp [od_configparse_user_loop, od_lexpop, od_lexpops, htoks, hid, OD_RBRACE]

theorem od_user_open (fuel : Nat) (config : od_config_t)
    (name : od_token_t) (lbrace : od_token_t) (fields : List od_field)
    (rest : List od_token_t)
    (hl : lbrace.id = OD_LBRACE)
    (hok : ∀ f ∈ fields, f.ok od_user_kind)
    (hmem : 0 < config.scheme.mem)
    (htoks : config.lex.toks =
      lbrace :: (od_items_tokens od_field.tokens fields ++ rest))
    (hfuel : config.lex.toks.length < fuel + 1) :
    od_configparse_user fuel config name =
      od_configparse_user_loop (fuel - fields.length)
        { lex := od_lexpops (1 + (od_items_tokens od_field.tokens fields).length)
                   config.lex,
          log := config.log,
          scheme := { config.scheme with
            users := config.scheme.users ++
              [fields.foldl od_user_assign { user := some name.string }],
            mem := config.scheme.mem - 1 } }
        config.scheme.users.length := by
  have hlen := congrArg List.length htoks
  simp at hlen
  unfold od_configparse_user od_schemeuser_add
  rw [if_neg (by omega)]
  dsimp only
  rw [od_confignext_ok _ OD_LBRACE lbrace
    (od_items_tokens od_field.tokens fields ++ rest) ?h2 hl (by simp [OD_LBRACE])]
  case h2 => exact htoks
  dsimp only
  rw [if_neg (by decide)]
  rw [od_user_loop_fields fields fuel _ _ rest hok ?h3 ?h4]
  case h3 => exact od_lexpops_toks_app _ [lbrace] _ _ htoks rfl
  case h4 =>
    have h := od_lexpops_toks_app config.lex [lbrace] _ 1 htoks rfl
    show (od_lexpops 1 config.lex).toks.length < fuel
    rw [h]; simp; omega
  rw [od_user_fold fields _ config.scheme.users { user := some name.string }
    (by simp [od_scheme_t.user_set, od_entry_update_last])]
  simp only [← od_lexpops_add]
  rfl

theorem od_user_block (fuel : Nat) (config : od_config_t)
    (name : od_token_t) (lbrace : od_token_t) (fields : List od_field)
    (rbrace : od_token_t) (rest : List od_token_t)
    (hl : lbrace.id = OD_LBRACE) (hr : rbrace.id = OD_RBRACE)
    (hok : ∀ f ∈ fields, f.ok od_user_kind)
    (hmem : 0 < config.scheme.mem)
    (htoks : config.lex.toks =
      lbrace :: (od_items_tokens od_field.tokens fields ++ rbrace :: rest))
    (hfuel : config.lex.toks.length < fuel + 1) :
    od_configparse_user fuel config name =
      some (0, { lex := od_lexpops (2 + (od_items_tokens od_field.tokens fields).length)
                   config.lex,
                 log := config.log,
                 scheme := { config.scheme with
                   users := config.scheme.users ++
                     [fields.foldl od_user_assign { user := some name.string }],
                   mem := config.scheme.mem - 1 } }) := by
  have hlen := congrArg List.length htoks
  simp at hlen
  rw [od_user_open fuel config name lbrace fields (rbrace :: rest) hl hok hmem htoks
    hfuel]
  obtain ⟨k, hk⟩ : ∃ k, fuel - fields.length = k + 1 :=
    ⟨fuel - fields.length - 1, by
      have := od_items_tokens_length_fields fields; omega⟩
  rw [hk, od_user_loop_close k _ _ rbrace rest
    (od_lexpops_toks_app _ (lbrace :: od_items_tokens od_field.tokens fields) _ _
      (by simpa using htoks) (by simp; omega)) hr]
  simp only [← od_lexpops_add]
  congr 4
  omega

theorem od_routing_loop_string (fuel : Nat) (config : od_config_t)
    (t : od_token_t) (rest : List od_token_t)
    (htoks : config.lex.toks = t :: rest) (hid : t.id = OD_LSTRING) :
    od_configparse_routing_loop (fuel + 1) config =
      match od_configparse_route fuel
          { lex := od_lexpops 1 config.lex, log := config.log,
            scheme := config.scheme } (some t) with
      | none => none
      | some (rc, config) =>
        if rc = -1 then some (-1, config) else od_configparse_routing_loop fuel config := by
  simp [od_configparse_routing_loop, od_lexpop, od_lexpops, htoks, hid]

theorem od_routing_loop_default (fuel : Nat) (config : od_config_t)
    (t : od_token_t) (rest : List od_token_t)
    (htoks : config.lex.toks = t :: rest) (hid : t.id = OD_LDEFAULT) :
    od_configparse_routing_loop (fuel + 1) config =
      match od_configparse_route fuel
          { lex := od_lexpops 1 config.lex, log := config.log,
            scheme := config.scheme } none with
      | none => none
      | some (rc, config) =>
        if rc = -1 then some (-1, config) else od_configparse_routing_loop fuel config := by
  simp [od_configparse_routing_loop, od_lexpop, od_lexpops, htoks, hid]

theorem od_users_loop_string (fuel : Nat) (config : od_config_t)
    (t : od_token_t) (rest : List od_token_t)
    (htoks : config.lex.toks = t :: rest) (hid : t.id = OD_LSTRING) :
    od_configparse_users_loop (fuel + 1) config =
      match od_configparse_user fuel
          { lex := od_lexpops 1 config.lex, log := config.log,
            scheme := config.scheme } t with
      | none => none
      | some (rc, config) =>
        if rc = -1 then some (-1, config) else od_configparse_users_loop fuel config := by
  simp [od_configparse_users_loop, od_lexpop, od_lexpops, htoks, hid]

theorem od_route_start_string (t : od_token_t) (hid : t.id = OD_LSTRING) :
    od_route_start t = od_route_init (some t) := by
  simp [od_route_start, od_route_init, hid]

theorem od_route_start_default (t : od_token_t) (hid : t.id = OD_LDEFAULT) :
    od_route_start t = od_route_init none := by
  simp [od_route_start, od_route_init, hid]

theorem od_entry_tokens_length (e : od_entry) :
    e.tokens.length = 3 + (od_items_tokens od_field.tokens e.fields).length := by
  simp [od_entry.tokens]; omega

theorem od_routing_loop_step (fuel : Nat) (config : od_config_t)
    (x : od_routing_item) (rest : List od_token_t)
    (hok : x.ok) (hmem : x.need ≤ config.scheme.mem)
    (htoks : config.lex.toks = x.tokens ++ rest)
    (hfuel : config.lex.toks.length < fuel + 1) :
    od_configparse_routing_loop (fuel + 1) config =
      od_configparse_routing_loop fuel
        { lex := od_lexpops x.tokens.length config.lex, log := config.log,
          scheme := od_routing_item.denote config.scheme x } := by
  cases x with
  | mode f =>
    exact od_mode_loop_step fuel config f rest hok
      (by simpa [od_routing_item.tokens, od_field.tokens] using htoks)
  | route e =>
    obtain ⟨hname, hl, hr, hf⟩ := hok
    simp only [od_routing_item.tokens, od_entry.tokens, List.cons_append,
      List.append_assoc, List.singleton_append] at htoks
    have hlen := congrArg List.length htoks
    simp at hlen
    have h1 := od_lexpops_toks_app config.lex [e.name] _ 1 htoks rfl
    have hblock := fun name => od_route_block fuel
      { lex := od_lexpops 1 config.lex, log := config.log, scheme := config.scheme }
      name e.lbrace e.fields e.rbrace rest hl hr hf
      (by simpa [od_routing_item.need] using hmem) h1
      (by show (od_lexpops 1 config.lex).toks.length < fuel + 1
          rw [h1]; simp; omega)
    rcases hname with hs | hd
    · rw [od_routing_loop_string fuel config e.name _ htoks hs, hblock]
      dsimp only
      rw [if_neg (by decide)]
      simp only [← od_lexpops_add, od_routing_item.denote, od_routing_item.tokens,
        od_route_start_string e.name hs, od_entry_tokens_length]
      congr 3; omega
    · rw [od_routing_loop_default fuel config e.name _ htoks hd, hblock]
      dsimp only
      rw [if_neg (by decide)]
      simp only [← od_lexpops_add, od_routing_item.denote, od_routing_item.tokens,
        od_route_start_default e.name hd, od_entry_tokens_length]
      congr 3; omega

theorem od_users_loop_step (fuel : Nat) (config : od_config_t)
    (e : od_entry) (rest : List od_token_t)
    (hok : e.name.id = OD_LSTRING ∧ e.ok od_user_kind)
    (hmem : 1 ≤ config.scheme.mem)
    (htoks : config.lex.toks = e.tokens ++ rest)
    (hfuel : config.lex.toks.length < fuel + 1) :
    od_configparse_users_loop (fuel + 1) config =
      od_configparse_users_loop fuel
        { lex := od_lexpops e.tokens.length config.lex, log := config.log,
          scheme := od_user_denote config.scheme e } := by
  obtain ⟨hname, hl, hr, hf⟩ := hok
  simp only [od_entry.tokens, List.cons_append,
    List.append_assoc, List.singleton_append] at htoks
  have hlen := congrArg List.length htoks
  simp at hlen
  have h1 := od_lexpops_toks_app config.lex [e.name] _ 1 htoks rfl
  rw [od_users_loop_string fuel config e.name _ htoks hname,
    od_user_block fuel
      { lex := od_lexpops 1 config.lex, log := config.log, scheme := config.scheme }
      e.name e.lbrace e.fields e.rbrace rest hl hr hf hmem h1
      (by show (od_lexpops 1 config.lex).toks.length < fuel + 1
          rw [h1]; simp; omega)]
  dsimp only
  rw [if_neg (by decide)]
  simp only [← od_lexpops_add, od_user_denote, od_entry_tokens_length]
  congr 3; omega

theorem od_items_need_one {α : Type} (items : List α) :
    od_items_need (fun _ => 1) items = items.length := by
  induction items with
  | nil => rfl
  | cons x xs ih => simp [od_items_need, ih]; omega

theorem od_routing_loop_items (items : List od_routing_item) (fuel : Nat)
    (config : od_config_t) (rest : List od_token_t)
    (hok : ∀ x ∈ items, x.ok)
    (hmem : od_items_need od_routing_item.need items ≤ config.scheme.mem)
    (htoks : config.lex.toks = od_items_tokens od_routing_item.tokens items ++ rest)
    (hfuel : config.lex.toks.length < fuel) :
    od_configparse_routing_loop fuel config =
      od_configparse_routing_loop (fuel - items.length)
        { lex := od_lexpops (od_items_tokens od_routing_item.tokens items).length
                   config.lex,
          log := config.log,
          scheme := items.foldl od_routing_item.denote config.scheme } := by
  refine od_loop_items od_configparse_routing_loop od_routing_item.tokens
    od_routing_item.denote od_routing_item.ok od_routing_item.need ?_ ?_ ?_
    items fuel config rest hok hmem htoks hfuel
  · intro s x; cases x <;> rfl
  · intro x _
    cases x <;> simp [od_routing_item.tokens, od_field.tokens, od_entry.tokens]
  · intro fuel config x rest hx hm ht hf
    exact od_routing_loop_step fuel config x rest hx hm ht hf

theorem od_users_loop_items (entries : List od_entry) (fuel : Nat)
    (config : od_config_t) (rest : List od_token_t)
    (hok : ∀ e ∈ entries, e.name.id = OD_LSTRING ∧ e.ok od_user_kind)
    (hmem : entries.length ≤ config.scheme.mem)
    (htoks : config.lex.toks = od_items_tokens od_entry.tokens entries ++ rest)
    (hfuel : config.lex.toks.length < fuel) :
    od_configparse_users_loop fuel config =
      od_configparse_users_loop (fuel - entries.length)
        { lex := od_lexpops (od_items_tokens od_entry.tokens entries).length
                   config.lex,
          log := config.log,
          scheme := entries.foldl od_user_denote config.scheme } := by
  refine od_loop_items od_configparse_users_loop od_entry.tokens
    od_user_denote (fun e => e.name.id = OD_LSTRING ∧ e.ok od_user_kind)
    (fun _ => 1) ?_ ?_ ?_
    entries fuel config rest hok (by simpa [od_items_need_one] using hmem) htoks hfuel
  · intro s x; rfl
  · intro x _
    simp [od_entry.tokens]
  · intro fuel config x rest hx hm ht hf
    exact od_users_loop_step fuel config x rest hx hm ht hf

theorem od_items_tokens_length_le {α : Type} (tokens : α → List od_token_t)
    (ok : α → Prop) (hpos : ∀ x, ok x → 0 < (tokens x).length) (items : List α)
    (hok : ∀ x ∈ items, ok x) :
    items.length ≤ (od_items_tokens tokens items).length := by
  induction items with
  | nil => simp
  | cons x xs ih =>
    have h1 := hpos x (hok x (by simp))
    have h2 := ih (fun y hy => hok y (by simp [hy]))
    simp [od_items_tokens]; omega

theorem od_routing_item_tokens_pos (x : od_routing_item) :
    0 < x.tokens.length := by
  cases x <;> simp [od_routing_item.tokens, od_field.tokens, od_entry.tokens]

theorem od_stmt_tokens_pos (x : od_stmt) : 0 < x.tokens.length := by
  cases x <;> simp [od_stmt.tokens, od_field.tokens]

theorem od_routing_open (fuel : Nat) (config : od_config_t)
    (lbrace : od_token_t) (items : List od_routing_item) (rest : List od_token_t)
    (hl : lbrace.id = OD_LBRACE)
    (hok : ∀ x ∈ items, x.ok)
    (hmem : od_items_need od_routing_item.need items ≤ config.scheme.mem)
    (htoks : config.lex.toks =
      lbrace :: (od_items_tokens od_routing_item.tokens items ++ rest))
    (hfuel : config.lex.toks.length < fuel + 1) :
    od_configparse_routing fuel config =
      od_configparse_routing_loop (fuel - items.length)
        { lex := od_lexpops (1 + (od_items_tokens od_routing_item.tokens items).length)
                   config.lex,
          log := config.log,
          scheme := items.foldl od_routing_item.denote config.scheme } := by
  have hlen := congrArg List.length htoks
  simp at hlen
  have h1 : (od_lexpops 1 config.lex).toks = od_items_tokens od_routing_item.tokens items ++ rest :=
    od_lexpops_toks_app config.lex [lbrace] _ 1 htoks rfl
  unfold od_configparse_routing
  rw [od_confignext_ok config OD_LBRACE lbrace _ htoks hl (by simp [OD_LBRACE])]
  dsimp only
  rw [if_neg (by decide)]
  rw [od_routing_loop_items items fuel
    { lex := od_lexpops 1 config.lex, log := config.log, scheme := config.scheme }
    rest hok hmem h1
    (by show (od_lexpops 1 config.lex).toks.length < fuel
        rw [h1]; simp; omega)]
  simp only [← od_lexpops_add]

theorem od_routing_loop_close (fuel : Nat) (config : od_config_t)
    (t : od_token_t) (rest : List od_token_t)
    (htoks : config.lex.toks = t :: rest) (hid : t.id = OD_RBRACE) :
    od_configparse_routing_loop (fuel + 1) config =
      some (0, { lex := od_lexpops 1 config.lex, log := config.log,
                 scheme := config.scheme }) := by
  simp [od_configparse_routing_loop, od_lexpop, od_lexpops, htoks, hid, OD_RBRACE]

theorem od_routing_block (fuel : Nat) (config : od_config_t)
    (lbrace : od_token_t) (items : List od_routing_item) (rbrace : od_token_t)
    (rest : List od_token_t)
    (hl : lbrace.id = OD_LBRACE) (hr : rbrace.id = OD_RBRACE)
    (hok : ∀ x ∈ items, x.ok)
    (hmem : od_items_need od_routing_item.need items ≤ config.scheme.mem)
    (htoks : config.lex.toks =
      lbrace :: (od_items_tokens od_routing_item.tokens items ++ rbrace :: rest))
    (hfuel : config.lex.toks.length < fuel + 1) :
    od_configparse_routing fuel config =
      some (0, { lex := od_lexpops
                   (2 + (od_items_tokens od_routing_item.tokens items).length) config.lex,
                 log := config.log,
                 scheme := items.foldl od_routing_item.denote config.scheme }) := by
  have hlen := congrArg List.length htoks
  simp at hlen
  rw [od_routing_open fuel config lbrace items (rbrace :: rest) hl hok hmem htoks hfuel]
  obtain ⟨k, hk⟩ : ∃ k, fuel - items.length = k + 1 :=
    ⟨fuel - items.length - 1, by
      have := od_items_tokens_length_le od_routing_item.tokens od_routing_item.ok
        (fun x _ => od_routing_item_tokens_pos x) items hok
      omega⟩
  rw [hk, od_routing_loop_close k _ rbrace rest
    (od_lexpops_toks_app _ (lbrace :: od_items_tokens od_routing_item.tokens items) _ _
      (by simpa using htoks) (by simp; omega)) hr]
  simp only [← od_lexpops_add]
  congr 4
  omega

theorem od_users_open (fuel : Nat) (config : od_config_t)
    (lbrace : od_token_t) (entries : List od_entry) (rest : List od_token_t)
    (hl : lbrace.id = OD_LBRACE)
    (hok : ∀ e ∈ entries, e.name.id = OD_LSTRING ∧ e.ok od_user_kind)
    (hmem : entries.length ≤ config.scheme.mem)
    (htoks : config.lex.toks =
      lbrace :: (od_items_tokens od_entry.tokens entries ++ rest))
    (hfuel : config.lex.toks.length < fuel + 1) :
    od_configparse_users fuel config =
      od_configparse_users_loop (fuel - entries.length)
        { lex := od_lexpops (1 + (od_items_tokens od_entry.tokens entries).length)
                   config.lex,
          log := config.log,
          scheme := entries.foldl od_user_denote config.scheme } := by
  have hlen := congrArg List.length htoks
  simp at hlen
  have h1 : (od_lexpops 1 config.lex).toks = od_items_tokens od_entry.tokens entries ++ rest :=
    od_lexpops_toks_app config.lex [lbrace] _ 1 htoks rfl
  unfold od_configparse_users
  rw [od_confignext_ok config OD_LBRACE lbrace _ htoks hl (by simp [OD_LBRACE])]
  dsimp only
  rw [if_neg (by decide)]
  rw [od_users_loop_items entries fuel
    { lex := od_lexpops 1 config.lex, log := config.log, scheme := config.scheme }
    rest hok hmem h1
    (by show (od_lexpops 1 config.lex).toks.length < fuel
        rw [h1]; simp; omega)]
  simp only [← od_lexpops_add]

theorem od_users_loop_close (fuel : Nat) (config : od_config_t)
    (t : od_token_t) (rest : List od_token_t)
    (htoks : config.lex.toks = t :: rest) (hid : t.id = OD_RBRACE) :
    od_configparse_users_loop (fuel + 1) config =
      some (0, { lex := od_lexpops 1 config.lex, log := config.log,
                 scheme := config.scheme }) := by
  simp [od_configparse_users_loop, od_lexpop, od_lexpops, htoks, hid, OD_RBRACE]

theorem od_users_block (fuel : Nat) (config : od_config_t)
    (lbrace : od_token_t) (entries : List od_entry) (rbrace : od_token_t)
    (rest : List od_token_t)
    (hl : lbrace.id = OD_LBRACE) (hr : rbrace.id = OD_RBRACE)
    (hok : ∀ e ∈ entries, e.name.id = OD_LSTRING ∧ e.ok od_user_kind)
    (hmem : entries.length ≤ config.scheme.mem)
    (htoks : config.lex.toks =
      lbrace :: (od_items_tokens od_entry.tokens entries ++ rbrace :: rest))
    (hfuel : config.lex.toks.length < fuel + 1) :
    od_configparse_users fuel config =
      some (0, { lex := od_lexpops
                   (2 + (od_items_tokens od_entry.tokens entries).length) config.lex,
                 log := config.log,
                 scheme := entries.foldl od_user_denote config.scheme }) := by
  have hlen := congrArg List.length htoks
  simp at hlen
  rw [od_users_open fuel config lbrace entries (rbrace :: rest) hl hok hmem htoks hfuel]
  obtain ⟨k, hk⟩ : ∃ k, fuel - entries.length = k + 1 :=
    ⟨fuel - entries.length - 1, by
      have := od_items_tokens_length_le od_entry.tokens (fun _ => True)
        (fun x _ => by simp [od_entry.tokens]) entries (fun _ _ => trivial)
      omega⟩
  rw [hk, od_users_loop_close k _ rbrace rest
    (od_lexpops_toks_app _ (lbrace :: od_items_tokens od_entry.tokens entries) _ _
      (by simpa using htoks) (by simp; omega)) hr]
  simp only [← od_lexpops_add]
  congr 4
  omega

theorem od_loop_listen (fuel : Nat) (config : od_config_t)
    (t : od_token_t) (rest : List od_token_t)
    (htoks : config.lex.toks = t :: rest) (hid : t.id = OD_LLISTEN) :
    od_configparse_loop (fuel + 1) config =
      match od_configparse_listen fuel
          { lex := od_lexpops 1 config.lex, log := config.log,
            scheme := config.scheme } with
      | none => none
      | some (rc, config) =>
        if rc = -1 then some (-1, config) else od_configparse_loop fuel config := by
  simp [od_configparse_loop, od_lexpop, od_lexpops, htoks, hid]

theorem od_loop_server (fuel : Nat) (config : od_config_t)
    (t : od_token_t) (rest : List od_token_t)
    (htoks : config.lex.toks = t :: rest) (hid : t.id = OD_LSERVER) :
    od_configparse_loop (fuel + 1) config =
      match od_configparse_server fuel
          { lex := od_lexpops 1 config.lex, log := config.log,
            scheme := config.scheme } with
      | none => none
      | some (rc, config) =>
        if rc = -1 then some (-1, config) else od_configparse_loop fuel config := by
  simp [od_configparse_loop, od_lexpop, od_lexpops, htoks, hid]

theorem od_loop_routing (fuel : Nat) (config : od_config_t)
    (t : od_token_t) (rest : List od_token_t)
    (htoks : config.lex.toks = t :: rest) (hid : t.id = OD_LROUTING) :
    od_configparse_loop (fuel + 1) config =
      match od_configparse_routing fuel
          { lex := od_lexpops 1 config.lex, log := config.log,
            scheme := config.scheme } with
      | none => none
      | some (rc, config) =>
        if rc = -1 then some (-1, config) else od_configparse_loop fuel config := by
  simp [od_configparse_loop, od_lexpop, od_lexpops, htoks, hid]

theorem od_loop_users (fuel : Nat) (config : od_config_t)
    (t : od_token_t) (rest : List od_token_t)
    (htoks : config.lex.toks = t :: rest) (hid : t.id = OD_LUSERS) :
    od_configparse_loop (fuel + 1) config =
      match od_configparse_users fuel
          { lex := od_lexpops 1 config.lex, log := config.log,
            scheme := config.scheme } with
      | none => none
      | some (rc, config) =>
        if rc = -1 then some (-1, config) else od_configparse_loop fuel config := by
  simp [od_configparse_loop, od_lexpop, od_lexpops, htoks, hid]

theorem od_stmt_denote_mem (s : od_scheme_t) (x : od_stmt) :
    (od_stmt.denote s x).mem = s.mem - x.need := by
  cases x with
  | global f => simp only [od_stmt.denote, od_stmt.need, od_global_assign]; split <;> rfl
  | listen kw lbrace fields rbrace =>
    simp only [od_stmt.denote, od_stmt.need]
    induction fields generalizing s with
    | nil => rfl
    | cons f fs ih =>
      rw [List.foldl_cons, ih]
      unfold od_listen_assign; split <;> rfl
  | server kw e => rfl
  | routing kw lbrace items rbrace =>
    simp only [od_stmt.denote, od_stmt.need]
    induction items generalizing s with
    | nil => rfl
    | cons i is ih =>
      rw [List.foldl_cons, ih, od_items_need]
      cases i with
      | mode f => simp [od_routing_item.denote, od_routing_item.need]
      | route e => simp [od_routing_item.denote, od_routing_item.need]; omega
  | users kw lbrace entries rbrace =>
    simp only [od_stmt.denote, od_stmt.need]
    induction entries generalizing s with
    | nil => rfl
    | cons i is ih =>
      rw [List.foldl_cons, ih]
      simp [od_user_denote]; omega

theorem od_loop_step (fuel : Nat) (config : od_config_t)
    (x : od_stmt) (rest : List od_token_t)
    (hok : x.ok) (hmem : x.need ≤ config.scheme.mem)
    (htoks : config.lex.toks = x.tokens ++ rest)
    (hfuel : config.lex.toks.length < fuel + 1) :
    od_configparse_loop (fuel + 1) config =
      od_configparse_loop fuel
        { lex := od_lexpops x.tokens.length config.lex, log := config.log,
          scheme := od_stmt.denote config.scheme x } := by
  have hlen := congrArg List.length htoks
  cases x with
  | global f =>
    exact od_global_loop_step fuel config f rest hok
      (by simpa [od_stmt.tokens, od_field.tokens] using htoks)
  | listen kw lbrace fields rbrace =>
    obtain ⟨hkw, hl, hr, hf⟩ := hok
    simp only [od_stmt.tokens, List.cons_append, List.append_assoc,
      List.singleton_append] at htoks
    simp [od_stmt.tokens] at hlen
    have h1 : (od_lexpops 1 config.lex).toks =
        lbrace :: (od_items_tokens od_field.tokens fields ++ [rbrace]) ++ rest := by
      rw [od_lexpops_toks_app config.lex [kw] _ 1 htoks rfl]; simp
    rw [od_loop_listen fuel config kw _ htoks hkw,
      od_listen_block fuel
        { lex := od_lexpops 1 config.lex, log := config.log, scheme := config.scheme }
        lbrace fields rbrace rest hl hr hf h1
        (by show (od_lexpops 1 config.lex).toks.length < fuel + 1
            rw [h1]; simp; omega)]
    dsimp only
    rw [if_neg (by decide)]
    simp only [← od_lexpops_add, od_stmt.denote, od_stmt.tokens]
    congr 3
    simp; omega
  | server kw e =>
    obtain ⟨hkw, hn, he⟩ := hok
    simp only [od_stmt.tokens, List.cons_append] at htoks
    simp [od_stmt.tokens] at hlen
    have h1 : (od_lexpops 1 config.lex).toks = e.tokens ++ rest :=
      od_lexpops_toks_app config.lex [kw] _ 1 htoks rfl
    rw [od_loop_server fuel config kw _ htoks hkw,
      od_server_block fuel
        { lex := od_lexpops 1 config.lex, log := config.log, scheme := config.scheme }
        e rest hn he (by simpa [od_stmt.need] using hmem) h1
        (by show (od_lexpops 1 config.lex).toks.length < fuel + 1
            rw [h1]; simp; omega)]
    dsimp only
    rw [if_neg (by decide)]
    simp only [← od_lexpops_add, od_stmt.denote, od_stmt.tokens]
    congr 3
    simp; omega
  | routing kw lbrace items rbrace =>
    obtain ⟨hkw, hl, hr, hf⟩ := hok
    simp only [od_stmt.tokens, List.cons_append, List.append_assoc,
      List.singleton_append] at htoks
    simp [od_stmt.tokens] at hlen
    have h1 : (od_lexpops 1 config.lex).toks =
        lbrace :: (od_items_tokens od_routing_item.tokens items ++ rbrace :: rest) :=
      od_lexpops_toks_app config.lex [kw] _ 1 htoks rfl
    rw [od_loop_routing fuel config kw _ htoks hkw,
      od_routing_block fuel
        { lex := od_lexpops 1 config.lex, log := config.log, scheme := config.scheme }
        lbrace items rbrace rest hl hr hf (by simpa [od_stmt.need] using hmem) h1
        (by show (od_lexpops 1 config.lex).toks.length < fuel + 1
            rw [h1]; simp; omega)]
    dsimp only
    rw [if_neg (by decide)]
    simp only [← od_lexpops_add, od_stmt.denote, od_stmt.tokens]
    congr 3
    simp; omega
  | users kw lbrace entries rbrace =>
    obtain ⟨hkw, hl, hr, hf⟩ := hok
    simp only [od_stmt.tokens, List.cons_append, List.append_assoc,
      List.singleton_append] at htoks
    simp [od_stmt.tokens] at hlen
    have h1 : (od_lexpops 1 config.lex).toks =
        lbrace :: (od_items_tokens od_entry.tokens entries ++ rbrace :: rest) :=
      od_lexpops_toks_app config.lex [kw] _ 1 htoks rfl
    rw [od_loop_users fuel config kw _ htoks hkw,
      od_users_block fuel
        { lex := od_lexpops 1 config.lex, log := config.log, scheme := config.scheme }
        lbrace entries rbrace rest hl hr hf (by simpa [od_stmt.need] using hmem) h1
        (by show (od_lexpops 1 config.lex).toks.length < fuel + 1
            rw [h1]; simp; omega)]
    dsimp only
    rw [if_neg (by decide)]
    simp only [← od_lexpops_add, od_stmt.denote, od_stmt.tokens]
    congr 3
    simp; omega

theorem od_loop_stmts (stmts : List od_stmt) (fuel : Nat)
    (config : od_config_t) (rest : List od_token_t)
    (hok : ∀ x ∈ stmts, x.ok)
    (hmem : od_items_need od_stmt.need stmts ≤ config.scheme.mem)
    (htoks : config.lex.toks = od_items_tokens od_stmt.tokens stmts ++ rest)
    (hfuel : config.lex.toks.length < fuel) :
    od_configparse_loop fuel config =
      od_configparse_loop (fuel - stmts.length)
        { lex := od_lexpops (od_items_tokens od_stmt.tokens stmts).length config.lex,
          log := config.log,
          scheme := stmts.foldl od_stmt.denote config.scheme } := by
  refine od_loop_items od_configparse_loop od_stmt.tokens
    od_stmt.denote od_stmt.ok od_stmt.need od_stmt_denote_mem
    (fun x _ => od_stmt_tokens_pos x) ?_
    stmts fuel config rest hok hmem htoks hfuel
  intro fuel config x rest hx hm ht hf
  exact od_loop_step fuel config x rest hx hm ht hf

theorem od_loop_close (fuel : Nat) (config : od_config_t)
    (t : od_token_t) (rest : List od_token_t)
    (htoks : config.lex.toks = t :: rest) (hid : t.id = OD_RBRACE) :
    od_configparse_loop (fuel + 1) config =
      some (0, { lex := od_lexpops 1 config.lex, log := config.log,
                 scheme := config.scheme }) := by
  simp [od_configparse_loop, od_lexpop, od_lexpops, htoks, hid, OD_RBRACE]

theorem od_configparse_open (config : od_config_t)
    (root lbrace : od_token_t) (stmts : List od_stmt) (rest : List od_token_t)
    (hroot : root.id = OD_LODISSEY) (hl : lbrace.id = OD_LBRACE)
    (hok : ∀ x ∈ stmts, x.ok)
    (hmem : od_items_need od_stmt.need stmts ≤ config.scheme.mem)
    (htoks : config.lex.toks =
      root :: lbrace :: (od_items_tokens od_stmt.tokens stmts ++ rest)) :
    od_configparse config =
      od_configparse_loop (config.lex.toks.length + 1 - stmts.length)
        { lex := od_lexpops (2 + (od_items_tokens od_stmt.tokens stmts).length)
                   config.lex,
          log := config.log,
          scheme := stmts.foldl od_stmt.denote config.scheme } := by
  have hlen := congrArg List.length htoks
  simp at hlen
  have h1 : (od_lexpops 1 config.lex).toks =
      lbrace :: (od_items_tokens od_stmt.tokens stmts ++ rest) :=
    od_lexpops_toks_app config.lex [root] _ 1 htoks rfl
  have h2 : (od_lexpops 1 (od_lexpops 1 config.lex)).toks =
      od_items_tokens od_stmt.tokens stmts ++ rest :=
    od_lexpops_toks_app _ [lbrace] _ 1 h1 rfl
  unfold od_configparse od_configparse_fuel
  rw [od_confignext_ok config OD_LODISSEY root _ htoks hroot (by simp)]
  dsimp only
  rw [if_neg (by decide)]
  rw [od_confignext_ok _ OD_LBRACE lbrace _ h1 hl (by simp [OD_LBRACE])]
  dsimp only
  rw [if_neg (by decide)]
  rw [od_loop_stmts stmts _
    { lex := od_lexpops 1 (od_lexpops 1 config.lex), log := config.log,
      scheme := config.scheme } rest hok hmem h2
    (by show (od_lexpops 1 (od_lexpops 1 config.lex)).toks.length < _
        rw [h2]; simp; omega)]
  simp only [← od_lexpops_add]

theorem od_configparse_sentence (config : od_config_t) (c : od_sentence)
    (rest : List od_token_t) (hok : c.ok) (hmem : c.need ≤ config.scheme.mem)
    (htoks : config.lex.toks = c.tokens ++ rest) :
    od_configparse config =
      some (0, { lex := od_lexpops c.tokens.length config.lex, log := config.log,
                 scheme := od_sentence.denote config.scheme c }) := by
  obtain ⟨hroot, hl, hr, hs⟩ := hok
  simp only [od_sentence.tokens, List.cons_append, List.append_assoc,
    List.singleton_append] at htoks
  have hlen := congrArg List.length htoks
  simp at hlen
  rw [od_configparse_open config c.root c.lbrace c.stmts (c.rbrace :: rest) hroot hl hs
    hmem htoks]
  obtain ⟨k, hk⟩ : ∃ k, config.lex.toks.length + 1 - c.stmts.length = k + 1 :=
    ⟨config.lex.toks.length - c.stmts.length, by
      have := od_items_tokens_length_le od_stmt.tokens (fun _ => True)
        (fun x _ => od_stmt_tokens_pos x) c.stmts (fun _ _ => trivial)
      omega⟩
  rw [hk, od_loop_close k _ c.rbrace rest
    (od_lexpops_toks_app _
      (c.root :: c.lbrace :: od_items_tokens od_stmt.tokens c.stmts) _ _
      (by simpa using htoks) (by simp; omega)) hr]
  simp only [← od_lexpops_add, od_sentence.denote, od_sentence.tokens]
  congr 4
  simp; omega

theorem od_items_foldl_mem {α : Type} (denote : od_scheme_t → α → od_scheme_t)
    (need : α → Nat) (hmem : ∀ s x, (denote s x).mem = s.mem - need x)
    (items : List α) :
    ∀ s, (items.foldl denote s).mem = s.mem - od_items_need need items := by
  induction items with
  | nil => intro s; rfl
  | cons x xs ih =>
    intro s
    rw [List.foldl_cons, ih, hmem, od_items_need]
    omega

theorem od_routing_item_denote_mem (s : od_scheme_t) (x : od_routing_item) :
    (od_routing_item.denote s x).mem = s.mem - x.need := by
  cases x <;> rfl

theorem od_loop_through (b : od_open_block) (F : Nat) (S : od_config_t)
    (rest : List od_token_t) (hb : b.ok) (hneed : b.need ≤ S.scheme.mem)
    (htoks : S.lex.toks = b.tokens ++ rest) (hF : S.lex.toks.length < F) :
    ∃ fuel, rest.length < fuel ∧ ∀ r,
      b.run fuel { lex := od_lexpops b.tokens.length S.lex, log := S.log,
                   scheme := b.scheme S.scheme } = some (-1, r) →
      od_configparse_loop F S = some (-1, r) := by
  have hlen := congrArg List.length htoks
  cases b with
  | top =>
    refine ⟨F, by simpa [od_open_block.tokens] using (hlen ▸ hF), fun r hr => ?_⟩
    exact hr
  | listen kw lbrace fields =>
    obtain ⟨hkw, hl, hf⟩ := hb
    obtain ⟨k, rfl⟩ : ∃ k, F = k + 1 := ⟨F - 1, by omega⟩
    simp only [od_open_block.tokens, List.cons_append] at htoks
    simp [od_open_block.tokens] at hlen
    have h1 : (od_lexpops 1 S.lex).toks =
        lbrace :: (od_items_tokens od_field.tokens fields ++ rest) :=
      od_lexpops_toks_app S.lex [kw] _ 1 htoks rfl
    have hfl := od_items_tokens_length_fields fields
    refine ⟨k - fields.length, by omega, fun r hr => ?_⟩
    rw [od_loop_listen k S kw _ htoks hkw,
      od_listen_open k
        { lex := od_lexpops 1 S.lex, log := S.log, scheme := S.scheme }
        lbrace fields rest hl hf h1
        (by show (od_lexpops 1 S.lex).toks.length < k + 1
            rw [h1]; simp; omega)]
    simp only [← od_lexpops_add]
    simp only [od_open_block.run, od_open_block.tokens, od_open_block.scheme,
      List.length_cons] at hr
    have e : 1 + (1 + (od_items_tokens od_field.tokens fields).length) =
        (od_items_tokens od_field.tokens fields).length + 1 + 1 := by omega
    rw [e, hr]
    simp
  | server kw name lbrace fields =>
    obtain ⟨hkw, hn, hl, hf⟩ := hb
    obtain ⟨k, rfl⟩ : ∃ k, F = k + 1 := ⟨F - 1, by omega⟩
    simp only [od_open_block.tokens, List.cons_append] at htoks
    simp [od_open_block.tokens] at hlen
    have h1 : (od_lexpops 1 S.lex).toks =
        name :: lbrace :: (od_items_tokens od_field.tokens fields ++ rest) :=
      od_lexpops_toks_app S.lex [kw] _ 1 htoks rfl
    have hfl := od_items_tokens_length_fields fields
    refine ⟨k - fields.length, by omega, fun r hr => ?_⟩
    rw [od_loop_server k S kw _ htoks hkw,
      od_server_open k
        { lex := od_lexpops 1 S.lex, log := S.log, scheme := S.scheme }
        name lbrace fields rest hn hl hf
        (by simpa [od_open_block.need] using hneed) h1
        (by show (od_lexpops 1 S.lex).toks.length < k + 1
            rw [h1]; simp; omega)]
    simp only [← od_lexpops_add]
    simp only [od_open_block.run, od_open_block.tokens, od_open_block.scheme,
      List.length_cons, List.length_append, List.length_nil, zero_add,
      Nat.add_sub_cancel] at hr
    have e : 1 + (2 + (od_items_tokens od_field.tokens fields).length) =
        (od_items_tokens od_field.tokens fields).length + 1 + 1 + 1 := by omega
    rw [e, hr]
    simp
  | routing kw lbrace items =>
    obtain ⟨hkw, hl, hf⟩ := hb
    obtain ⟨k, rfl⟩ : ∃ k, F = k + 1 := ⟨F - 1, by omega⟩
    simp only [od_open_block.tokens, List.cons_append] at htoks
    simp [od_open_block.tokens] at hlen
    have h1 : (od_lexpops 1 S.lex).toks =
        lbrace :: (od_items_tokens od_routing_item.tokens items ++ rest) :=
      od_lexpops_toks_app S.lex [kw] _ 1 htoks rfl
    have hfl := od_items_tokens_length_le od_routing_item.tokens od_routing_item.ok
        (fun x _ => od_routing_item_tokens_pos x) items hf
    refine ⟨k - items.length, by omega, fun r hr => ?_⟩
    rw [od_loop_routing k S kw _ htoks hkw,
      od_routing_open k
        { lex := od_lexpops 1 S.lex, log := S.log, scheme := S.scheme }
        lbrace items rest hl hf
        (by simpa [od_open_block.need] using hneed) h1
        (by show (od_lexpops 1 S.lex).toks.length < k + 1
            rw [h1]; simp; omega)]
    simp only [← od_lexpops_add]
    simp only [od_open_block.run, od_open_block.tokens, od_open_block.scheme,
      List.length_cons] at hr
    have e : 1 + (1 + (od_items_tokens od_routing_item.tokens items).length) =
        (od_items_tokens od_routing_item.tokens items).length + 1 + 1 := by omega
    rw [e, hr]
    simp
  | users kw lbrace entries =>
    obtain ⟨hkw, hl, hf⟩ := hb
    obtain ⟨k, rfl⟩ : ∃ k, F = k + 1 := ⟨F - 1, by omega⟩
    simp only [od_open_block.tokens, List.cons_append] at htoks
    simp [od_open_block.tokens] at hlen
    have h1 : (od_lexpops 1 S.lex).toks =
        lbrace :: (od_items_tokens od_entry.tokens entries ++ rest) :=
      od_lexpops_toks_app S.lex [kw] _ 1 htoks rfl
    have hfl := od_items_tokens_length_le od_entry.tokens (fun _ => True)
        (fun x _ => by simp [od_entry.tokens]) entries (fun _ _ => trivial)
    refine ⟨k - entries.length, by omega, fun r hr => ?_⟩
    rw [od_loop_users k S kw _ htoks hkw,
      od_users_open k
        { lex := od_lexpops 1 S.lex, log := S.log, scheme := S.scheme }
        lbrace entries rest hl hf
        (by simpa [od_open_block.need] using hneed) h1
        (by show (od_lexpops 1 S.lex).toks.length < k + 1
            rw [h1]; simp; omega)]
    simp only [← od_lexpops_add]
    simp only [od_open_block.run, od_open_block.tokens, od_open_block.scheme,
      List.length_cons] at hr
    have e : 1 + (1 + (od_items_tokens od_entry.tokens entries).length) =
        (od_items_tokens od_entry.tokens entries).length + 1 + 1 := by omega
    rw [e, hr]
    simp
  | route kw lbrace items name lbrace2 fields =>
    obtain ⟨hkw, hl, hi, hname, hl2, hf⟩ := hb
    obtain ⟨k, rfl⟩ : ∃ k, F = k + 1 := ⟨F - 1, by omega⟩
    simp only [od_open_block.tokens, List.cons_append, List.append_assoc] at htoks
    simp [od_open_block.tokens] at hlen
    simp only [od_open_block.need] at hneed
    have h1 : (od_lexpops 1 S.lex).toks =
        lbrace :: (od_items_tokens od_routing_item.tokens items ++
          (name :: lbrace2 :: (od_items_tokens od_field.tokens fields ++ rest))) :=
      od_lexpops_toks_app S.lex [kw] _ 1 htoks rfl
    have h2 : (od_lexpops (1 + (od_items_tokens od_routing_item.tokens items).length)
          (od_lexpops 1 S.lex)).toks =
        name :: lbrace2 :: (od_items_tokens od_field.tokens fields ++ rest) :=
      od_lexpops_toks_app _ (lbrace :: od_items_tokens od_routing_item.tokens items)
        _ _ (by simpa using h1) (by simp; omega)
    have h3 : (od_lexpops 1
          (od_lexpops (1 + (od_items_tokens od_routing_item.tokens items).length)
            (od_lexpops 1 S.lex))).toks =
        lbrace2 :: (od_items_tokens od_field.tokens fields ++ rest) :=
      od_lexpops_toks_app _ [name] _ 1 h2 rfl
    have hil := od_items_tokens_length_le od_routing_item.tokens od_routing_item.ok
        (fun x _ => od_routing_item_tokens_pos x) items hi
    have hfl := od_items_tokens_length_fields fields
    have hm := od_items_foldl_mem od_routing_item.denote od_routing_item.need
      od_routing_item_denote_mem items S.scheme
    obtain ⟨j, hj⟩ : ∃ j, k - items.length = j + 1 :=
      ⟨k - items.length - 1, by omega⟩
    refine ⟨j - fields.length, by omega, fun r hr => ?_⟩
    rw [od_loop_routing k S kw _ htoks hkw,
      od_routing_open k
        { lex := od_lexpops 1 S.lex, log := S.log, scheme := S.scheme }
        lbrace items _ hl hi (by show _ ≤ S.scheme.mem; omega) h1
        (by show (od_lexpops 1 S.lex).toks.length < k + 1
            rw [h1]; simp; omega), hj]
    have hopen := fun nm => od_route_open j
      { lex := od_lexpops 1
          (od_lexpops (1 + (od_items_tokens od_routing_item.tokens items).length)
            (od_lexpops 1 S.lex)),
        log := S.log,
        scheme := items.foldl od_routing_item.denote S.scheme }
      nm lbrace2 fields rest hl2 hf
      (by show 0 < (items.foldl od_routing_item.denote S.scheme).mem; omega) h3
      (by show (od_lexpops 1
              (od_lexpops (1 + (od_items_tokens od_routing_item.tokens items).length)
                (od_lexpops 1 S.lex))).toks.length < j + 1
          rw [h3]; simp; omega)
    simp only [od_open_block.run, od_open_block.tokens, od_open_block.scheme,
      List.length_cons, List.length_append, List.length_nil, zero_add,
      Nat.add_sub_cancel] at hr
    rcases hname with hs | hd
    · rw [od_routing_loop_string j _ name _ h2 hs, hopen (some name)]
      rw [od_route_start_string name hs] at hr
      simp only [← od_lexpops_add]
      simp only [Nat.add_assoc, Nat.add_comm, Nat.add_left_comm] at hr ⊢
      rw [hr]
      simp
    · rw [od_routing_loop_default j _ name _ h2 hd, hopen none]
      rw [od_route_start_default name hd] at hr
      simp only [← od_lexpops_add]
      simp only [Nat.add_assoc, Nat.add_comm, Nat.add_left_comm] at hr ⊢
      rw [hr]
      simp
  | user kw lbrace entries name lbrace2 fields =>
    obtain ⟨hkw, hl, hi, hname, hl2, hf⟩ := hb
    obtain ⟨k, rfl⟩ : ∃ k, F = k + 1 := ⟨F - 1, by omega⟩
    simp only [od_open_block.tokens, List.cons_append, List.append_assoc] at htoks
    simp [od_open_block.tokens] at hlen
    simp only [od_open_block.need] at hneed
    have h1 : (od_lexpops 1 S.lex).toks =
        lbrace :: (od_items_tokens od_entry.tokens entries ++
          (name :: lbrace2 :: (od_items_tokens od_field.tokens fields ++ rest))) :=
      od_lexpops_toks_app S.lex [kw] _ 1 htoks rfl
    have h2 : (od_lexpops (1 + (od_items_tokens od_entry.tokens entries).length)
          (od_lexpops 1 S.lex)).toks =
        name :: lbrace2 :: (od_items_tokens od_field.tokens fields ++ rest) :=
      od_lexpops_toks_app _ (lbrace :: od_items_tokens od_entry.tokens entries)
        _ _ (by simpa using h1) (by simp; omega)
    have h3 : (od_lexpops 1
          (od_lexpops (1 + (od_items_tokens od_entry.tokens entries).length)
            (od_lexpops 1 S.lex))).toks =
        lbrace2 :: (od_items_tokens od_field.tokens fields ++ rest) :=
      od_lexpops_toks_app _ [name] _ 1 h2 rfl
    have hil := od_items_tokens_length_le od_entry.tokens (fun _ => True)
        (fun x _ => by simp [od_entry.tokens]) entries (fun _ _ => trivial)
    have hfl := od_items_tokens_length_fields fields
    have hm := od_items_foldl_mem od_user_denote (fun _ => 1)
      (fun _ _ => rfl) entries S.scheme
    rw [od_items_need_one] at hm
    obtain ⟨j, hj⟩ : ∃ j, k - entries.length = j + 1 :=
      ⟨k - entries.length - 1, by omega⟩
    refine ⟨j - fields.length, by omega, fun r hr => ?_⟩
    rw [od_loop_users k S kw _ htoks hkw,
      od_users_open k
        { lex := od_lexpops 1 S.lex, log := S.log, scheme := S.scheme }
        lbrace entries _ hl hi (by show _ ≤ S.scheme.mem; omega) h1
        (by show (od_lexpops 1 S.lex).toks.length < k + 1
            rw [h1]; simp; omega), hj]
    have hopen := od_user_open j
      { lex := od_lexpops 1
          (od_lexpops (1 + (od_items_tokens od_entry.tokens entries).length)
            (od_lexpops 1 S.lex)),
        log := S.log,
        scheme := entries.foldl od_user_denote S.scheme }
      name lbrace2 fields rest hl2 hf
      (by show 0 < (entries.foldl od_user_denote S.scheme).mem; omega) h3
      (by show (od_lexpops 1
              (od_lexpops (1 + (od_items_tokens od_entry.tokens entries).length)
                (od_lexpops 1 S.lex))).toks.length < j + 1
          rw [h3]; simp; omega)
    simp only [od_open_block.run, od_open_block.tokens, od_open_block.scheme,
      List.length_cons, List.length_append, List.length_nil, zero_add,
      Nat.add_sub_cancel] at hr
    rw [od_users_loop_string j _ name _ h2 hname, hopen]
    simp only [← od_lexpops_add]
    simp only [Nat.add_assoc, Nat.add_comm, Nat.add_left_comm] at hr ⊢
    rw [hr]
    simp

theorem od_position_reach (config : od_config_t) (p : od_position)
    (rest : List od_token_t) (hok : p.ok) (hmem : p.need ≤ config.scheme.mem)
    (htoks : config.lex.toks = p.tokens ++ rest) :
    ∃ fuel, rest.length < fuel ∧ ∀ r,
      p.block.run fuel (p.config config) = some (-1, r) →
      od_configparse config = some (-1, r) := by
  obtain ⟨root, lbrace, stmts, block⟩ := p
  obtain ⟨hroot, hl, hst, hb⟩ := hok
  simp only [od_position.tokens, od_position.need, List.cons_append,
    List.append_assoc] at htoks hmem
  have hlen := congrArg List.length htoks
  simp at hlen
  have hopen := od_configparse_open config root lbrace stmts (block.tokens ++ rest)
    hroot hl hst (by omega) htoks
  have hS : (od_lexpops (2 + (od_items_tokens od_stmt.tokens stmts).length)
      config.lex).toks = block.tokens ++ rest :=
    od_lexpops_toks_app _ (root :: lbrace :: od_items_tokens od_stmt.tokens stmts) _ _
      (by simpa using htoks) (by simp; omega)
  have hm := od_items_foldl_mem od_stmt.denote od_stmt.need od_stmt_denote_mem stmts
    config.scheme
  have hsl := od_items_tokens_length_le od_stmt.tokens (fun _ => True)
    (fun x _ => od_stmt_tokens_pos x) stmts (fun _ _ => trivial)
  obtain ⟨fuel, hfuel, h⟩ := od_loop_through block
    (config.lex.toks.length + 1 - stmts.length)
    { lex := od_lexpops (2 + (od_items_tokens od_stmt.tokens stmts).length) config.lex,
      log := config.log, scheme := stmts.foldl od_stmt.denote config.scheme }
    rest hb (by show _ ≤ (stmts.foldl od_stmt.denote config.scheme).mem; omega) hS
    (by show (od_lexpops (2 + (od_items_tokens od_stmt.tokens stmts).length)
          config.lex).toks.length < _
        rw [hS]; simp; omega)
  refine ⟨fuel, hfuel, fun r hr => ?_⟩
  rw [hopen]
  apply h
  simp only [od_position.config, od_position.tokens, od_position.scheme,
    List.length_cons, List.length_append] at hr
  simp only [← od_lexpops_add]
  simp only [show (2 : Nat) = 1 + 1 from rfl, Nat.add_assoc, Nat.add_comm,
    Nat.add_left_comm] at hr ⊢
  exact hr


set_option maxHeartbeats 1000000 in
theorem od_configparse_loop_unknown (fuel : Nat) (config : od_config_t)
    (t : od_token_t) (rest : List od_token_t)
    (htoks : config.lex.toks = t :: rest)
    (hid : t.id ∉ [OD_LDAEMONIZE, OD_LLOG_VERBOSITY, OD_LLOG_FILE, OD_LPID_FILE, OD_LSYSLOG,
      OD_LSYSLOG_IDENT, OD_LSYSLOG_FACILITY, OD_LPOOLING, OD_LLISTEN, OD_LSERVER,
      OD_LROUTING, OD_LUSERS, OD_LEOF, OD_RBRACE]) :
    od_configparse_loop (fuel + 1) config =
      some (-1, od_configerror
        { lex := od_lexpops 1 config.lex, log := config.log,
          scheme := config.scheme } (some t) "unknown option") := by
  cases hk : t.id <;>
    simp [hk, OD_RBRACE] at hid <;>
    simp [od_configparse_loop, od_lexpop, od_lexpops, htoks, hk, hid]

set_option maxHeartbeats 1000000 in
theorem od_configparse_listen_loop_unknown (fuel : Nat) (config : od_config_t)
    (t : od_token_t) (rest : List od_token_t)
    (htoks : config.lex.toks = t :: rest)
    (hid : t.id ∉ [OD_LHOST, OD_LPORT, OD_LBACKLOG, OD_LNODELAY, OD_LKEEPALIVE,
      OD_LCLIENT_MAX, OD_LWORKERS, OD_LEOF, OD_RBRACE]) :
    od_configparse_listen_loop (fuel + 1) config =
      some (-1, od_configerror
        { lex := od_lexpops 1 config.lex, log := config.log,
          scheme := config.scheme } (some t) "unknown option") := by
  cases hk : t.id <;>
    simp [hk, OD_RBRACE] at hid <;>
    simp [od_configparse_listen_loop, od_lexpop, od_lexpops, htoks, hk, hid]

set_option maxHeartbeats 1000000 in
theorem od_configparse_server_loop_unknown (fuel : Nat) (config : od_config_t) (h : Nat)
    (t : od_token_t) (rest : List od_token_t)
    (htoks : config.lex.toks = t :: rest)
    (hid : t.id ∉ [OD_LHOST, OD_LPORT, OD_LEOF, OD_RBRACE]) :
    od_configparse_server_loop (fuel + 1) config h =
      some (-1, od_configerror
        { lex := od_lexpops 1 config.lex, log := config.log,
          scheme := config.scheme } (some t) "unknown option") := by
  cases hk : t.id <;>
    simp [hk, OD_RBRACE] at hid <;>
    simp [od_configparse_server_loop, od_lexpop, od_lexpops, htoks, hk, hid]

set_option maxHeartbeats 1000000 in
theorem od_configparse_routing_loop_unknown (fuel : Nat) (config : od_config_t)
    (t : od_token_t) (rest : List od_token_t)
    (htoks : config.lex.toks = t :: rest)
    (hid : t.id ∉ [OD_LMODE, OD_LSTRING, OD_LDEFAULT, OD_LEOF, OD_RBRACE]) :
    od_configparse_routing_loop (fuel + 1) config =
      some (-1, od_configerror
        { lex := od_lexpops 1 config.lex, log := config.log,
          scheme := config.scheme } (some t) "unknown option") := by
  cases hk : t.id <;>
    simp [hk, OD_RBRACE] at hid <;>
    simp [od_configparse_routing_loop, od_lexpop, od_lexpops, htoks, hk, hid]

set_option maxHeartbeats 1000000 in
theorem od_configparse_route_loop_unknown (fuel : Nat) (config : od_config_t) (h : Nat)
    (t : od_token_t) (rest : List od_token_t)
    (htoks : config.lex.toks = t :: rest)
    (hid : t.id ∉ [OD_LROUTE, OD_LCLIENT_MAX, OD_LPOOL_MIN, OD_LPOOL_MAX, OD_LDATABASE,
      OD_LUSER, OD_LPASSWORD, OD_LTTL, OD_LEOF, OD_RBRACE]) :
    od_configparse_route_loop (fuel + 1) config h =
      some (-1, od_configerror
        { lex := od_lexpops 1 config.lex, log := config.log,
          scheme := config.scheme } (some t) "unknown option") := by
  cases hk : t.id <;>
    simp [hk, OD_RBRACE] at hid <;>
    simp [od_configparse_route_loop, od_lexpop, od_lexpops, htoks, hk, hid]

set_option maxHeartbeats 1000000 in
theorem od_configparse_users_loop_unknown (fuel : Nat) (config : od_config_t)
    (t : od_token_t) (rest : List od_token_t)
    (htoks : config.lex.toks = t :: rest)
    (hid : t.id ∉ [OD_LSTRING, OD_LEOF, OD_RBRACE]) :
    od_configparse_users_loop (fuel + 1) config =
      some (-1, od_configerror
        { lex := od_lexpops 1 config.lex, log := config.log,
          scheme := config.scheme } (some t) "unknown option") := by
  cases hk : t.id <;>
    simp [hk, OD_RBRACE] at hid <;>
    simp [od_configparse_users_loop, od_lexpop, od_lexpops, htoks, hk, hid]

set_option maxHeartbeats 1000000 in
theorem od_configparse_user_loop_unknown (fuel : Nat) (config : od_config_t) (h : Nat)
    (t : od_token_t) (rest : List od_token_t)
    (htoks : config.lex.toks = t :: rest)
    (hid : t.id ∉ [OD_LPASSWORD, OD_LEOF, OD_RBRACE]) :
    od_configparse_user_loop (fuel + 1) config h =
      some (-1, od_configerror
        { lex := od_lexpops 1 config.lex, log := config.log,
          scheme := config.scheme } (some t) "unknown option") := by
  cases hk : t.id <;>
    simp [hk, OD_RBRACE] at hid <;>
    simp [od_configparse_user_loop, od_lexpop, od_lexpops, htoks, hk, hid]

theorem od_position_unknown (config : od_config_t) (p : od_position)
    (t : od_token_t) (rest : List od_token_t)
    (hok : p.ok) (hmem : p.need ≤ config.scheme.mem)
    (htoks : config.lex.toks = p.tokens ++ t :: rest)
    (hid : t.id ∉ p.block.labels) :
    od_configparse config =
      some (-1, od_configerror
        { lex := od_lexpops (p.tokens.length + 1) config.lex, log := config.log,
          scheme := p.scheme config.scheme } (some t) "unknown option") := by
  obtain ⟨fuel, hfuel, h⟩ := od_position_reach config p (t :: rest) hok hmem htoks
  obtain ⟨k, rfl⟩ : ∃ k, fuel = k + 1 := ⟨fuel - 1, by simp at hfuel; omega⟩
  apply h
  have ht : (p.config config).lex.toks = t :: rest :=
    od_lexpops_toks_app _ _ _ _ htoks rfl
  rw [od_lexpops_add]
  cases hb : p.block <;> rw [hb] at hid <;> simp only [od_open_block.run]
  · exact od_configparse_loop_unknown k _ t rest ht hid
  · exact od_configparse_listen_loop_unknown k _ t rest ht hid
  · exact od_configparse_server_loop_unknown k _ _ t rest ht hid
  · exact od_configparse_routing_loop_unknown k _ t rest ht hid
  · exact od_configparse_route_loop_unknown k _ _ t rest ht hid
  · exact od_configparse_users_loop_unknown k _ t rest ht hid
  · exact od_configparse_user_loop_unknown k _ _ t rest ht hid

theorem od_lexpops_eof_line (n : Nat) (l : od_lex_t) :
    (od_lexpops n l).eof_line = l.eof_line := by
  induction n generalizing l with
  | zero => rfl
  | succ n ih =>
    simp only [od_lexpops, ih]
    unfold od_lexpop
    cases h : l.toks <;> simp

theorem od_foldl_config_file {α : Type} (f : od_scheme_t → α → od_scheme_t)
    (hf : ∀ s x, (f s x).config_file = s.config_file) (items : List α) :
    ∀ s, (items.foldl f s).config_file = s.config_file := by
  induction items with
  | nil => intro s; rfl
  | cons x xs ih => intro s; rw [List.foldl_cons, ih, hf]

theorem od_listen_assign_config_file (s : od_scheme_t) (f : od_field) :
    (od_listen_assign s f).config_file = s.config_file := by
  unfold od_listen_assign; split <;> rfl

theorem od_routing_item_denote_config_file (s : od_scheme_t) (x : od_routing_item) :
    (od_routing_item.denote s x).config_file = s.config_file := by
  cases x <;> rfl

theorem od_stmt_denote_config_file (s : od_scheme_t) (x : od_stmt) :
    (od_stmt.denote s x).config_file = s.config_file := by
  cases x with
  | global f => simp only [od_stmt.denote, od_global_assign]; split <;> rfl
  | listen kw lbrace fields rbrace =>
    exact od_foldl_config_file _ od_listen_assign_config_file fields s
  | server kw e => rfl
  | routing kw lbrace items rbrace =>
    exact od_foldl_config_file _ od_routing_item_denote_config_file items s
  | users kw lbrace entries rbrace =>
    exact od_foldl_config_file od_user_denote (fun _ _ => rfl) entries s

theorem od_position_scheme_config_file (s : od_scheme_t) (p : od_position) :
    (p.scheme s).config_file = s.config_file := by
  have h := od_foldl_config_file _ od_stmt_denote_config_file p.stmts s
  unfold od_position.scheme
  cases p.block with
  | top => exact h
  | listen kw lbrace fields =>
    exact (od_foldl_config_file _ od_listen_assign_config_file fields _).trans h
  | server kw name lbrace fields => exact h
  | routing kw lbrace items =>
    exact (od_foldl_config_file _ od_routing_item_denote_config_file items _).trans h
  | route kw lbrace items name lbrace2 fields =>
    exact (od_foldl_config_file _ od_routing_item_denote_config_file items _).trans h
  | users kw lbrace entries =>
    exact (od_foldl_config_file od_user_denote (fun _ _ => rfl) entries _).trans h
  | user kw lbrace entries name lbrace2 fields =>
    exact (od_foldl_config_file od_user_denote (fun _ _ => rfl) entries _).trans h

theorem od_configparse_loop_eof (fuel : Nat) (config : od_config_t)
    (htoks : config.lex.toks = []) :
    od_configparse_loop (fuel + 1) config =
      some (-1, od_configerror
        { lex := od_lexpops 1 config.lex, log := config.log,
          scheme := config.scheme }
        (some { id := OD_LEOF, line := config.lex.eof_line })
        "unexpected end of config file") := by
  simp [od_configparse_loop, od_lexpop, od_lexpops, htoks]

theorem od_configparse_listen_loop_eof (fuel : Nat) (config : od_config_t)
    (htoks : config.lex.toks = []) :
    od_configparse_listen_loop (fuel + 1) config =
      some (-1, od_configerror
        { lex := od_lexpops 1 config.lex, log := config.log,
          scheme := config.scheme }
        (some { id := OD_LEOF, line := config.lex.eof_line })
        "unexpected end of config file") := by
  simp [od_configparse_listen_loop, od_lexpop, od_lexpops, htoks]

theorem od_configparse_server_loop_eof (fuel : Nat) (config : od_config_t) (h : Nat)
    (htoks : config.lex.toks = []) :
    od_configparse_server_loop (fuel + 1) config h =
      some (-1, od_configerror
        { lex := od_lexpops 1 config.lex, log := config.log,
          scheme := config.scheme }
        (some { id := OD_LEOF, line := config.lex.eof_line })
        "unexpected end of config file") := by
  simp [od_configparse_server_loop, od_lexpop, od_lexpops, htoks]

theorem od_configparse_routing_loop_eof (fuel : Nat) (config : od_config_t)
    (htoks : config.lex.toks = []) :
    od_configparse_routing_loop (fuel + 1) config =
      some (-1, od_configerror
        { lex := od_lexpops 1 config.lex, log := config.log,
          scheme := config.scheme }
        (some { id := OD_LEOF, line := config.lex.eof_line })
        "unexpected end of config file") := by
  simp [od_configparse_routing_loop, od_lexpop, od_lexpops, htoks]

theorem od_configparse_route_loop_eof (fuel : Nat) (config : od_config_t) (h : Nat)
    (htoks : config.lex.toks = []) :
    od_configparse_route_loop (fuel + 1) config h =
      some (-1, od_configerror
        { lex := od_lexpops 1 config.lex, log := config.log,
          scheme := config.scheme }
        (some { id := OD_LEOF, line := config.lex.eof_line })
        "unexpected end of config file") := by
  simp [od_configparse_route_loop, od_lexpop, od_lexpops, htoks]

theorem od_configparse_users_loop_eof (fuel : Nat) (config : od_config_t)
    (htoks : config.lex.toks = []) :
    od_configparse_users_loop (fuel + 1) config =
      some (-1, od_configerror
        { lex := od_lexpops 1 config.lex, log := config.log,
          scheme := config.scheme }
        (some { id := OD_LEOF, line := config.lex.eof_line })
        "unexpected end of config file") := by
  simp [od_configparse_users_loop, od_lexpop, od_lexpops, htoks]

theorem od_configparse_user_loop_eof (fuel : Nat) (config : od_config_t) (h : Nat)
    (htoks : config.lex.toks = []) :
    od_configparse_user_loop (fuel + 1) config h =
      some (-1, od_configerror
        { lex := od_lexpops 1 config.lex, log := config.log,
          scheme := config.scheme }
        (some { id := OD_LEOF, line := config.lex.eof_line })
        "unexpected end of config file") := by
  simp [od_configparse_user_loop, od_lexpop, od_lexpops, htoks]

theorem od_position_eof (config : od_config_t) (p : od_position)
    (hok : p.ok) (hmem : p.need ≤ config.scheme.mem)
    (htoks : config.lex.toks = p.tokens) :
    od_configparse config =
      some (-1, od_configerror
        { lex := od_lexpops (p.tokens.length + 1) config.lex, log := config.log,
          scheme := p.scheme config.scheme }
        (some { id := OD_LEOF, line := config.lex.eof_line })
        "unexpected end of config file") := by
  obtain ⟨fuel, hfuel, h⟩ := od_position_reach config p [] hok hmem (by simpa using htoks)
  obtain ⟨k, rfl⟩ : ∃ k, fuel = k + 1 := ⟨fuel - 1, by simp at hfuel; omega⟩
  apply h
  have ht : (p.config config).lex.toks = [] :=
    od_lexpops_toks_app _ _ _ _ (by simpa using htoks) rfl
  have he : (p.config config).lex.eof_line = config.lex.eof_line :=
    od_lexpops_eof_line _ _
  rw [od_lexpops_add, ← he]
  cases hb : p.block <;> simp only [od_open_block.run]
  · exact od_configparse_loop_eof k _ ht
  · exact od_configparse_listen_loop_eof k _ ht
  · exact od_configparse_server_loop_eof k _ _ ht
  · exact od_configparse_routing_loop_eof k _ ht
  · exact od_configparse_route_loop_eof k _ _ ht
  · exact od_configparse_users_loop_eof k _ ht
  · exact od_configparse_user_loop_eof k _ _ ht

theorem od_loop_yes_no (fuel : Nat) (config : od_config_t)
    (kw : od_token_t) (rest : List od_token_t)
    (htoks : config.lex.toks = kw :: rest)
    (hkw : kw.id = OD_LDAEMONIZE ∨ kw.id = OD_LSYSLOG)
    (hy : (od_lexpop (od_lexpops 1 config.lex)).1.id ≠ OD_LYES)
    (hn : (od_lexpop (od_lexpops 1 config.lex)).1.id ≠ OD_LNO) :
    od_configparse_loop (fuel + 1) config =
      some (-1, od_configerror
        { lex := od_lexpops 2 config.lex, log := config.log, scheme := config.scheme }
        (some (od_lexpop (od_lexpops 1 config.lex)).1) "expected yes/no") := by
  cases rest with
  | nil =>
    rcases hkw with hk | hk <;>
    simp [od_configparse_loop, od_lexpop, od_lexpops, htoks, hk, od_confignext_yes_no]
  | cons v rest =>
    simp [od_lexpop, od_lexpops, htoks] at hy hn
    rcases hkw with hk | hk <;>
    simp [od_configparse_loop, od_lexpop, od_lexpops, htoks, hk, od_confignext_yes_no,
      hy, hn]

theorem od_listen_loop_yes_no (fuel : Nat) (config : od_config_t)
    (kw : od_token_t) (rest : List od_token_t)
    (htoks : config.lex.toks = kw :: rest)
    (hk : kw.id = OD_LNODELAY)
    (hy : (od_lexpop (od_lexpops 1 config.lex)).1.id ≠ OD_LYES)
    (hn : (od_lexpop (od_lexpops 1 config.lex)).1.id ≠ OD_LNO) :
    od_configparse_listen_loop (fuel + 1) config =
      some (-1, od_configerror
        { lex := od_lexpops 2 config.lex, log := config.log, scheme := config.scheme }
        (some (od_lexpop (od_lexpops 1 config.lex)).1) "expected yes/no") := by
  cases rest with
  | nil =>
    simp [od_configparse_listen_loop, od_lexpop, od_lexpops, htoks, hk,
      od_confignext_yes_no]
  | cons v rest =>
    simp [od_lexpop, od_lexpops, htoks] at hy hn
    simp [od_configparse_listen_loop, od_lexpop, od_lexpops, htoks, hk,
      od_confignext_yes_no, hy, hn]

theorem od_position_yes_no (config : od_config_t) (p : od_position)
    (kw : od_token_t) (rest : List od_token_t)
    (hok : p.ok) (hmem : p.need ≤ config.scheme.mem)
    (htoks : config.lex.toks = p.tokens ++ kw :: rest)
    (hkw : p.block.yes_no_field kw.id)
    (hy : (od_lexpop (od_lexpops (p.tokens.length + 1) config.lex)).1.id ≠ OD_LYES)
    (hn : (od_lexpop (od_lexpops (p.tokens.length + 1) config.lex)).1.id ≠ OD_LNO) :
    od_configparse config =
      some (-1, od_configerror
        { lex := od_lexpops (p.tokens.length + 2) config.lex, log := config.log,
          scheme := p.scheme config.scheme }
        (some (od_lexpop (od_lexpops (p.tokens.length + 1) config.lex)).1)
        "expected yes/no") := by
  obtain ⟨fuel, hfuel, h⟩ := od_position_reach config p (kw :: rest) hok hmem htoks
  obtain ⟨k, rfl⟩ : ∃ k, fuel = k + 1 := ⟨fuel - 1, by simp at hfuel; omega⟩
  apply h
  have ht : (p.config config).lex.toks = kw :: rest :=
    od_lexpops_toks_app _ _ _ _ htoks rfl
  rw [od_lexpops_add] at hy hn ⊢
  rw [od_lexpops_add]
  cases hb : p.block <;> rw [hb] at hkw <;>
    simp only [od_open_block.run, od_open_block.yes_no_field] at hkw ⊢
  · exact od_loop_yes_no k _ kw rest ht hkw hy hn
  · exact od_listen_loop_yes_no k _ kw rest ht hkw hy hn

theorem od_confignext_fail (config : od_config_t) (id : od_tokenid)
    (h : (od_lexpop config.lex).1.id ≠ id) :
    (od_confignext config id).1 = -1 ∧
    (od_confignext config id).2.2.scheme = config.scheme ∧
    (od_confignext config id).2.2.lex = (od_lexpop config.lex).2 := by
  unfold od_confignext
  dsimp only
  split_ifs with h1
  · exact ⟨rfl, rfl, rfl⟩
  · split
    · split_ifs <;> exact ⟨rfl, rfl, rfl⟩
    · exact ⟨rfl, rfl, rfl⟩

/-! ## The claims -/

/-- C1: a token stream that is a sentence of the grammar (possibly followed by
more tokens) makes `od_configparse` return 0 without any error report, and
the resulting scheme is the initial scheme with every field of the stream
assigned, in the order of the stream, the value carried by its value token:
the text of the STRING token, the value of the NUMBER token, 1 for `yes` and
0 for `no`. The scheme store must be able to allocate the entries the
sentence declares. -/
theorem od_configparse_sentence_ok (config : od_config_t) (c : od_sentence)
    (rest : List od_token_t) (hok : c.ok) (hmem : c.need ≤ config.scheme.mem)
    (htoks : config.lex.toks = c.tokens ++ rest) :
    ∃ config', od_configparse config = some (0, config') ∧
      config'.scheme = od_sentence.denote config.scheme c ∧
      config'.log = config.log :=
  ⟨_, od_configparse_sentence config c rest hok hmem htoks, rfl, rfl⟩

/-- C1, witness: the end-to-end example of the specification is a sentence and
yields listen host "0.0.0.0", port 6432, one user alice/secret and one default
route with pool_max 5. -/
theorem od_configparse_sentence_ok_witness :
    od_example_sentence.tokens = od_example_tokens ∧
    od_sentence.denote (od_config_on od_example_tokens 6 2).scheme od_example_sentence =
      { config_file := "odissey.conf", host := some "0.0.0.0", port := 6432,
        users := [{ user := some "alice", password := some "secret" }],
        routes := [{ target := some "", is_default := 1, pool_max := 5 }] } ∧
    ∃ config', od_configparse (od_config_on od_example_tokens 6 2) = some (0, config') ∧
      config'.scheme =
        od_sentence.denote (od_config_on od_example_tokens 6 2).scheme
          od_example_sentence ∧
      config'.log = (od_config_on od_example_tokens 6 2).log :=
  ⟨by decide, by decide,
   od_configparse_sentence_ok (od_config_on od_example_tokens 6 2) od_example_sentence []
     (by simp [od_sentence.ok, od_example_sentence, od_stmt.ok, od_field.ok,
          od_routing_item.ok, od_entry.ok, od_tok, od_tok_string, od_tok_number,
          od_listen_kind, od_user_kind, od_route_kind, OD_LBRACE, OD_RBRACE])
     (by decide) (by decide)⟩

/-- C2, counterexample: in `odissey { daemonize` the top-level block is open
and the input ends before its closing brace, yet the message reported is
"expected yes/no" and not "unexpected end of config file". -/
theorem od_configparse_eof_counterexample :
    (od_configparse (od_config_on
        [od_tok OD_LODISSEY 1, od_tok OD_LBRACE 1, od_tok OD_LDAEMONIZE 2] 3 0)).map
      (fun r => (r.1, r.2.log)) =
      some (-1, [{ file := "odissey.conf", line := 3, msg := "expected yes/no" }]) ∧
    "expected yes/no" ≠ "unexpected end of config file" := by
  decide

/-- C3: when the token at a position where an open block (any of the seven
block parsers) expects a field keyword or its closing brace has no `case`
label in that block's `switch` (as every keyword the block does not
recognise), `od_configparse` fails and reports exactly one error, "unknown
option", at the line of that token. -/
theorem od_configparse_unknown_option (config : od_config_t) (p : od_position)
    (t : od_token_t) (rest : List od_token_t)
    (hok : p.ok) (hmem : p.need ≤ config.scheme.mem)
    (htoks : config.lex.toks = p.tokens ++ t :: rest)
    (hid : t.id ∉ p.block.labels) :
    ∃ r, od_configparse config = some (-1, r) ∧
      r.log = config.log ++
        [{ file := config.scheme.config_file, line := t.line,
           msg := "unknown option" }] := by
  refine ⟨_, od_position_unknown config p t rest hok hmem htoks hid, ?_⟩
  simp [od_configerror, od_msg256_unknown, od_position_scheme_config_file]

/-- C3, witness: `mode` inside a listen block, on line 7. -/
theorem od_configparse_unknown_option_witness :
    ∃ r, od_configparse
        (od_config_on (od_example_listen_position.tokens ++
          od_tok OD_LMODE 7 :: [od_tok_string "x" 7]) 9 0) = some (-1, r) ∧
      r.log = [] ++
        [{ file := "odissey.conf", line := 7, msg := "unknown option" }] :=
  od_configparse_unknown_option
    (od_config_on (od_example_listen_position.tokens ++
      od_tok OD_LMODE 7 :: [od_tok_string "x" 7]) 9 0)
    od_example_listen_position (od_tok OD_LMODE 7) [od_tok_string "x" 7]
    (by simp [od_position.ok, od_example_listen_position, od_open_block.ok,
          od_field.ok, od_listen_kind, od_tok, od_tok_string, OD_LBRACE])
    (by decide) rfl (by decide)

/-- C4: `od_confignext_yes_no` pops exactly one token, returns 1 for `yes`,
0 for `no` (without a report), and for every other token returns -1 after
reporting "expected yes/no" at that token's line; and a `daemonize` or
`syslog` keyword at the top level, or a `nodelay` keyword in a listen block,
followed by a token that is neither `yes` nor `no` (end of input included)
makes `od_configparse` fail with that report. -/
theorem od_confignext_yes_no_spec :
    (∀ config : od_config_t,
      (od_confignext_yes_no config).2.1 = (od_lexpop config.lex).1 ∧
      (od_confignext_yes_no config).2.2.lex = (od_lexpop config.lex).2 ∧
      (od_confignext_yes_no config).2.2.lex.popped = config.lex.popped + 1 ∧
      (od_confignext_yes_no config).2.2.scheme = config.scheme ∧
      ((od_lexpop config.lex).1.id = OD_LYES →
        (od_confignext_yes_no config).1 = 1 ∧
        (od_confignext_yes_no config).2.2.log = config.log) ∧
      ((od_lexpop config.lex).1.id = OD_LNO →
        (od_confignext_yes_no config).1 = 0 ∧
        (od_confignext_yes_no config).2.2.log = config.log) ∧
      ((od_lexpop config.lex).1.id ≠ OD_LYES → (od_lexpop config.lex).1.id ≠ OD_LNO →
        (od_confignext_yes_no config).1 = -1 ∧
        (od_confignext_yes_no config).2.2.log = config.log ++
          [{ file := config.scheme.config_file, line := (od_lexpop config.lex).1.line,
             msg := "expected yes/no" }])) ∧
    (∀ (config : od_config_t) (p : od_position) (kw : od_token_t)
        (rest : List od_token_t),
      p.ok → p.need ≤ config.scheme.mem →
      config.lex.toks = p.tokens ++ kw :: rest →
      p.block.yes_no_field kw.id →
      (od_lexpop (od_lexpops (p.tokens.length + 1) config.lex)).1.id ≠ OD_LYES →
      (od_lexpop (od_lexpops (p.tokens.length + 1) config.lex)).1.id ≠ OD_LNO →
      ∃ r, od_configparse config = some (-1, r) ∧
        r.log = config.log ++
          [{ file := config.scheme.config_file,
             line := (od_lexpop (od_lexpops (p.tokens.length + 1) config.lex)).1.line,
             msg := "expected yes/no" }]) := by
  constructor
  · intro config
    have hp : (od_lexpop config.lex).2.popped = config.lex.popped + 1 := by
      unfold od_lexpop; cases config.lex.toks <;> rfl
    unfold od_confignext_yes_no
    dsimp only
    split_ifs with h1 h2
    · refine ⟨rfl, rfl, hp, rfl, fun _ => ⟨rfl, rfl⟩, fun h => ?_, fun h => absurd h1 h⟩
      rw [h1] at h; cases h
    · refine ⟨rfl, rfl, hp, rfl, fun h => absurd h h1, fun _ => ⟨rfl, rfl⟩,
        fun _ h => absurd h2 h⟩
    · refine ⟨rfl, rfl, hp, rfl, fun h => absurd h h1, fun h => absurd h h2,
        fun _ _ => ⟨rfl, ?_⟩⟩
      simp [od_configerror, od_msg256_yes_no]
  · intro config p kw rest hok hmem htoks hkw hy hn
    refine ⟨_, od_position_yes_no config p kw rest hok hmem htoks hkw hy hn, ?_⟩
    simp [od_configerror, od_msg256_yes_no, od_position_scheme_config_file]

/-- C4, witness: `daemonize on` at the top level, after
`odissey { log_verbosity 3`: the keyword `on` is not accepted. -/
theorem od_confignext_yes_no_spec_witness :
    ∃ r, od_configparse
        (od_config_on (od_example_top_position.tokens ++
          od_tok OD_LDAEMONIZE 5 :: [od_tok OD_LON 6]) 9 0) = some (-1, r) ∧
      r.log = [] ++
        [{ file := "odissey.conf",
           line := (od_lexpop (od_lexpops (od_example_top_position.tokens.length + 1)
             (od_config_on (od_example_top_position.tokens ++
               od_tok OD_LDAEMONIZE 5 :: [od_tok OD_LON 6]) 9 0).lex)).1.line,
           msg := "expected yes/no" }] :=
  od_confignext_yes_no_spec.2
    (od_config_on (od_example_top_position.tokens ++
      od_tok OD_LDAEMONIZE 5 :: [od_tok OD_LON 6]) 9 0)
    od_example_top_position (od_tok OD_LDAEMONIZE 5) [od_tok OD_LON 6]
    (by simp [od_position.ok, od_example_top_position, od_open_block.ok, od_stmt.ok,
          od_field.ok, od_global_kind, od_tok, od_tok_number, OD_LBRACE])
    (by decide) rfl (Or.inl rfl) (by decide) (by decide)

/-- C5, the code at the failing input: a lexical-error token popped by the
dispatch of the top-level block is reported as "unknown option"; the
diagnostic of the token source, recorded in the lexer, is not reported. -/
theorem od_configparse_lexerror_unknown_option :
    (od_configparse (od_config_on
        [od_tok OD_LODISSEY 1, od_tok OD_LBRACE 1,
         { id := OD_LERROR, line := 2, string := "unterminated string" }] 3 0)).map
      (fun r => (r.1, r.2.log, r.2.lex.error)) =
      some (-1, [{ file := "odissey.conf", line := 2, msg := "unknown option" }],
            "unterminated string") := by
  decide

/-- C6, the code at the failing input: when `od_schemeserver_add` cannot
allocate the entry of a `server` block, `od_configparse` returns -1 and the
log is empty: no error has been reported. -/
theorem od_configparse_alloc_failure_silent :
    (od_configparse (od_config_on
        [od_tok OD_LODISSEY 1, od_tok OD_LBRACE 1, od_tok OD_LSERVER 2,
         od_tok_string "s" 2, od_tok OD_LBRACE 2, od_tok OD_RBRACE 2,
         od_tok OD_RBRACE 3] 4 0)).map
      (fun r => (r.1, r.2.log)) = some (-1, []) := by
  decide

theorem od_foldl_preserve {α β : Type} (proj : od_scheme_t → β)
    (f : od_scheme_t → α → od_scheme_t) (hf : ∀ s x, proj (f s x) = proj s)
    (items : List α) : ∀ s, proj (items.foldl f s) = proj s := by
  induction items with
  | nil => intro s; rfl
  | cons x xs ih => intro s; rw [List.foldl_cons, ih, hf]

theorem od_stmt_denote_servers (s : od_scheme_t) (x : od_stmt) :
    (od_stmt.denote s x).servers =
      s.servers ++ (od_server_blocks [x]).map od_server_entry := by
  cases x with
  | global f =>
    simp only [od_stmt.denote, od_global_assign, od_server_blocks, List.map_nil,
      List.append_nil]
    split <;> rfl
  | listen kw lbrace fields rbrace =>
    simp only [od_stmt.denote, od_server_blocks, List.map_nil, List.append_nil]
    exact od_foldl_preserve (fun s => s.servers) od_listen_assign
      (fun s f => by unfold od_listen_assign; split <;> rfl) fields s
  | server kw e => rfl
  | routing kw lbrace items rbrace =>
    simp only [od_stmt.denote, od_server_blocks, List.map_nil, List.append_nil]
    exact od_foldl_preserve (fun s => s.servers) od_routing_item.denote
      (fun s x => by cases x <;> rfl) items s
  | users kw lbrace entries rbrace =>
    simp only [od_stmt.denote, od_server_blocks, List.map_nil, List.append_nil]
    exact od_foldl_preserve (fun s => s.servers) od_user_denote
      (fun _ _ => rfl) entries s

theorem od_server_blocks_cons (x : od_stmt) (xs : List od_stmt) :
    od_server_blocks (x :: xs) = od_server_blocks [x] ++ od_server_blocks xs := by
  cases x <;> rfl

theorem od_stmts_denote_servers (stmts : List od_stmt) :
    ∀ s, (stmts.foldl od_stmt.denote s).servers =
      s.servers ++ (od_server_blocks stmts).map od_server_entry := by
  induction stmts with
  | nil => intro s; simp [od_server_blocks]
  | cons x xs ih =>
    intro s
    rw [List.foldl_cons, ih, od_stmt_denote_servers, od_server_blocks_cons x xs]
    simp

theorem od_server_entry_name (e : od_entry) :
    (od_server_entry e).name = some e.name.string := by
  unfold od_server_entry
  have h : ∀ (fields : List od_field) (x : od_schemeserver_t),
      (fields.foldl od_server_assign x).name = x.name := by
    intro fields
    induction fields with
    | nil => intro x; rfl
    | cons f fs ih =>
      intro x
      rw [List.foldl_cons, ih]
      unfold od_server_assign; split <;> rfl
  rw [h]

/-- C7: for a well-formed token stream, `od_configparse` succeeds and the
Servers collection afterwards is the collection as it was before the parse,
unchanged, followed by one entry per top-level `server` block, in declaration
order (so exactly k entries for k blocks); the entry of a block carries the
name of its STRING token and the host and port its fields assign. -/
theorem od_configparse_servers_appended (config : od_config_t) (c : od_sentence)
    (rest : List od_token_t) (hok : c.ok) (hmem : c.need ≤ config.scheme.mem)
    (htoks : config.lex.toks = c.tokens ++ rest) :
    ∃ config', od_configparse config = some (0, config') ∧
      config'.scheme.servers =
        config.scheme.servers ++ (od_server_blocks c.stmts).map od_server_entry ∧
      config'.scheme.servers.length =
        config.scheme.servers.length + (od_server_blocks c.stmts).length ∧
      ∀ e ∈ od_server_blocks c.stmts, (od_server_entry e).name = some e.name.string := by
  refine ⟨_, od_configparse_sentence config c rest hok hmem htoks, ?_, ?_,
    fun e _ => od_server_entry_name e⟩
  · exact od_stmts_denote_servers c.stmts config.scheme
  · show (od_sentence.denote config.scheme c).servers.length = _
    rw [od_sentence.denote, od_stmts_denote_servers]
    simp

/-- C7, witness: two server blocks parsed into a scheme that already holds
one server entry. -/
theorem od_configparse_servers_appended_witness :
    (od_server_blocks od_example_two_servers.stmts).map od_server_entry =
      [{ name := some "a", host := some "h1", port := 1 },
       { name := some "b", host := none, port := 2 }] ∧
    ∃ config', od_configparse
        (od_example_config_one_server od_example_two_servers.tokens) =
          some (0, config') ∧
      config'.scheme.servers =
        (od_example_config_one_server od_example_two_servers.tokens).scheme.servers ++
          (od_server_blocks od_example_two_servers.stmts).map od_server_entry ∧
      config'.scheme.servers.length =
        (od_example_config_one_server
            od_example_two_servers.tokens).scheme.servers.length +
          (od_server_blocks od_example_two_servers.stmts).length ∧
      ∀ e ∈ od_server_blocks od_example_two_servers.stmts,
        (od_server_entry e).name = some e.name.string :=
  ⟨by decide,
   od_configparse_servers_appended
     (od_example_config_one_server od_example_two_servers.tokens)
     od_example_two_servers []
     (by simp [od_sentence.ok, od_example_two_servers, od_stmt.ok, od_field.ok,
          od_entry.ok, od_tok, od_tok_string, od_tok_number,
          od_server_kind, od_global_kind, OD_LBRACE, OD_RBRACE])
     (by decide) (by decide)⟩

/-- C8: parsing `odissey { routing { default { ttl n } } }` into a scheme
without routes succeeds and leaves exactly one route entry, flagged as the default
route, with the empty string as target and ttl n. The hypothesis on the token
kinds fixes the shape of the stream, lines are arbitrary; the store must be
able to allocate the entry. -/
theorem od_configparse_default_route (n : Int) (config : od_config_t)
    (ts : List od_token_t)
    (hids : ts.map od_token_t.id =
      [OD_LODISSEY, OD_LBRACE, OD_LROUTING, OD_LBRACE, OD_LDEFAULT, OD_LBRACE,
       OD_LTTL, OD_LNUMBER, OD_RBRACE, OD_RBRACE, OD_RBRACE])
    (hnum : ∀ t ∈ ts, t.id = OD_LNUMBER → t.num = n)
    (htoks : config.lex.toks = ts)
    (hempty : config.scheme.routes = [])
    (hmem : 0 < config.scheme.mem) :
    ∃ config' r, od_configparse config = some (0, config') ∧
      config'.scheme.routes = [r] ∧
      r.is_default = 1 ∧ r.target = some "" ∧ r.ttl = n := by
  rcases ts with _ | ⟨t0, _ | ⟨t1, _ | ⟨t2, _ | ⟨t3, _ | ⟨t4, _ | ⟨t5, _ | ⟨t6,
    _ | ⟨t7, _ | ⟨t8, _ | ⟨t9, _ | ⟨t10, _ | ⟨t11, ts⟩⟩⟩⟩⟩⟩⟩⟩⟩⟩⟩⟩ <;>
    simp at hids
  obtain ⟨h0, h1, h2, h3, h4, h5, h6, h7, h8, h9, h10⟩ := hids
  have hn : t7.num = n := hnum t7 (by simp) h7
  have hparse := od_configparse_sentence config
    { root := t0, lbrace := t1,
      stmts := [od_stmt.routing t2 t3
        [od_routing_item.route
          { name := t4, lbrace := t5, fields := [{ key := t6, value := t7 }],
            rbrace := t8 }] t9],
      rbrace := t10 } []
    (by simp [od_sentence.ok, od_stmt.ok, od_routing_item.ok, od_entry.ok, od_field.ok,
          od_route_kind, h0, h1, h2, h3, h4, h5, h6, h7, h8, h9, h10])
    (by simp [od_sentence.need, od_stmt.need, od_items_need, od_routing_item.need]
        omega)
    (by simp [htoks, od_sentence.tokens, od_stmt.tokens, od_items_tokens,
          od_routing_item.tokens, od_entry.tokens, od_field.tokens])
  refine ⟨_, List.foldl od_route_assign (od_route_start t4) [{ key := t6, value := t7 }],
    hparse, ?_, ?_, ?_, ?_⟩
  · simp [od_sentence.denote, od_stmt.denote, od_routing_item.denote, hempty]
  · simp [od_route_assign, od_route_start, h4, h6]
  · simp [od_route_assign, od_route_start, h4, h6]
  · simp [od_route_assign, od_route_start, h4, h6, hn]

/-- C8, witness: ttl 30, parsed into an empty scheme. -/
theorem od_configparse_default_route_witness :
    ∃ config' r, od_configparse
        (od_config_on (od_example_default_route 30) 12 1) = some (0, config') ∧
      config'.scheme.routes = [r] ∧
      r.is_default = 1 ∧ r.target = some "" ∧ r.ttl = 30 :=
  od_configparse_default_route 30 (od_config_on (od_example_default_route 30) 12 1)
    (od_example_default_route 30) (by decide) (by decide) rfl rfl (by decide)

/-- C9: parsing `odissey { routing { "s" { pool_max n } } }` into a scheme
without routes succeeds and leaves exactly one route entry, whose target is
s, whose pool_max is n and whose is_default flag is 0, the value of a freshly
added entry. The hypothesis on the token kinds fixes the shape of the stream,
lines are arbitrary; the store must be able to allocate the entry. -/
theorem od_configparse_named_route (s : String) (n : Int) (config : od_config_t)
    (ts : List od_token_t)
    (hids : ts.map od_token_t.id =
      [OD_LODISSEY, OD_LBRACE, OD_LROUTING, OD_LBRACE, OD_LSTRING, OD_LBRACE,
       OD_LPOOL_MAX, OD_LNUMBER, OD_RBRACE, OD_RBRACE, OD_RBRACE])
    (hstr : ∀ t ∈ ts, t.id = OD_LSTRING → t.string = s)
    (hnum : ∀ t ∈ ts, t.id = OD_LNUMBER → t.num = n)
    (htoks : config.lex.toks = ts)
    (hempty : config.scheme.routes = [])
    (hmem : 0 < config.scheme.mem) :
    ∃ config' r, od_configparse config = some (0, config') ∧
      config'.scheme.routes = [r] ∧
      r.target = some s ∧ r.pool_max = n ∧ r.is_default = 0 ∧
      r.is_default = ({} : od_schemeroute_t).is_default := by
  rcases ts with _ | ⟨t0, _ | ⟨t1, _ | ⟨t2, _ | ⟨t3, _ | ⟨t4, _ | ⟨t5, _ | ⟨t6,
    _ | ⟨t7, _ | ⟨t8, _ | ⟨t9, _ | ⟨t10, _ | ⟨t11, ts⟩⟩⟩⟩⟩⟩⟩⟩⟩⟩⟩⟩ <;>
    simp at hids
  obtain ⟨h0, h1, h2, h3, h4, h5, h6, h7, h8, h9, h10⟩ := hids
  have hn : t7.num = n := hnum t7 (by simp) h7
  have hs : t4.string = s := hstr t4 (by simp) h4
  have hparse := od_configparse_sentence config
    { root := t0, lbrace := t1,
      stmts := [od_stmt.routing t2 t3
        [od_routing_item.route
          { name := t4, lbrace := t5, fields := [{ key := t6, value := t7 }],
            rbrace := t8 }] t9],
      rbrace := t10 } []
    (by simp [od_sentence.ok, od_stmt.ok, od_routing_item.ok, od_entry.ok, od_field.ok,
          od_route_kind, h0, h1, h2, h3, h4, h5, h6, h7, h8, h9, h10])
    (by simp [od_sentence.need, od_stmt.need, od_items_need, od_routing_item.need]
        omega)
    (by simp [htoks, od_sentence.tokens, od_stmt.tokens, od_items_tokens,
          od_routing_item.tokens, od_entry.tokens, od_field.tokens])
  refine ⟨_, List.foldl od_route_assign (od_route_start t4) [{ key := t6, value := t7 }],
    hparse, ?_, ?_, ?_, ?_, ?_⟩
  · simp [od_sentence.denote, od_stmt.denote, od_routing_item.denote, hempty]
  · simp [od_route_assign, od_route_start, h4, h6, hs]
  · simp [od_route_assign, od_route_start, h4, h6, hn]
  · simp [od_route_assign, od_route_start, h4, h6]
  · simp [od_route_assign, od_route_start, h4, h6]

/-- C9, witness: the route "mydb" with pool_max 10, parsed into an empty
scheme. -/
theorem od_configparse_named_route_witness :
    ∃ config' r, od_configparse
        (od_config_on (od_example_named_route "mydb" 10) 12 1) = some (0, config') ∧
      config'.scheme.routes = [r] ∧
      r.target = some "mydb" ∧ r.pool_max = 10 ∧ r.is_default = 0 ∧
      r.is_default = ({} : od_schemeroute_t).is_default :=
  od_configparse_named_route "mydb" 10
    (od_config_on (od_example_named_route "mydb" 10) 12 1)
    (od_example_named_route "mydb" 10) (by decide) (by decide) (by decide) rfl rfl
    (by decide)

theorem od_position_server_name (config : od_config_t) (p : od_position)
    (kw : od_token_t) (rest : List od_token_t)
    (hok : p.ok) (htop : p.block = od_open_block.top)
    (hmem : p.need + 1 ≤ config.scheme.mem)
    (htoks : config.lex.toks = p.tokens ++ kw :: rest)
    (hkw : kw.id = OD_LSERVER)
    (hv : (od_lexpop (od_lexpops (p.tokens.length + 1) config.lex)).1.id ≠ OD_LSTRING) :
    ∃ r, od_configparse config = some (-1, r) ∧
      r.scheme = { p.scheme config.scheme with
        servers := (p.scheme config.scheme).servers ++ [{}],
        mem := (p.scheme config.scheme).mem - 1 } ∧
      r.lex = od_lexpops (p.tokens.length + 2) config.lex := by
  obtain ⟨fuel, hfuel, h⟩ := od_position_reach config p (kw :: rest) hok (by omega) htoks
  obtain ⟨k, rfl⟩ : ∃ k, fuel = k + 1 := ⟨fuel - 1, by simp at hfuel; omega⟩
  have ht : (p.config config).lex.toks = kw :: rest :=
    od_lexpops_toks_app _ _ _ _ htoks rfl
  have hm : (p.scheme config.scheme).mem = config.scheme.mem - p.need := by
    have := od_items_foldl_mem od_stmt.denote od_stmt.need od_stmt_denote_mem p.stmts
      config.scheme
    simp only [od_position.scheme, od_position.need, htop, od_open_block.scheme,
      od_open_block.need, Nat.add_zero]
    exact this
  rw [od_lexpops_add] at hv
  have hf := od_confignext_fail
    { lex := od_lexpops 1 (p.config config).lex, log := (p.config config).log,
      scheme := { (p.config config).scheme with
        servers := (p.config config).scheme.servers ++ [{}],
        mem := (p.config config).scheme.mem - 1 } } OD_LSTRING hv
  refine ⟨_, h _ ?_, hf.2.1, ?_⟩
  · rw [htop]
    simp only [od_open_block.run]
    rw [od_loop_server k _ kw rest ht hkw]
    unfold od_configparse_server od_schemeserver_add
    rw [if_neg (by show ¬ (p.scheme config.scheme).mem = 0; omega)]
    dsimp only
    rw [if_pos hf.1]
    simp
  · rw [hf.2.2, show p.tokens.length + 2 = p.tokens.length + 1 + 1 from rfl,
      od_lexpops_add, od_lexpops_add]
    rfl

/-- C10, counterexample: in `odissey { server 5432` the token that follows the
`server` keyword is a NUMBER; the parse fails, and the Servers collection,
empty before the `server` keyword, holds one entry without a name. -/
theorem od_configparse_server_name_counterexample :
    (od_config_on [od_tok OD_LODISSEY 1, od_tok OD_LBRACE 1, od_tok OD_LSERVER 2,
        od_tok_number 5432 2] 3 1).scheme.servers = [] ∧
    (od_configparse (od_config_on
        [od_tok OD_LODISSEY 1, od_tok OD_LBRACE 1, od_tok OD_LSERVER 2,
         od_tok_number 5432 2] 3 1)).map
      (fun r => (r.1, r.2.scheme.servers)) =
      some (-1, [{ name := none, host := none, port := 0 }]) := by
  decide

/-- C10, amended: a token at the dispatch position of any block that has no
`case` label there (in a routing block: anything but `mode`, a STRING,
`default`, the closing brace and end of input; in a users block: anything but
a STRING, the closing brace and end of input) makes `od_configparse` fail
with the three collections as they stood: a route or user entry is added only
after its identifying token has been popped. A server entry is added when the
`server` keyword is dispatched, before its name is popped: when the token
after `server` is not a STRING and the entry can be allocated,
`od_configparse` fails and the Servers collection is the collection as it
stood followed by one fresh entry, without name, host or port. -/
theorem od_configparse_entry_allocation :
    (∀ (config : od_config_t) (p : od_position) (t : od_token_t)
        (rest : List od_token_t),
      p.ok → p.need ≤ config.scheme.mem →
      config.lex.toks = p.tokens ++ t :: rest →
      t.id ∉ p.block.labels →
      ∃ r, od_configparse config = some (-1, r) ∧
        r.scheme.servers = (p.scheme config.scheme).servers ∧
        r.scheme.routes = (p.scheme config.scheme).routes ∧
        r.scheme.users = (p.scheme config.scheme).users) ∧
    (∀ (config : od_config_t) (p : od_position) (kw : od_token_t)
        (rest : List od_token_t),
      p.ok → p.block = od_open_block.top → p.need + 1 ≤ config.scheme.mem →
      config.lex.toks = p.tokens ++ kw :: rest →
      kw.id = OD_LSERVER →
      (od_lexpop (od_lexpops (p.tokens.length + 1) config.lex)).1.id ≠ OD_LSTRING →
      ∃ r, od_configparse config = some (-1, r) ∧
        r.scheme.servers =
          (p.scheme config.scheme).servers ++
            [{ name := none, host := none, port := 0 }] ∧
        r.scheme.routes = (p.scheme config.scheme).routes ∧
        r.scheme.users = (p.scheme config.scheme).users) := by
  constructor
  · intro config p t rest hok hmem htoks hid
    exact ⟨_, od_position_unknown config p t rest hok hmem htoks hid, rfl, rfl, rfl⟩
  · intro config p kw rest hok htop hmem htoks hkw hv
    obtain ⟨r, hr, hs, _⟩ :=
      od_position_server_name config p kw rest hok htop hmem htoks hkw hv
    refine ⟨r, hr, ?_, ?_, ?_⟩ <;> rw [hs]

/-- C10, witness: `server 5432` at the top level, after
`odissey { log_verbosity 3`. -/
theorem od_configparse_entry_allocation_witness :
    ∃ r, od_configparse
        (od_config_on (od_example_top_position.tokens ++
          od_tok OD_LSERVER 5 :: [od_tok_number 5432 5]) 9 1) = some (-1, r) ∧
      r.scheme.servers =
        (od_example_top_position.scheme
          (od_config_on (od_example_top_position.tokens ++
            od_tok OD_LSERVER 5 :: [od_tok_number 5432 5]) 9 1).scheme).servers ++
          [{ name := none, host := none, port := 0 }] ∧
      r.scheme.routes =
        (od_example_top_position.scheme
          (od_config_on (od_example_top_position.tokens ++
            od_tok OD_LSERVER 5 :: [od_tok_number 5432 5]) 9 1).scheme).routes ∧
      r.scheme.users =
        (od_example_top_position.scheme
          (od_config_on (od_example_top_position.tokens ++
            od_tok OD_LSERVER 5 :: [od_tok_number 5432 5]) 9 1).scheme).users :=
  od_configparse_entry_allocation.2
    (od_config_on (od_example_top_position.tokens ++
      od_tok OD_LSERVER 5 :: [od_tok_number 5432 5]) 9 1)
    od_example_top_position (od_tok OD_LSERVER 5) [od_tok_number 5432 5]
    (by simp [od_position.ok, od_example_top_position, od_open_block.ok, od_stmt.ok,
          od_field.ok, od_global_kind, od_tok, od_tok_number, OD_LBRACE])
    rfl (by decide) rfl rfl (by decide)

set_option maxHeartbeats 1000000 in
theorem od_configparse_listen_loop_pending (fuel : Nat) (config : od_config_t)
    (kw : od_token_t) (htoks : config.lex.toks = [kw])
    (hk : od_listen_kind kw.id ≠ none) :
    ∃ r msg, od_configparse_listen_loop (fuel + 1) config = some (-1, r) ∧
      r.log = config.log ++
        [{ file := config.scheme.config_file, line := config.lex.eof_line,
           msg := msg }] := by
  cases hkid : kw.id <;> simp [od_listen_kind, hkid] at hk <;>
    simp [od_configparse_listen_loop, od_lexpop, htoks, hkid, od_confignext, od_confignext_yes_no,
      od_configerror, OD_LBRACE, ispunct]

set_option maxHeartbeats 1000000 in
theorem od_configparse_server_loop_pending (fuel : Nat) (config : od_config_t) (h : Nat)
    (kw : od_token_t) (htoks : config.lex.toks = [kw])
    (hk : od_server_kind kw.id ≠ none) :
    ∃ r msg, od_configparse_server_loop (fuel + 1) config h = some (-1, r) ∧
      r.log = config.log ++
        [{ file := config.scheme.config_file, line := config.lex.eof_line,
           msg := msg }] := by
  cases hkid : kw.id <;> simp [od_server_kind, hkid] at hk <;>
    simp [od_configparse_server_loop, od_lexpop, htoks, hkid, od_confignext, od_confignext_yes_no,
      od_configerror, OD_LBRACE, ispunct]

set_option maxHeartbeats 1000000 in
theorem od_configparse_route_loop_pending (fuel : Nat) (config : od_config_t) (h : Nat)
    (kw : od_token_t) (htoks : config.lex.toks = [kw])
    (hk : od_route_kind kw.id ≠ none) :
    ∃ r msg, od_configparse_route_loop (fuel + 1) config h = some (-1, r) ∧
      r.log = config.log ++
        [{ file := config.scheme.config_file, line := config.lex.eof_line,
           msg := msg }] := by
  cases hkid : kw.id <;> simp [od_route_kind, hkid] at hk <;>
    simp [od_configparse_route_loop, od_lexpop, htoks, hkid, od_confignext, od_confignext_yes_no,
      od_configerror, OD_LBRACE, ispunct]

set_option maxHeartbeats 1000000 in
theorem od_configparse_user_loop_pending (fuel : Nat) (config : od_config_t) (h : Nat)
    (kw : od_token_t) (htoks : config.lex.toks = [kw])
    (hk : od_user_kind kw.id ≠ none) :
    ∃ r msg, od_configparse_user_loop (fuel + 1) config h = some (-1, r) ∧
      r.log = config.log ++
        [{ file := config.scheme.config_file, line := config.lex.eof_line,
           msg := msg }] := by
  cases hkid : kw.id <;> simp [od_user_kind, hkid] at hk
  simp [od_configparse_user_loop, od_lexpop, htoks, hkid, od_confignext, od_confignext_yes_no,
    od_configerror, OD_LBRACE, ispunct]

set_option maxHeartbeats 1000000 in
theorem od_configparse_loop_pending (fuel : Nat) (config : od_config_t)
    (ts : List od_token_t) (htoks : config.lex.toks = ts)
    (hp : od_open_block.top.pending ts) (hmem : config.scheme.mem ≠ 0) :
    ∃ r msg, od_configparse_loop (fuel + 1) config = some (-1, r) ∧
      r.log = config.log ++
        [{ file := config.scheme.config_file, line := config.lex.eof_line,
           msg := msg }] := by
  rcases ts with _ | ⟨kw, _ | ⟨name, _ | ⟨x, ts⟩⟩⟩ <;>
    simp only [od_open_block.pending] at hp
  · cases hkid : kw.id <;> simp [od_global_kind, hkid] at hp <;>
      simp [od_configparse_loop, od_lexpop, htoks, hkid, od_confignext,
        od_confignext_yes_no, od_configparse_listen, od_configparse_server,
        od_schemeserver_add, od_configparse_routing, od_configparse_users,
        od_configerror, OD_LBRACE, ispunct, hmem]
  · obtain ⟨hk, hn⟩ := hp
    simp [od_configparse_loop, od_lexpop, htoks, hk, hn, od_confignext,
      od_configparse_server, od_schemeserver_add, od_configerror, OD_LBRACE,
      ispunct, hmem, od_scheme_t.server_set]

set_option maxHeartbeats 1000000 in
theorem od_configparse_routing_loop_pending (fuel : Nat) (config : od_config_t)
    (kw : od_token_t) (htoks : config.lex.toks = [kw])
    (hk : od_mode_kind kw.id ≠ none ∨ kw.id = OD_LSTRING ∨ kw.id = OD_LDEFAULT)
    (hmem : config.scheme.mem ≠ 0) :
    ∃ r msg, od_configparse_routing_loop (fuel + 1) config = some (-1, r) ∧
      r.log = config.log ++
        [{ file := config.scheme.config_file, line := config.lex.eof_line,
           msg := msg }] := by
  cases hkid : kw.id <;> simp [od_mode_kind, hkid] at hk <;>
    simp [od_configparse_routing_loop, od_lexpop, htoks, hkid, od_confignext,
      od_configparse_route, od_schemeroute_add, od_configerror, OD_LBRACE, ispunct,
      hmem, od_scheme_t.route_set]

set_option maxHeartbeats 1000000 in
theorem od_configparse_users_loop_pending (fuel : Nat) (config : od_config_t)
    (kw : od_token_t) (htoks : config.lex.toks = [kw])
    (hk : kw.id = OD_LSTRING) (hmem : config.scheme.mem ≠ 0) :
    ∃ r msg, od_configparse_users_loop (fuel + 1) config = some (-1, r) ∧
      r.log = config.log ++
        [{ file := config.scheme.config_file, line := config.lex.eof_line,
           msg := msg }] := by
  simp [od_configparse_users_loop, od_lexpop, htoks, hk, od_confignext,
    od_configparse_user, od_schemeuser_add, od_configerror, OD_LBRACE, ispunct,
    hmem, od_scheme_t.user_set]

theorem od_position_scheme_mem (s : od_scheme_t) (p : od_position) :
    (p.scheme s).mem = s.mem - p.need := by
  have h := od_items_foldl_mem od_stmt.denote od_stmt.need od_stmt_denote_mem p.stmts s
  unfold od_position.scheme od_position.need
  cases p.block with
  | top => simpa [od_open_block.scheme, od_open_block.need] using h
  | listen kw lbrace fields =>
    have h2 := od_foldl_preserve (fun s => s.mem) od_listen_assign
      (fun s f => by unfold od_listen_assign; split <;> rfl) fields
      (p.stmts.foldl od_stmt.denote s)
    simp only [od_open_block.scheme, od_open_block.need, Nat.add_zero]
    exact h2.trans h
  | server kw name lbrace fields =>
    simp only [od_open_block.scheme, od_open_block.need, h]; omega
  | routing kw lbrace items =>
    have h2 := od_items_foldl_mem od_routing_item.denote od_routing_item.need
      od_routing_item_denote_mem items (p.stmts.foldl od_stmt.denote s)
    simp only [od_open_block.scheme, od_open_block.need, h2, h]; omega
  | route kw lbrace items name lbrace2 fields =>
    have h2 := od_items_foldl_mem od_routing_item.denote od_routing_item.need
      od_routing_item_denote_mem items (p.stmts.foldl od_stmt.denote s)
    simp only [od_open_block.scheme, od_open_block.need, h2, h]; omega
  | users kw lbrace entries =>
    have h2 := od_items_foldl_mem od_user_denote (fun _ => 1) (fun _ _ => rfl)
      entries (p.stmts.foldl od_stmt.denote s)
    rw [od_items_need_one] at h2
    simp only [od_open_block.scheme, od_open_block.need, h2, h]; omega
  | user kw lbrace entries name lbrace2 fields =>
    have h2 := od_items_foldl_mem od_user_denote (fun _ => 1) (fun _ _ => rfl)
      entries (p.stmts.foldl od_stmt.denote s)
    rw [od_items_need_one] at h2
    simp only [od_open_block.scheme, od_open_block.need, h2, h]; omega

theorem od_position_pending (config : od_config_t) (p : od_position)
    (ts : List od_token_t)
    (hok : p.ok) (hmem : p.need + 1 ≤ config.scheme.mem)
    (htoks : config.lex.toks = p.tokens ++ ts)
    (hp : p.block.pending ts) :
    ∃ r msg, od_configparse config = some (-1, r) ∧
      r.log = config.log ++
        [{ file := config.scheme.config_file, line := config.lex.eof_line,
           msg := msg }] := by
  obtain ⟨fuel, hfuel, h⟩ := od_position_reach config p ts hok (by omega) htoks
  have hts : ts ≠ [] := by
    rintro rfl
    cases hb : p.block <;> rw [hb] at hp <;> simp [od_open_block.pending] at hp
  obtain ⟨k, rfl⟩ : ∃ k, fuel = k + 1 :=
    ⟨fuel - 1, by
      have : 0 < ts.length := List.length_pos.mpr hts
      omega⟩
  have ht : (p.config config).lex.toks = ts :=
    od_lexpops_toks_app _ _ _ _ htoks rfl
  have he : (p.config config).lex.eof_line = config.lex.eof_line :=
    od_lexpops_eof_line _ _
  have hf : (p.config config).scheme.config_file = config.scheme.config_file :=
    od_position_scheme_config_file _ _
  have hm : (p.config config).scheme.mem ≠ 0 := by
    show (p.scheme config.scheme).mem ≠ 0
    rw [od_position_scheme_mem]; omega
  have hl : (p.config config).log = config.log := rfl
  suffices hs : ∃ r msg, p.block.run (k + 1) (p.config config) = some (-1, r) ∧
      r.log = (p.config config).log ++
        [{ file := (p.config config).scheme.config_file,
           line := (p.config config).lex.eof_line, msg := msg }] by
    obtain ⟨r, msg, hr, hlog⟩ := hs
    exact ⟨r, msg, h r hr, by rw [hlog, he, hf, hl]⟩
  cases hb : p.block <;> rw [hb] at hp <;> simp only [od_open_block.run]
  · exact od_configparse_loop_pending k _ ts ht hp hm
  all_goals
    rcases ts with _ | ⟨kw, _ | ⟨x, ts⟩⟩ <;> simp only [od_open_block.pending] at hp
  · exact od_configparse_listen_loop_pending k _ kw ht hp
  · exact od_configparse_server_loop_pending k _ _ kw ht hp
  · exact od_configparse_routing_loop_pending k _ kw ht hp hm
  · exact od_configparse_route_loop_pending k _ _ kw ht hp
  · exact od_configparse_users_loop_pending k _ kw ht hp hm
  · exact od_configparse_user_loop_pending k _ _ kw ht hp

/-! ## The token helper: what `od_confignext` reports -/

theorem od_expected_text_length (id : od_tokenid) :
    (od_expected_text id).length < 256 := by
  cases id
  case OD_LPUNCT c =>
    simp only [od_expected_text]
    split_ifs
    · rw [String.length_append, String.length_append]
      have h1 : (String.singleton (Char.ofNat c)).length = 1 := rfl
      have h2 : "expected '".length = 10 := by decide
      have h3 : "'".length = 1 := by decide
      omega
    · show ("expected '" ++ "punctuation" ++ "'").length < 256
      decide
  all_goals decide

theorem od_msg256_expected (id : od_tokenid) :
    od_msg256 (od_expected_text id) = od_expected_text id := by
  unfold od_msg256
  rw [if_pos (od_expected_text_length id)]

theorem od_confignext_mismatch (config : od_config_t) (id : od_tokenid)
    (he : (od_lexpop config.lex).1.id ≠ OD_LERROR)
    (hne : (od_lexpop config.lex).1.id ≠ id) :
    od_confignext config id =
      (-1, some (od_lexpop config.lex).1,
       od_configerror { lex := (od_lexpop config.lex).2, log := config.log,
                        scheme := config.scheme }
         (some (od_lexpop config.lex).1) (od_expected_text id)) := by
  unfold od_confignext od_expected_text
  dsimp only
  rw [if_neg he, if_pos hne]
  cases id <;> try rfl
  case OD_LPUNCT c =>
    dsimp only
    split_ifs <;> rfl

theorem od_lexpop_popped (l : od_lex_t) : (od_lexpop l).2.popped = l.popped + 1 := by
  unfold od_lexpop; cases l.toks <;> rfl

theorem od_confignext_match (config : od_config_t) (id : od_tokenid)
    (hid : id ≠ OD_LERROR) (h : (od_lexpop config.lex).1.id = id) :
    od_confignext config id =
      (0, some (od_lexpop config.lex).1,
       { lex := (od_lexpop config.lex).2, log := config.log,
         scheme := config.scheme }) := by
  unfold od_confignext
  dsimp only
  rw [if_neg (by rw [h]; exact hid), if_neg (by simp [h])]

theorem od_confignext_lexerror (config : od_config_t) (id : od_tokenid)
    (h : (od_lexpop config.lex).1.id = OD_LERROR) :
    od_confignext config id =
      (-1, none,
       od_configerror { lex := (od_lexpop config.lex).2, log := config.log,
                        scheme := config.scheme }
         none (od_lexpop config.lex).2.error) := by
  unfold od_confignext
  dsimp only
  rw [if_pos h]

/-- C15: `od_confignext` called with an expected kind `id` (other than the
lexical-error kind, which no caller expects) pops exactly one token and
returns 0 if and only if the kind of that token equals `id`, without a
report; when the token is not a lexical error and its kind differs from `id`
it returns -1 and reports, at the line of the popped token, "expected" followed
by the quoted literal character when `id` is a punctuation character below
0xff (as for the opening brace) and by the quoted symbolic name of the kind
otherwise (as for STRING and NUMBER); in both cases the popped token is what
is stored through the token out-pointer. -/
theorem od_confignext_spec (config : od_config_t) (id : od_tokenid)
    (hid : id ≠ OD_LERROR) :
    (od_confignext config id).2.2.lex = (od_lexpop config.lex).2 ∧
    (od_confignext config id).2.2.lex.popped = config.lex.popped + 1 ∧
    ((od_confignext config id).1 = 0 ↔ (od_lexpop config.lex).1.id = id) ∧
    ((od_lexpop config.lex).1.id = id →
      (od_confignext config id).2.2.log = config.log) ∧
    ((od_lexpop config.lex).1.id ≠ OD_LERROR → (od_lexpop config.lex).1.id ≠ id →
      (od_confignext config id).1 = -1 ∧
      (od_confignext config id).2.2.log = config.log ++
        [{ file := config.scheme.config_file, line := (od_lexpop config.lex).1.line,
           msg := od_expected_text id }]) ∧
    ((od_lexpop config.lex).1.id ≠ OD_LERROR →
      (od_confignext config id).2.1 = some (od_lexpop config.lex).1) ∧
    od_expected_text OD_LBRACE = "expected '\x7b'" ∧
    od_expected_text OD_LSTRING = "expected '" ++ od_lexname_of OD_LSTRING ++ "'" ∧
    od_expected_text OD_LNUMBER = "expected '" ++ od_lexname_of OD_LNUMBER ++ "'" := by
  by_cases he : (od_lexpop config.lex).1.id = OD_LERROR
  · have h := od_confignext_lexerror config id he
    have hne : (od_lexpop config.lex).1.id ≠ id := by rw [he]; exact fun h => hid h.symm
    refine ⟨by rw [h]; rfl, by rw [h]; exact od_lexpop_popped _, ?_,
      fun h' => absurd h' hne, fun h' => absurd he h', fun h' => absurd he h',
      by decide, rfl, rfl⟩
    rw [h]
    exact ⟨fun h' => by simp at h', fun h' => absurd h' hne⟩
  · by_cases hm : (od_lexpop config.lex).1.id = id
    · have h := od_confignext_match config id hid hm
      refine ⟨by rw [h], by rw [h]; exact od_lexpop_popped _, ?_, fun _ => by rw [h],
        fun _ h' => absurd hm h', fun _ => by rw [h], by decide, rfl, rfl⟩
      rw [h]
      exact ⟨fun _ => hm, fun _ => rfl⟩
    · have h := od_confignext_mismatch config id he hm
      refine ⟨by rw [h]; rfl, by rw [h]; exact od_lexpop_popped _, ?_,
        fun h' => absurd h' hm, fun _ _ => ⟨by rw [h], ?_⟩, fun _ => by rw [h],
        by decide, rfl, rfl⟩
      · rw [h]
        exact ⟨fun h' => by simp at h', fun h' => absurd h' hm⟩
      · rw [h]
        simp [od_configerror, od_msg256_expected]

/-- C15, witness: a NUMBER token on line 3 where a STRING is expected. -/
theorem od_confignext_spec_witness :
    (od_confignext (od_config_on [od_tok_number 5 3] 4 0) OD_LSTRING).1 = -1 ∧
    (od_confignext (od_config_on [od_tok_number 5 3] 4 0) OD_LSTRING).2.2.log =
      [{ file := "odissey.conf", line := 3, msg := "expected 'string'" }] ∧
    (od_confignext (od_config_on [od_tok_number 5 3] 4 0) OD_LSTRING).2.1 =
      some (od_tok_number 5 3) :=
  ⟨((od_confignext_spec (od_config_on [od_tok_number 5 3] 4 0) OD_LSTRING
      (by decide)).2.2.2.2.1 (by decide) (by decide)).1,
   by decide, by decide⟩

/-! ## The head of the configuration -/

/-- C13: when the first token of the stream is not the root keyword, or the
second token is not the opening brace (end of input counts as a token),
`od_configparse` returns -1, has popped at most two tokens and leaves the
scheme, scalar fields and collections, as it was. -/
theorem od_configparse_bad_start (config : od_config_t)
    (h : (od_lexpop config.lex).1.id ≠ OD_LODISSEY ∨
         (od_lexpop (od_lexpops 1 config.lex)).1.id ≠ OD_LBRACE) :
    ∃ r, od_configparse config = some (-1, r) ∧
      r.scheme = config.scheme ∧
      r.lex.popped ≤ config.lex.popped + 2 ∧
      (r.lex = od_lexpops 1 config.lex ∨ r.lex = od_lexpops 2 config.lex) := by
  by_cases h1 : (od_lexpop config.lex).1.id = OD_LODISSEY
  · have h2 : (od_lexpop (od_lexpops 1 config.lex)).1.id ≠ OD_LBRACE := by
      rcases h with h | h
      · exact absurd h1 h
      · exact h
    have hm := od_confignext_match config OD_LODISSEY (by decide) h1
    have hf := od_confignext_fail
      { lex := (od_lexpop config.lex).2, log := config.log, scheme := config.scheme }
      OD_LBRACE h2
    refine ⟨_, ?_, hf.2.1, ?_, Or.inr hf.2.2⟩
    · unfold od_configparse od_configparse_fuel
      rw [hm]
      dsimp only
      rw [if_neg (by decide), if_pos hf.1]
    · rw [hf.2.2]
      have := od_lexpop_popped (od_lexpop config.lex).2
      have := od_lexpop_popped config.lex
      show (od_lexpop (od_lexpop config.lex).2).2.popped ≤ _
      omega
  · have hf := od_confignext_fail config OD_LODISSEY h1
    refine ⟨_, ?_, hf.2.1, ?_, Or.inl hf.2.2⟩
    · unfold od_configparse od_configparse_fuel
      dsimp only
      rw [if_pos hf.1]
    · rw [hf.2.2, od_lexpop_popped]
      omega

/-- C13, witness: a stream that starts with `listen`. -/
theorem od_configparse_bad_start_witness :
    ∃ r, od_configparse
        (od_config_on [od_tok OD_LLISTEN 1, od_tok OD_LBRACE 1] 2 3) = some (-1, r) ∧
      r.scheme = (od_config_on [od_tok OD_LLISTEN 1, od_tok OD_LBRACE 1] 2 3).scheme ∧
      r.lex.popped ≤
        (od_config_on [od_tok OD_LLISTEN 1, od_tok OD_LBRACE 1] 2 3).lex.popped + 2 ∧
      (r.lex = od_lexpops 1
          (od_config_on [od_tok OD_LLISTEN 1, od_tok OD_LBRACE 1] 2 3).lex ∨
       r.lex = od_lexpops 2
          (od_config_on [od_tok OD_LLISTEN 1, od_tok OD_LBRACE 1] 2 3).lex) :=
  od_configparse_bad_start (od_config_on [od_tok OD_LLISTEN 1, od_tok OD_LBRACE 1] 2 3)
    (Or.inl (by decide))

/-! ## Every run ends: invariants of the seven loops -/

theorem od_loop_inv {α : Type}
    (L : Nat → od_config_t → Option (Int × od_config_t))
    (tokens : α → List od_token_t) (denote : od_scheme_t → α → od_scheme_t)
    (ok : α → Prop) (need : α → Nat) (Q : od_scheme_t → od_scheme_t → Prop)
    (hmem : ∀ s x, (denote s x).mem = s.mem - need x)
    (hpos : ∀ x, ok x → 0 < (tokens x).length)
    (hcases : ∀ (fuel : Nat) (cfg : od_config_t), cfg.lex.toks.length < fuel + 1 →
      (∃ r k, L (fuel + 1) cfg = some (-1, r) ∧ r.lex = od_lexpops k cfg.lex ∧
        k ≤ cfg.lex.toks.length + 1 ∧ Q cfg.scheme r.scheme) ∨
      (∃ t rest, cfg.lex.toks = t :: rest ∧ t.id = OD_RBRACE ∧
        L (fuel + 1) cfg =
          some (0, { lex := od_lexpops 1 cfg.lex, log := cfg.log,
                     scheme := cfg.scheme })) ∨
      (∃ x rest, ok x ∧ need x ≤ cfg.scheme.mem ∧ cfg.lex.toks = tokens x ++ rest ∧
        L (fuel + 1) cfg =
          L fuel { lex := od_lexpops (tokens x).length cfg.lex, log := cfg.log,
                   scheme := denote cfg.scheme x })) :
    ∀ (fuel : Nat) (cfg : od_config_t), cfg.lex.toks.length < fuel →
      ∃ items rest0, (∀ x ∈ items, ok x) ∧
        od_items_need need items ≤ cfg.scheme.mem ∧
        cfg.lex.toks = od_items_tokens tokens items ++ rest0 ∧
        ((∃ r k, L fuel cfg = some (-1, r) ∧
            r.lex = od_lexpops ((od_items_tokens tokens items).length + k) cfg.lex ∧
            k ≤ rest0.length + 1 ∧ Q (items.foldl denote cfg.scheme) r.scheme) ∨
         (∃ rb rest, rest0 = rb :: rest ∧ rb.id = OD_RBRACE ∧
            L fuel cfg =
              some (0, { lex := od_lexpops ((od_items_tokens tokens items).length + 1)
                                  cfg.lex,
                         log := cfg.log,
                         scheme := items.foldl denote cfg.scheme }))) := by
  intro fuel
  induction fuel with
  | zero => intro cfg h; omega
  | succ fuel ih =>
    intro cfg hlen
    rcases hcases fuel cfg hlen with ⟨r, k, hr, hlex, hk, hq⟩ | ⟨t, rest, ht, hid, hr⟩ |
      ⟨x, rest, hx, hneed, ht, hr⟩
    · exact ⟨[], cfg.lex.toks, by simp, by simp [od_items_need], by simp [od_items_tokens],
        Or.inl ⟨r, k, hr, by simpa [od_items_tokens] using hlex, hk, hq⟩⟩
    · exact ⟨[], cfg.lex.toks, by simp, by simp [od_items_need], by simp [od_items_tokens],
        Or.inr ⟨t, rest, ht, hid, by simpa [od_items_tokens] using hr⟩⟩
    · have hp := hpos x hx
      have hl := congrArg List.length ht
      simp at hl
      have ht1 : (od_lexpops (tokens x).length cfg.lex).toks = rest :=
        od_lexpops_toks_app _ _ _ _ ht rfl
      obtain ⟨items, rest0, hok, hn, htk, hres⟩ := ih
        { lex := od_lexpops (tokens x).length cfg.lex, log := cfg.log,
          scheme := denote cfg.scheme x }
        (by show (od_lexpops (tokens x).length cfg.lex).toks.length < fuel
            rw [ht1]; omega)
      have htk' : rest = od_items_tokens tokens items ++ rest0 := by
        rw [← ht1]; exact htk
      refine ⟨x :: items, rest0, ?_, ?_, ?_, ?_⟩
      · intro y hy
        rcases List.mem_cons.mp hy with rfl | hy
        · exact hx
        · exact hok y hy
      · have : od_items_need need items ≤ (denote cfg.scheme x).mem := hn
        rw [hmem] at this
        simp only [od_items_need]; omega
      · rw [ht, htk']; simp [od_items_tokens]
      · rcases hres with ⟨r, k, hr', hlex, hk, hq⟩ | ⟨rb, rest', hrb, hid, hr'⟩
        · refine Or.inl ⟨r, k, by rw [hr]; exact hr', ?_, hk, hq⟩
          rw [hlex]
          show od_lexpops _ (od_lexpops (tokens x).length cfg.lex) = _
          rw [← od_lexpops_add]
          simp only [od_items_tokens, List.length_append, Nat.add_assoc]
        · refine Or.inr ⟨rb, rest', hrb, hid, ?_⟩
          rw [hr, hr']
          show some (0, ({ lex := od_lexpops _ (od_lexpops (tokens x).length cfg.lex),
                           log := cfg.log,
                           scheme := items.foldl denote (denote cfg.scheme x) } :
                  od_config_t)) = _
          rw [← od_lexpops_add]
          simp only [od_items_tokens, List.length_append, Nat.add_assoc, List.foldl_cons]

set_option maxHeartbeats 1000000 in
theorem od_configparse_listen_loop_reject (fuel : Nat) (config : od_config_t)
    (t : od_token_t) (rest : List od_token_t)
    (htoks : config.lex.toks = t :: rest)
    (hk : od_listen_kind t.id = none) (hr : t.id ≠ OD_RBRACE) :
    ∃ r, od_configparse_listen_loop (fuel + 1) config = some (-1, r) ∧
      r.lex = od_lexpops 1 config.lex ∧ r.scheme = config.scheme := by
  cases hkid : t.id <;> simp [od_listen_kind, hkid, OD_RBRACE] at hk hr <;>
    simp [od_configparse_listen_loop, od_lexpop, od_lexpops, htoks, hkid, hr,
      od_configerror]

set_option maxHeartbeats 1000000 in
theorem od_configparse_listen_loop_value (fuel : Nat) (config : od_config_t)
    (kw : od_token_t) (rest : List od_token_t)
    (htoks : config.lex.toks = kw :: rest)
    (hk : od_listen_kind kw.id ≠ none)
    (hbad : ¬ od_field.ok od_listen_kind
      { key := kw, value := (od_lexpop (od_lexpops 1 config.lex)).1 }) :
    ∃ r, od_configparse_listen_loop (fuel + 1) config = some (-1, r) ∧
      r.lex = od_lexpops 2 config.lex ∧ r.scheme = config.scheme := by
  rcases rest with _ | ⟨v, rest⟩
  · cases hkid : kw.id <;> simp [od_listen_kind, hkid] at hk <;>
      simp [od_configparse_listen_loop, od_lexpop, od_lexpops, htoks, hkid,
        od_confignext, od_confignext_yes_no, od_configerror, OD_LBRACE, ispunct]
  · simp only [od_lexpop, od_lexpops, htoks, od_field.ok] at hbad
    by_cases he : v.id = OD_LERROR <;>
      cases hkid : kw.id <;> simp [od_listen_kind, hkid] at hk hbad <;>
      simp [od_configparse_listen_loop, od_lexpop, od_lexpops, htoks, hkid,
        od_confignext, od_confignext_yes_no, od_configerror, hbad, he]

theorem od_field_ok_popped (kind : od_tokenid → Option od_valuekind) (l : od_lex_t)
    (kw : od_token_t) (rest : List od_token_t) (htoks : l.toks = kw :: rest)
    (hok : od_field.ok kind { key := kw, value := (od_lexpop (od_lexpops 1 l)).1 }) :
    ∃ v rest', rest = v :: rest' ∧ od_field.ok kind { key := kw, value := v } := by
  rcases rest with _ | ⟨v, rest⟩
  · exfalso
    simp only [od_lexpop, od_lexpops, htoks, od_field.ok] at hok
    split at hok <;> simp at hok
  · refine ⟨v, rest, rfl, ?_⟩
    simpa only [od_lexpop, od_lexpops, htoks] using hok

theorem od_field_ok_kind (kind : od_tokenid → Option od_valuekind) (f : od_field)
    (hok : f.ok kind) : kind f.key.id ≠ none := by
  intro h
  simp [od_field.ok, h] at hok

theorem od_field_loop_inv
    (L : Nat → od_config_t → Option (Int × od_config_t))
    (kind : od_tokenid → Option od_valuekind)
    (denote : od_scheme_t → od_field → od_scheme_t)
    (hmem : ∀ s f, (denote s f).mem = s.mem)
    (h_eof : ∀ (fuel : Nat) (cfg : od_config_t), cfg.lex.toks = [] →
      ∃ r, L (fuel + 1) cfg = some (-1, r) ∧ r.lex = od_lexpops 1 cfg.lex ∧
        r.scheme = cfg.scheme)
    (h_reject : ∀ (fuel : Nat) (cfg : od_config_t) (t : od_token_t)
      (rest : List od_token_t), cfg.lex.toks = t :: rest → kind t.id = none →
      t.id ≠ OD_RBRACE →
      ∃ r, L (fuel + 1) cfg = some (-1, r) ∧ r.lex = od_lexpops 1 cfg.lex ∧
        r.scheme = cfg.scheme)
    (h_value : ∀ (fuel : Nat) (cfg : od_config_t) (kw : od_token_t)
      (rest : List od_token_t), cfg.lex.toks = kw :: rest → kind kw.id ≠ none →
      ¬ od_field.ok kind { key := kw, value := (od_lexpop (od_lexpops 1 cfg.lex)).1 } →
      ∃ r, L (fuel + 1) cfg = some (-1, r) ∧ r.lex = od_lexpops 2 cfg.lex ∧
        r.scheme = cfg.scheme)
    (h_close : ∀ (fuel : Nat) (cfg : od_config_t) (t : od_token_t)
      (rest : List od_token_t), cfg.lex.toks = t :: rest → t.id = OD_RBRACE →
      L (fuel + 1) cfg =
        some (0, { lex := od_lexpops 1 cfg.lex, log := cfg.log, scheme := cfg.scheme }))
    (h_step : ∀ (fuel : Nat) (cfg : od_config_t) (f : od_field)
      (rest : List od_token_t), f.ok kind → cfg.lex.toks = f.key :: f.value :: rest →
      L (fuel + 1) cfg =
        L fuel { lex := od_lexpops 2 cfg.lex, log := cfg.log,
                 scheme := denote cfg.scheme f }) :
    ∀ (fuel : Nat) (cfg : od_config_t), cfg.lex.toks.length < fuel →
      ∃ fields rest0, (∀ f ∈ fields, f.ok kind) ∧
        cfg.lex.toks = od_items_tokens od_field.tokens fields ++ rest0 ∧
        ((∃ r k, L fuel cfg = some (-1, r) ∧
            r.lex = od_lexpops ((od_items_tokens od_field.tokens fields).length + k)
              cfg.lex ∧
            k ≤ rest0.length + 1 ∧ r.scheme = fields.foldl denote cfg.scheme) ∨
         (∃ rb rest, rest0 = rb :: rest ∧ rb.id = OD_RBRACE ∧
            L fuel cfg =
              some (0, { lex := od_lexpops
                           ((od_items_tokens od_field.tokens fields).length + 1) cfg.lex,
                         log := cfg.log,
                         scheme := fields.foldl denote cfg.scheme }))) := by
  intro fuel cfg hlen
  have key := od_loop_inv L od_field.tokens denote (fun f => f.ok kind) (fun _ => 0)
    (fun s s' => s' = s) (fun s f => by simp [hmem])
    (fun f _ => by simp [od_field.tokens])
    (by
      intro fuel cfg _
      rcases htoks : cfg.lex.toks with _ | ⟨t, rest⟩
      · obtain ⟨r, hr, hl, hs⟩ := h_eof fuel cfg htoks
        exact Or.inl ⟨r, 1, hr, hl, by simp, hs⟩
      · by_cases hk : kind t.id = none
        · by_cases hrb : t.id = OD_RBRACE
          · exact Or.inr (Or.inl ⟨t, rest, rfl, hrb, h_close fuel cfg t rest htoks hrb⟩)
          · obtain ⟨r, hr, hl, hs⟩ := h_reject fuel cfg t rest htoks hk hrb
            exact Or.inl ⟨r, 1, hr, hl, by simp, hs⟩
        · by_cases hv : od_field.ok kind
              { key := t, value := (od_lexpop (od_lexpops 1 cfg.lex)).1 }
          · obtain ⟨v, rest', rfl, hok⟩ :=
              od_field_ok_popped kind cfg.lex t rest htoks hv
            refine Or.inr (Or.inr ⟨{ key := t, value := v }, rest', hok, Nat.zero_le _,
              by simp [od_field.tokens], ?_⟩)
            exact h_step fuel cfg { key := t, value := v } rest' hok htoks
          · obtain ⟨r, hr, hl, hs⟩ := h_value fuel cfg t rest htoks hk hv
            exact Or.inl ⟨r, 2, hr, hl, by simp, hs⟩)
  obtain ⟨fields, rest0, hok, _, htk, hres⟩ := key fuel cfg hlen
  exact ⟨fields, rest0, hok, htk, hres⟩

set_option maxHeartbeats 1000000 in
theorem od_configparse_server_loop_reject (fuel : Nat) (config : od_config_t) (h : Nat)
    (t : od_token_t) (rest : List od_token_t)
    (htoks : config.lex.toks = t :: rest)
    (hk : od_server_kind t.id = none)
    (hr : t.id ≠ OD_RBRACE) :
    ∃ r, od_configparse_server_loop (fuel + 1) config h = some (-1, r) ∧
      r.lex = od_lexpops 1 config.lex ∧ r.scheme = config.scheme := by
  cases hkid : t.id <;> simp [od_server_kind, hkid, OD_RBRACE] at hk hr <;>
    simp [od_configparse_server_loop, od_lexpop, od_lexpops, htoks, hkid, hr,
      od_configerror]

set_option maxHeartbeats 1000000 in
theorem od_configparse_server_loop_value (fuel : Nat) (config : od_config_t) (h : Nat)
    (kw : od_token_t) (rest : List od_token_t)
    (htoks : config.lex.toks = kw :: rest)
    (hk : od_server_kind kw.id ≠ none)
    (hbad : ¬ od_field.ok od_server_kind
      { key := kw, value := (od_lexpop (od_lexpops 1 config.lex)).1 }) :
    ∃ r, od_configparse_server_loop (fuel + 1) config h = some (-1, r) ∧
      r.lex = od_lexpops 2 config.lex ∧ r.scheme = config.scheme := by
  rcases rest with _ | ⟨v, rest⟩
  · cases hkid : kw.id <;> simp [od_server_kind, hkid] at hk <;>
      simp [od_configparse_server_loop, od_lexpop, od_lexpops, htoks, hkid,
        od_confignext, od_confignext_yes_no, od_configerror, OD_LBRACE, ispunct]
  · simp only [od_lexpop, od_lexpops, htoks, od_field.ok] at hbad
    by_cases he : v.id = OD_LERROR <;>
      cases hkid : kw.id <;> simp [od_server_kind, hkid] at hk hbad <;>
      simp [od_configparse_server_loop, od_lexpop, od_lexpops, htoks, hkid,
        od_confignext, od_confignext_yes_no, od_configerror, hbad, he]

set_option maxHeartbeats 1000000 in
theorem od_configparse_route_loop_reject (fuel : Nat) (config : od_config_t) (h : Nat)
    (t : od_token_t) (rest : List od_token_t)
    (htoks : config.lex.toks = t :: rest)
    (hk : od_route_kind t.id = none)
    (hr : t.id ≠ OD_RBRACE) :
    ∃ r, od_configparse_route_loop (fuel + 1) config h = some (-1, r) ∧
      r.lex = od_lexpops 1 config.lex ∧ r.scheme = config.scheme := by
  cases hkid : t.id <;> simp [od_route_kind, hkid, OD_RBRACE] at hk hr <;>
    simp [od_configparse_route_loop, od_lexpop, od_lexpops, htoks, hkid, hr,
      od_configerror]

set_option maxHeartbeats 1000000 in
theorem od_configparse_route_loop_value (fuel : Nat) (config : od_config_t) (h : Nat)
    (kw : od_token_t) (rest : List od_token_t)
    (htoks : config.lex.toks = kw :: rest)
    (hk : od_route_kind kw.id ≠ none)
    (hbad : ¬ od_field.ok od_route_kind
      { key := kw, value := (od_lexpop (od_lexpops 1 config.lex)).1 }) :
    ∃ r, od_configparse_route_loop (fuel + 1) config h = some (-1, r) ∧
      r.lex = od_lexpops 2 config.lex ∧ r.scheme = config.scheme := by
  rcases rest with _ | ⟨v, rest⟩
  · cases hkid : kw.id <;> simp [od_route_kind, hkid] at hk <;>
      simp [od_configparse_route_loop, od_lexpop, od_lexpops, htoks, hkid,
        od_confignext, od_confignext_yes_no, od_configerror, OD_LBRACE, ispunct]
  · simp only [od_lexpop, od_lexpops, htoks, od_field.ok] at hbad
    by_cases he : v.id = OD_LERROR <;>
      cases hkid : kw.id <;> simp [od_route_kind, hkid] at hk hbad <;>
      simp [od_configparse_route_loop, od_lexpop, od_lexpops, htoks, hkid,
        od_confignext, od_confignext_yes_no, od_configerror, hbad, he]

set_option maxHeartbeats 1000000 in
theorem od_configparse_user_loop_reject (fuel : Nat) (config : od_config_t) (h : Nat)
    (t : od_token_t) (rest : List od_token_t)
    (htoks : config.lex.toks = t :: rest)
    (hk : od_user_kind t.id = none)
    (hr : t.id ≠ OD_RBRACE) :
    ∃ r, od_configparse_user_loop (fuel + 1) config h = some (-1, r) ∧
      r.lex = od_lexpops 1 config.lex ∧ r.scheme = config.scheme := by
  cases hkid : t.id <;> simp [od_user_kind, hkid, OD_RBRACE] at hk hr <;>
    simp [od_configparse_user_loop, od_lexpop, od_lexpops, htoks, hkid, hr,
      od_configerror]

set_option maxHeartbeats 1000000 in
theorem od_configparse_user_loop_value (fuel : Nat) (config : od_config_t) (h : Nat)
    (kw : od_token_t) (rest : List od_token_t)
    (htoks : config.lex.toks = kw :: rest)
    (hk : od_user_kind kw.id ≠ none)
    (hbad : ¬ od_field.ok od_user_kind
      { key := kw, value := (od_lexpop (od_lexpops 1 config.lex)).1 }) :
    ∃ r, od_configparse_user_loop (fuel + 1) config h = some (-1, r) ∧
      r.lex = od_lexpops 2 config.lex ∧ r.scheme = config.scheme := by
  rcases rest with _ | ⟨v, rest⟩
  · cases hkid : kw.id <;> simp [od_user_kind, hkid] at hk
    simp [od_configparse_user_loop, od_lexpop, od_lexpops, htoks, hkid,
      od_confignext, od_confignext_yes_no, od_configerror, OD_LBRACE, ispunct]
  · simp only [od_lexpop, od_lexpops, htoks, od_field.ok] at hbad
    by_cases he : v.id = OD_LERROR <;>
      cases hkid : kw.id <;> simp [od_user_kind, hkid] at hk hbad <;>
      simp [od_configparse_user_loop, od_lexpop, od_lexpops, htoks, hkid,
        od_confignext, od_confignext_yes_no, od_configerror, hbad, he]

set_option maxHeartbeats 1000000 in
theorem od_configparse_loop_reject (fuel : Nat) (config : od_config_t)
    (t : od_token_t) (rest : List od_token_t)
    (htoks : config.lex.toks = t :: rest)
    (hk : od_global_kind t.id = none)
    (hr : t.id ≠ OD_RBRACE)
    (h1 : t.id ≠ OD_LLISTEN)
    (h2 : t.id ≠ OD_LSERVER)
    (h3 : t.id ≠ OD_LROUTING)
    (h4 : t.id ≠ OD_LUSERS) :
    ∃ r, od_configparse_loop (fuel + 1) config = some (-1, r) ∧
      r.lex = od_lexpops 1 config.lex ∧ r.scheme = config.scheme := by
  cases hkid : t.id <;> simp [od_global_kind, hkid, OD_RBRACE] at hk hr h1 h2 h3 h4 <;>
    simp [od_configparse_loop, od_lexpop, od_lexpops, htoks, hkid, hr, h1, h2, h3, h4,
      od_configerror]

set_option maxHeartbeats 1000000 in
theorem od_configparse_loop_value (fuel : Nat) (config : od_config_t)
    (kw : od_token_t) (rest : List od_token_t)
    (htoks : config.lex.toks = kw :: rest)
    (hk : od_global_kind kw.id ≠ none)
    (hbad : ¬ od_field.ok od_global_kind
      { key := kw, value := (od_lexpop (od_lexpops 1 config.lex)).1 }) :
    ∃ r, od_configparse_loop (fuel + 1) config = some (-1, r) ∧
      r.lex = od_lexpops 2 config.lex ∧ r.scheme = config.scheme := by
  rcases rest with _ | ⟨v, rest⟩
  · cases hkid : kw.id <;> simp [od_global_kind, hkid] at hk <;>
      simp [od_configparse_loop, od_lexpop, od_lexpops, htoks, hkid,
        od_confignext, od_confignext_yes_no, od_configerror, OD_LBRACE, ispunct]
  · simp only [od_lexpop, od_lexpops, htoks, od_field.ok] at hbad
    by_cases he : v.id = OD_LERROR <;>
      cases hkid : kw.id <;> simp [od_global_kind, hkid] at hk hbad <;>
      simp [od_configparse_loop, od_lexpop, od_lexpops, htoks, hkid,
        od_confignext, od_confignext_yes_no, od_configerror, hbad, he]

set_option maxHeartbeats 1000000 in
theorem od_configparse_routing_loop_reject (fuel : Nat) (config : od_config_t)
    (t : od_token_t) (rest : List od_token_t)
    (htoks : config.lex.toks = t :: rest)
    (hk : od_mode_kind t.id = none)
    (hr : t.id ≠ OD_RBRACE)
    (h1 : t.id ≠ OD_LSTRING)
    (h2 : t.id ≠ OD_LDEFAULT) :
    ∃ r, od_configparse_routing_loop (fuel + 1) config = some (-1, r) ∧
      r.lex = od_lexpops 1 config.lex ∧ r.scheme = config.scheme := by
  cases hkid : t.id <;> simp [od_mode_kind, hkid, OD_RBRACE] at hk hr h1 h2 <;>
    simp [od_configparse_routing_loop, od_lexpop, od_lexpops, htoks, hkid, hr, h1, h2,
      od_configerror]

set_option maxHeartbeats 1000000 in
theorem od_configparse_routing_loop_value (fuel : Nat) (config : od_config_t)
    (kw : od_token_t) (rest : List od_token_t)
    (htoks : config.lex.toks = kw :: rest)
    (hk : od_mode_kind kw.id ≠ none)
    (hbad : ¬ od_field.ok od_mode_kind
      { key := kw, value := (od_lexpop (od_lexpops 1 config.lex)).1 }) :
    ∃ r, od_configparse_routing_loop (fuel + 1) config = some (-1, r) ∧
      r.lex = od_lexpops 2 config.lex ∧ r.scheme = config.scheme := by
  rcases rest with _ | ⟨v, rest⟩
  · cases hkid : kw.id <;> simp [od_mode_kind, hkid] at hk
    simp [od_configparse_routing_loop, od_lexpop, od_lexpops, htoks, hkid,
      od_confignext, od_confignext_yes_no, od_configerror, OD_LBRACE, ispunct]
  · simp only [od_lexpop, od_lexpops, htoks, od_field.ok] at hbad
    by_cases he : v.id = OD_LERROR <;>
      cases hkid : kw.id <;> simp [od_mode_kind, hkid] at hk hbad <;>
      simp [od_configparse_routing_loop, od_lexpop, od_lexpops, htoks, hkid,
        od_confignext, od_confignext_yes_no, od_configerror, hbad, he]

set_option maxHeartbeats 1000000 in
theorem od_configparse_users_loop_reject (fuel : Nat) (config : od_config_t)
    (t : od_token_t) (rest : List od_token_t)
    (htoks : config.lex.toks = t :: rest)
    (hr : t.id ≠ OD_RBRACE)
    (h1 : t.id ≠ OD_LSTRING) :
    ∃ r, od_configparse_users_loop (fuel + 1) config = some (-1, r) ∧
      r.lex = od_lexpops 1 config.lex ∧ r.scheme = config.scheme := by
  cases hkid : t.id <;> simp [hkid, OD_RBRACE] at hr h1 <;>
    simp [od_configparse_users_loop, od_lexpop, od_lexpops, htoks, hkid, hr, h1,
      od_configerror]

theorem od_listen_assign_mem (s : od_scheme_t) (f : od_field) :
    (od_listen_assign s f).mem = s.mem := by
  unfold od_listen_assign; split <;> rfl

theorem od_listen_loop_inv (fuel : Nat) (cfg : od_config_t)
    (hlen : cfg.lex.toks.length < fuel) :
    ∃ fields rest0, (∀ f ∈ fields, f.ok od_listen_kind) ∧
      cfg.lex.toks = od_items_tokens od_field.tokens fields ++ rest0 ∧
      ((∃ r k, od_configparse_listen_loop fuel cfg = some (-1, r) ∧
          r.lex = od_lexpops ((od_items_tokens od_field.tokens fields).length + k)
            cfg.lex ∧
          k ≤ rest0.length + 1 ∧
          r.scheme = fields.foldl od_listen_assign cfg.scheme) ∨
       (∃ rb rest, rest0 = rb :: rest ∧ rb.id = OD_RBRACE ∧
          od_configparse_listen_loop fuel cfg =
            some (0, { lex := od_lexpops
                         ((od_items_tokens od_field.tokens fields).length + 1) cfg.lex,
                       log := cfg.log,
                       scheme := fields.foldl od_listen_assign cfg.scheme }))) :=
  od_field_loop_inv od_configparse_listen_loop od_listen_kind od_listen_assign
    od_listen_assign_mem
    (fun fuel cfg h => ⟨_, od_configparse_listen_loop_eof fuel cfg h, rfl, rfl⟩)
    (fun fuel cfg t rest h hk hr =>
      od_configparse_listen_loop_reject fuel cfg t rest h hk hr)
    (fun fuel cfg kw rest h hk hb =>
      od_configparse_listen_loop_value fuel cfg kw rest h hk hb)
    (fun fuel cfg t rest h hid => od_listen_loop_close fuel cfg t rest h hid)
    (fun fuel cfg f rest hok h => od_listen_loop_step fuel cfg f rest hok h)
    fuel cfg hlen

theorem od_server_loop_inv (fuel : Nat) (cfg : od_config_t) (server : Nat)
    (hlen : cfg.lex.toks.length < fuel) :
    ∃ fields rest0, (∀ f ∈ fields, f.ok od_server_kind) ∧
      cfg.lex.toks = od_items_tokens od_field.tokens fields ++ rest0 ∧
      ((∃ r k, od_configparse_server_loop fuel cfg server = some (-1, r) ∧
          r.lex = od_lexpops ((od_items_tokens od_field.tokens fields).length + k)
            cfg.lex ∧
          k ≤ rest0.length + 1 ∧
          r.scheme = fields.foldl
            (fun s f => s.server_set server (fun e => od_server_assign e f))
            cfg.scheme) ∨
       (∃ rb rest, rest0 = rb :: rest ∧ rb.id = OD_RBRACE ∧
          od_configparse_server_loop fuel cfg server =
            some (0, { lex := od_lexpops
                         ((od_items_tokens od_field.tokens fields).length + 1) cfg.lex,
                       log := cfg.log,
                       scheme := fields.foldl
                         (fun s f => s.server_set server (fun e => od_server_assign e f))
                         cfg.scheme }))) :=
  od_field_loop_inv (fun n c => od_configparse_server_loop n c server) od_server_kind
    (fun s f => s.server_set server (fun e => od_server_assign e f))
    (fun _ _ => rfl)
    (fun fuel cfg h => ⟨_, od_configparse_server_loop_eof fuel cfg server h, rfl, rfl⟩)
    (fun fuel cfg t rest h hk hr =>
      od_configparse_server_loop_reject fuel cfg server t rest h hk hr)
    (fun fuel cfg kw rest h hk hb =>
      od_configparse_server_loop_value fuel cfg server kw rest h hk hb)
    (fun fuel cfg t rest h hid => od_server_loop_close fuel cfg server t rest h hid)
    (fun fuel cfg f rest hok h => od_server_loop_step fuel cfg server f rest hok h)
    fuel cfg hlen

theorem od_route_loop_inv (fuel : Nat) (cfg : od_config_t) (route : Nat)
    (hlen : cfg.lex.toks.length < fuel) :
    ∃ fields rest0, (∀ f ∈ fields, f.ok od_route_kind) ∧
      cfg.lex.toks = od_items_tokens od_field.tokens fields ++ rest0 ∧
      ((∃ r k, od_configparse_route_loop fuel cfg route = some (-1, r) ∧
          r.lex = od_lexpops ((od_items_tokens od_field.tokens fields).length + k)
            cfg.lex ∧
          k ≤ rest0.length + 1 ∧
          r.scheme = fields.foldl
            (fun s f => s.route_set route (fun e => od_route_assign e f))
            cfg.scheme) ∨
       (∃ rb rest, rest0 = rb :: rest ∧ rb.id = OD_RBRACE ∧
          od_configparse_route_loop fuel cfg route =
            some (0, { lex := od_lexpops
                         ((od_items_tokens od_field.tokens fields).length + 1) cfg.lex,
                       log := cfg.log,
                       scheme := fields.foldl
                         (fun s f => s.route_set route (fun e => od_route_assign e f))
                         cfg.scheme }))) :=
  od_field_loop_inv (fun n c => od_configparse_route_loop n c route) od_route_kind
    (fun s f => s.route_set route (fun e => od_route_assign e f))
    (fun _ _ => rfl)
    (fun fuel cfg h => ⟨_, od_configparse_route_loop_eof fuel cfg route h, rfl, rfl⟩)
    (fun fuel cfg t rest h hk hr =>
      od_configparse_route_loop_reject fuel cfg route t rest h hk hr)
    (fun fuel cfg kw rest h hk hb =>
      od_configparse_route_loop_value fuel cfg route kw rest h hk hb)
    (fun fuel cfg t rest h hid => od_route_loop_close fuel cfg route t rest h hid)
    (fun fuel cfg f rest hok h => od_route_loop_step fuel cfg route f rest hok h)
    fuel cfg hlen

theorem od_user_loop_inv (fuel : Nat) (cfg : od_config_t) (user : Nat)
    (hlen : cfg.lex.toks.length < fuel) :
    ∃ fields rest0, (∀ f ∈ fields, f.ok od_user_kind) ∧
      cfg.lex.toks = od_items_tokens od_field.tokens fields ++ rest0 ∧
      ((∃ r k, od_configparse_user_loop fuel cfg user = some (-1, r) ∧
          r.lex = od_lexpops ((od_items_tokens od_field.tokens fields).length + k)
            cfg.lex ∧
          k ≤ rest0.length + 1 ∧
          r.scheme = fields.foldl
            (fun s f => s.user_set user (fun e => od_user_assign e f))
            cfg.scheme) ∨
       (∃ rb rest, rest0 = rb :: rest ∧ rb.id = OD_RBRACE ∧
          od_configparse_user_loop fuel cfg user =
            some (0, { lex := od_lexpops
                         ((od_items_tokens od_field.tokens fields).length + 1) cfg.lex,
                       log := cfg.log,
                       scheme := fields.foldl
                         (fun s f => s.user_set user (fun e => od_user_assign e f))
                         cfg.scheme }))) :=
  od_field_loop_inv (fun n c => od_configparse_user_loop n c user) od_user_kind
    (fun s f => s.user_set user (fun e => od_user_assign e f))
    (fun _ _ => rfl)
    (fun fuel cfg h => ⟨_, od_configparse_user_loop_eof fuel cfg user h, rfl, rfl⟩)
    (fun fuel cfg t rest h hk hr =>
      od_configparse_user_loop_reject fuel cfg user t rest h hk hr)
    (fun fuel cfg kw rest h hk hb =>
      od_configparse_user_loop_value fuel cfg user kw rest h hk hb)
    (fun fuel cfg t rest h hid => od_user_loop_close fuel cfg user t rest h hid)
    (fun fuel cfg f rest hok h => od_user_loop_step fuel cfg user f rest hok h)
    fuel cfg hlen

theorem od_confignext_cases (config : od_config_t) (id : od_tokenid)
    (hid : id ≠ OD_LERROR) (heof : id ≠ OD_LEOF) :
    ((od_confignext config id).1 = -1 ∧
      (od_confignext config id).2.2.scheme = config.scheme ∧
      (od_confignext config id).2.2.lex = od_lexpops 1 config.lex) ∨
    (∃ t rest, config.lex.toks = t :: rest ∧ t.id = id ∧
      od_confignext config id =
        (0, some t, { lex := od_lexpops 1 config.lex, log := config.log,
                      scheme := config.scheme })) := by
  by_cases h : (od_lexpop config.lex).1.id = id
  · right
    cases ht : config.lex.toks with
    | nil =>
      simp [od_lexpop, ht] at h
      exact absurd h.symm heof
    | cons t rest =>
      have hid2 : t.id = id := by simpa [od_lexpop, ht] using h
      exact ⟨t, rest, rfl, hid2, od_confignext_ok config id t rest ht hid2 hid⟩
  · left
    exact od_confignext_fail config id h

theorem od_listen_inv (fuel : Nat) (cfg : od_config_t)
    (hfuel : cfg.lex.toks.length < fuel + 1) :
    (∃ r k, od_configparse_listen fuel cfg = some (-1, r) ∧
        r.lex = od_lexpops k cfg.lex ∧ k ≤ cfg.lex.toks.length + 1 ∧
        ∃ fields : List od_field, r.scheme = fields.foldl od_listen_assign cfg.scheme) ∨
    (∃ lb fields rb rest, lb.id = OD_LBRACE ∧ rb.id = OD_RBRACE ∧
        (∀ f ∈ fields, f.ok od_listen_kind) ∧
        cfg.lex.toks =
          lb :: (od_items_tokens od_field.tokens fields ++ [rb]) ++ rest) := by
  rcases od_confignext_cases cfg OD_LBRACE (by simp [OD_LBRACE]) (by simp [OD_LBRACE])
    with ⟨h1, h2, h3⟩ | ⟨lb, rest1, ht, hl, hc⟩
  · left
    refine ⟨(od_confignext cfg OD_LBRACE).2.2, 1, ?_, h3, by omega, [], h2⟩
    unfold od_configparse_listen
    dsimp only
    rw [if_pos h1]
  · have hopen : od_configparse_listen fuel cfg =
        od_configparse_listen_loop fuel
          { lex := od_lexpops 1 cfg.lex, log := cfg.log, scheme := cfg.scheme } := by
      unfold od_configparse_listen
      rw [hc]
      dsimp only
      rw [if_neg (by decide)]
    have ht1 : (od_lexpops 1 cfg.lex).toks = rest1 :=
      od_lexpops_toks_app _ [lb] _ 1 ht rfl
    have hlen := congrArg List.length ht
    simp at hlen
    obtain ⟨fields, rest0, hok, htk, hres⟩ := od_listen_loop_inv fuel
      { lex := od_lexpops 1 cfg.lex, log := cfg.log, scheme := cfg.scheme }
      (by show (od_lexpops 1 cfg.lex).toks.length < fuel
          rw [ht1]; omega)
    have htk1 : rest1 = od_items_tokens od_field.tokens fields ++ rest0 := by
      rw [← ht1]; exact htk
    have hlen1 := congrArg List.length htk1
    simp at hlen1
    rcases hres with ⟨r, k, hr, hlex, hk, hs⟩ | ⟨rb, rest, hr0, hrb, _⟩
    · left
      refine ⟨r, 1 + ((od_items_tokens od_field.tokens fields).length + k), ?_, ?_, ?_,
        fields, hs⟩
      · rw [hopen, hr]
      · rw [hlex]; simp only [od_lexpops_add]
      · omega
    · right
      refine ⟨lb, fields, rb, rest, hl, hrb, hok, ?_⟩
      rw [ht, htk1, hr0]
      simp

theorem od_server_inv (fuel : Nat) (cfg : od_config_t)
    (hfuel : cfg.lex.toks.length < fuel + 1) :
    (∃ r k, od_configparse_server fuel cfg = some (-1, r) ∧
        r.lex = od_lexpops k cfg.lex ∧ k ≤ cfg.lex.toks.length + 1 ∧
        ∃ new, new.length ≤ 1 ∧
          r.scheme = { cfg.scheme with
            servers := cfg.scheme.servers ++ new,
            mem := cfg.scheme.mem - new.length }) ∨
    (∃ (e : od_entry) (rest : List od_token_t), e.name.id = OD_LSTRING ∧ e.ok od_server_kind ∧ 0 < cfg.scheme.mem ∧
        cfg.lex.toks = e.tokens ++ rest) := by
  by_cases hmem : cfg.scheme.mem = 0
  · left
    refine ⟨cfg, 0, ?_, rfl, by omega, [], by simp, by simp⟩
    unfold od_configparse_server od_schemeserver_add
    rw [if_pos hmem]
  have hadd : od_schemeserver_add cfg.scheme =
      some ({ cfg.scheme with servers := cfg.scheme.servers ++ [{}],
                              mem := cfg.scheme.mem - 1 }, cfg.scheme.servers.length) := by
    unfold od_schemeserver_add
    rw [if_neg hmem]
  rcases od_confignext_cases
      { cfg with scheme := { cfg.scheme with servers := cfg.scheme.servers ++ [{}],
                                             mem := cfg.scheme.mem - 1 } }
      OD_LSTRING (by simp) (by simp)
    with ⟨h1, h2, h3⟩ | ⟨name, rest1, ht, hn, hc⟩
  · left
    refine ⟨_, 1, ?_, h3, by omega, [{}], by simp, h2⟩
    unfold od_configparse_server
    rw [hadd]
    dsimp only
    rw [if_pos h1]
  have ht : cfg.lex.toks = name :: rest1 := ht
  have hlen := congrArg List.length ht
  simp at hlen
  rcases od_confignext_cases
      { lex := od_lexpops 1 cfg.lex, log := cfg.log,
        scheme := od_scheme_t.server_set
          { cfg.scheme with servers := cfg.scheme.servers ++ [{}],
                            mem := cfg.scheme.mem - 1 }
          cfg.scheme.servers.length (fun s => { s with name := some name.string }) }
      OD_LBRACE (by simp [OD_LBRACE]) (by simp [OD_LBRACE])
    with ⟨h1, h2, h3⟩ | ⟨lb, rest2, ht2, hl, hc2⟩
  · left
    refine ⟨_, 2, ?_, h3, by omega, [{ name := some name.string }], by simp, ?_⟩
    · unfold od_configparse_server
      rw [hadd]
      dsimp only
      rw [hc]
      dsimp only [Option.getD]
      rw [if_neg (by decide)]
      rw [if_pos h1]
    · rw [h2]
      simp [od_scheme_t.server_set, od_entry_update_last]
  have ht2 : (od_lexpops 1 cfg.lex).toks = lb :: rest2 := ht2
  have ht1 : (od_lexpops 1 cfg.lex).toks = rest1 :=
    od_lexpops_toks_app _ [name] _ 1 ht rfl
  have hr1 : rest1 = lb :: rest2 := by rw [← ht1]; exact ht2
  subst hr1
  simp at hlen
  have hopen := od_server_open fuel cfg name lb [] rest2 hn hl (by simp) (by omega)
    (by simpa [od_items_tokens] using ht) hfuel
  simp only [od_items_tokens, List.length_nil, List.foldl_nil, Nat.sub_zero,
    Nat.add_zero] at hopen
  have ht3 : (od_lexpops 2 cfg.lex).toks = rest2 :=
    od_lexpops_toks_app _ [name, lb] _ 2 ht rfl
  obtain ⟨fields, rest0, hok, htk, hres⟩ := od_server_loop_inv fuel
    { lex := od_lexpops 2 cfg.lex, log := cfg.log,
      scheme := { cfg.scheme with
        servers := cfg.scheme.servers ++ [{ name := some name.string }],
        mem := cfg.scheme.mem - 1 } }
    cfg.scheme.servers.length
    (by show (od_lexpops 2 cfg.lex).toks.length < fuel
        rw [ht3]; omega)
  have htk1 : rest2 = od_items_tokens od_field.tokens fields ++ rest0 := by
    rw [← ht3]; exact htk
  have hlen1 := congrArg List.length htk1
  simp at hlen1
  rcases hres with ⟨r, k, hr, hlex, hk, hs⟩ | ⟨rb, rest, hr0, hrb, _⟩
  · left
    refine ⟨r, 2 + ((od_items_tokens od_field.tokens fields).length + k), ?_, ?_, ?_,
      [fields.foldl od_server_assign { name := some name.string }], by simp, ?_⟩
    · rw [hopen, hr]
    · rw [hlex]; simp only [od_lexpops_add]
    · omega
    · rw [hs, od_server_fold fields _ cfg.scheme.servers { name := some name.string } rfl]
      simp
  · right
    refine ⟨⟨name, lb, fields, rb⟩, rest, hn, ⟨hl, hrb, hok⟩, by omega, ?_⟩
    rw [ht, htk1, hr0]
    simp [od_entry.tokens]

theorem od_route_prologue (fuel : Nat) (cfg : od_config_t) (name : Option od_token_t)
    (hmem : ¬ cfg.scheme.mem = 0) :
    od_configparse_route fuel cfg name =
      if (od_confignext
            { lex := cfg.lex, log := cfg.log,
              scheme := { cfg.scheme with
                routes := cfg.scheme.routes ++ [od_route_init name],
                mem := cfg.scheme.mem - 1 } } OD_LBRACE).1 = -1 then
        some (-1, (od_confignext
            { lex := cfg.lex, log := cfg.log,
              scheme := { cfg.scheme with
                routes := cfg.scheme.routes ++ [od_route_init name],
                mem := cfg.scheme.mem - 1 } } OD_LBRACE).2.2)
      else
        od_configparse_route_loop fuel (od_confignext
            { lex := cfg.lex, log := cfg.log,
              scheme := { cfg.scheme with
                routes := cfg.scheme.routes ++ [od_route_init name],
                mem := cfg.scheme.mem - 1 } } OD_LBRACE).2.2
          cfg.scheme.routes.length := by
  unfold od_configparse_route od_schemeroute_add
  rw [if_neg hmem]
  cases name <;>
    simp [od_scheme_t.route_set, od_entry_update_last, od_route_init]

theorem od_user_prologue (fuel : Nat) (cfg : od_config_t) (name : od_token_t)
    (hmem : ¬ cfg.scheme.mem = 0) :
    od_configparse_user fuel cfg name =
      if (od_confignext
            { lex := cfg.lex, log := cfg.log,
              scheme := { cfg.scheme with
                users := cfg.scheme.users ++ [{ user := some name.string }],
                mem := cfg.scheme.mem - 1 } } OD_LBRACE).1 = -1 then
        some (-1, (od_confignext
            { lex := cfg.lex, log := cfg.log,
              scheme := { cfg.scheme with
                users := cfg.scheme.users ++ [{ user := some name.string }],
                mem := cfg.scheme.mem - 1 } } OD_LBRACE).2.2)
      else
        od_configparse_user_loop fuel (od_confignext
            { lex := cfg.lex, log := cfg.log,
              scheme := { cfg.scheme with
                users := cfg.scheme.users ++ [{ user := some name.string }],
                mem := cfg.scheme.mem - 1 } } OD_LBRACE).2.2
          cfg.scheme.users.length := by
  unfold od_configparse_user od_schemeuser_add
  rw [if_neg hmem]
  simp [od_scheme_t.user_set, od_entry_update_last]

theorem od_route_inv (fuel : Nat) (cfg : od_config_t) (name : Option od_token_t)
    (hfuel : cfg.lex.toks.length < fuel + 1) :
    (∃ r k, od_configparse_route fuel cfg name = some (-1, r) ∧
        r.lex = od_lexpops k cfg.lex ∧ k ≤ cfg.lex.toks.length + 1 ∧
        ∃ new, new.length ≤ 1 ∧
          r.scheme = { cfg.scheme with
            routes := cfg.scheme.routes ++ new,
            mem := cfg.scheme.mem - new.length }) ∨
    (∃ (lb : od_token_t) (fields : List od_field) (rb : od_token_t)
        (rest : List od_token_t),
        lb.id = OD_LBRACE ∧ rb.id = OD_RBRACE ∧ (∀ f ∈ fields, f.ok od_route_kind) ∧
        0 < cfg.scheme.mem ∧
        cfg.lex.toks = lb :: (od_items_tokens od_field.tokens fields ++ rb :: rest)) := by
  by_cases hmem : cfg.scheme.mem = 0
  · left
    refine ⟨cfg, 0, ?_, rfl, by omega, [], by simp, by simp⟩
    unfold od_configparse_route od_schemeroute_add
    rw [if_pos hmem]
  rcases od_confignext_cases
      { lex := cfg.lex, log := cfg.log,
        scheme := { cfg.scheme with
          routes := cfg.scheme.routes ++ [od_route_init name],
          mem := cfg.scheme.mem - 1 } }
      OD_LBRACE (by simp [OD_LBRACE]) (by simp [OD_LBRACE])
    with ⟨h1, h2, h3⟩ | ⟨lb, rest2, ht, hl, hc⟩
  · left
    refine ⟨_, 1, ?_, h3, by omega, [od_route_init name], by simp, h2⟩
    rw [od_route_prologue fuel cfg name hmem, if_pos h1]
  have ht : cfg.lex.toks = lb :: rest2 := ht
  have hlen := congrArg List.length ht
  simp at hlen
  have hopen : od_configparse_route fuel cfg name =
      od_configparse_route_loop fuel
        { lex := od_lexpops 1 cfg.lex, log := cfg.log,
          scheme := { cfg.scheme with
            routes := cfg.scheme.routes ++ [od_route_init name],
            mem := cfg.scheme.mem - 1 } }
        cfg.scheme.routes.length := by
    rw [od_route_prologue fuel cfg name hmem, hc]
    dsimp only
    rw [if_neg (by decide)]
  have ht3 : (od_lexpops 1 cfg.lex).toks = rest2 :=
    od_lexpops_toks_app _ [lb] _ 1 ht rfl
  obtain ⟨fields, rest0, hok, htk, hres⟩ := od_route_loop_inv fuel
    { lex := od_lexpops 1 cfg.lex, log := cfg.log,
      scheme := { cfg.scheme with
        routes := cfg.scheme.routes ++ [od_route_init name],
        mem := cfg.scheme.mem - 1 } }
    cfg.scheme.routes.length
    (by show (od_lexpops 1 cfg.lex).toks.length < fuel
        rw [ht3]; omega)
  have htk1 : rest2 = od_items_tokens od_field.tokens fields ++ rest0 := by
    rw [← ht3]; exact htk
  have hlen1 := congrArg List.length htk1
  simp at hlen1
  rcases hres with ⟨r, k, hr, hlex, hk, hs⟩ | ⟨rb, rest, hr0, hrb, _⟩
  · left
    refine ⟨r, 1 + ((od_items_tokens od_field.tokens fields).length + k), ?_, ?_, ?_,
      [fields.foldl od_route_assign (od_route_init name)], by simp, ?_⟩
    · rw [hopen, hr]
    · rw [hlex]; simp only [od_lexpops_add]
    · omega
    · rw [hs, od_route_fold fields _ cfg.scheme.routes (od_route_init name) rfl]
      simp
  · right
    refine ⟨lb, fields, rb, rest, hl, hrb, hok, by omega, ?_⟩
    rw [ht, htk1, hr0]

theorem od_user_inv (fuel : Nat) (cfg : od_config_t) (name : od_token_t)
    (hfuel : cfg.lex.toks.length < fuel + 1) :
    (∃ r k, od_configparse_user fuel cfg name = some (-1, r) ∧
        r.lex = od_lexpops k cfg.lex ∧ k ≤ cfg.lex.toks.length + 1 ∧
        ∃ new, new.length ≤ 1 ∧
          r.scheme = { cfg.scheme with
            users := cfg.scheme.users ++ new,
            mem := cfg.scheme.mem - new.length }) ∨
    (∃ (lb : od_token_t) (fields : List od_field) (rb : od_token_t)
        (rest : List od_token_t),
        lb.id = OD_LBRACE ∧ rb.id = OD_RBRACE ∧ (∀ f ∈ fields, f.ok od_user_kind) ∧
        0 < cfg.scheme.mem ∧
        cfg.lex.toks = lb :: (od_items_tokens od_field.tokens fields ++ rb :: rest)) := by
  by_cases hmem : cfg.scheme.mem = 0
  · left
    refine ⟨cfg, 0, ?_, rfl, by omega, [], by simp, by simp⟩
    unfold od_configparse_user od_schemeuser_add
    rw [if_pos hmem]
  rcases od_confignext_cases
      { lex := cfg.lex, log := cfg.log,
        scheme := { cfg.scheme with
          users := cfg.scheme.users ++ [{ user := some name.string }],
          mem := cfg.scheme.mem - 1 } }
      OD_LBRACE (by simp [OD_LBRACE]) (by simp [OD_LBRACE])
    with ⟨h1, h2, h3⟩ | ⟨lb, rest2, ht, hl, hc⟩
  · left
    refine ⟨_, 1, ?_, h3, by omega, [{ user := some name.string }], by simp, h2⟩
    rw [od_user_prologue fuel cfg name hmem, if_pos h1]
  have ht : cfg.lex.toks = lb :: rest2 := ht
  have hlen := congrArg List.length ht
  simp at hlen
  have hopen : od_configparse_user fuel cfg name =
      od_configparse_user_loop fuel
        { lex := od_lexpops 1 cfg.lex, log := cfg.log,
          scheme := { cfg.scheme with
            users := cfg.scheme.users ++ [{ user := some name.string }],
            mem := cfg.scheme.mem - 1 } }
        cfg.scheme.users.length := by
    rw [od_user_prologue fuel cfg name hmem, hc]
    dsimp only
    rw [if_neg (by decide)]
  have ht3 : (od_lexpops 1 cfg.lex).toks = rest2 :=
    od_lexpops_toks_app _ [lb] _ 1 ht rfl
  obtain ⟨fields, rest0, hok, htk, hres⟩ := od_user_loop_inv fuel
    { lex := od_lexpops 1 cfg.lex, log := cfg.log,
      scheme := { cfg.scheme with
        users := cfg.scheme.users ++ [{ user := some name.string }],
        mem := cfg.scheme.mem - 1 } }
    cfg.scheme.users.length
    (by show (od_lexpops 1 cfg.lex).toks.length < fuel
        rw [ht3]; omega)
  have htk1 : rest2 = od_items_tokens od_field.tokens fields ++ rest0 := by
    rw [← ht3]; exact htk
  have hlen1 := congrArg List.length htk1
  simp at hlen1
  rcases hres with ⟨r, k, hr, hlex, hk, hs⟩ | ⟨rb, rest, hr0, hrb, _⟩
  · left
    refine ⟨r, 1 + ((od_items_tokens od_field.tokens fields).length + k), ?_, ?_, ?_,
      [fields.foldl od_user_assign { user := some name.string }], by simp, ?_⟩
    · rw [hopen, hr]
    · rw [hlex]; simp only [od_lexpops_add]
    · omega
    · rw [hs, od_user_fold fields _ cfg.scheme.users { user := some name.string } rfl]
      simp
  · right
    refine ⟨lb, fields, rb, rest, hl, hrb, hok, by omega, ?_⟩
    rw [ht, htk1, hr0]

theorem od_users_loop_inv (fuel : Nat) (cfg : od_config_t)
    (hlen : cfg.lex.toks.length < fuel) :
    ∃ (entries : List od_entry) (rest0 : List od_token_t),
      (∀ e ∈ entries, e.name.id = OD_LSTRING ∧ e.ok od_user_kind) ∧
      entries.length ≤ cfg.scheme.mem ∧
      cfg.lex.toks = od_items_tokens od_entry.tokens entries ++ rest0 ∧
      ((∃ r k, od_configparse_users_loop fuel cfg = some (-1, r) ∧
          r.lex = od_lexpops ((od_items_tokens od_entry.tokens entries).length + k)
            cfg.lex ∧
          k ≤ rest0.length + 1) ∨
       (∃ rb rest, rest0 = rb :: rest ∧ rb.id = OD_RBRACE)) := by
  have key := od_loop_inv od_configparse_users_loop od_entry.tokens od_user_denote
    (fun e => e.name.id = OD_LSTRING ∧ e.ok od_user_kind) (fun _ => 1)
    (fun _ _ => True) (fun _ _ => rfl)
    (fun e _ => by simp [od_entry.tokens])
    (by
      intro fuel cfg hfuel
      rcases htoks : cfg.lex.toks with _ | ⟨t, rest⟩
      · exact Or.inl ⟨_, 1, od_configparse_users_loop_eof fuel cfg htoks, rfl, by simp,
          trivial⟩
      · have hlen := congrArg List.length htoks
        simp at hlen
        by_cases hrb : t.id = OD_RBRACE
        · exact Or.inr (Or.inl ⟨t, rest, rfl, hrb,
            od_users_loop_close fuel cfg t rest htoks hrb⟩)
        by_cases hs : t.id = OD_LSTRING
        · have hd := od_users_loop_string fuel cfg t rest htoks hs
          have ht1 : (od_lexpops 1 cfg.lex).toks = rest :=
            od_lexpops_toks_app _ [t] _ 1 htoks rfl
          rcases od_user_inv fuel
              { lex := od_lexpops 1 cfg.lex, log := cfg.log, scheme := cfg.scheme } t
              (by show (od_lexpops 1 cfg.lex).toks.length < fuel + 1
                  rw [ht1]; omega)
            with ⟨r, k, hr, hlex, hk, _⟩ | ⟨lb, fields, rb, rest2, hl, hrb2, hok, hm, htk⟩
          · refine Or.inl ⟨r, 1 + k, ?_, ?_, ?_, trivial⟩
            · rw [hd, hr]; rfl
            · rw [hlex]; simp only [od_lexpops_add]
            · have hk : k ≤ (od_lexpops 1 cfg.lex).toks.length + 1 := hk
              rw [ht1] at hk
              simp; omega
          · have htk : (od_lexpops 1 cfg.lex).toks =
                lb :: (od_items_tokens od_field.tokens fields ++ rb :: rest2) := htk
            rw [ht1] at htk
            have htoks2 : cfg.lex.toks =
                od_entry.tokens ⟨t, lb, fields, rb⟩ ++ rest2 := by
              rw [htoks, htk]; simp [od_entry.tokens]
            refine Or.inr (Or.inr ⟨⟨t, lb, fields, rb⟩, rest2, ⟨hs, hl, hrb2, hok⟩, hm,
              by rw [← htoks, htoks2], ?_⟩)
            exact od_users_loop_step fuel cfg ⟨t, lb, fields, rb⟩ rest2
              ⟨hs, hl, hrb2, hok⟩ hm htoks2 hfuel
        · obtain ⟨r, hr, hl, _⟩ :=
            od_configparse_users_loop_reject fuel cfg t rest htoks hrb hs
          exact Or.inl ⟨r, 1, hr, hl, by simp, trivial⟩)
  obtain ⟨items, rest0, hok, hneed, htk, hres⟩ := key fuel cfg hlen
  rw [od_items_need_one] at hneed
  refine ⟨items, rest0, hok, hneed, htk, ?_⟩
  rcases hres with ⟨r, k, hr, hl, hk, _⟩ | ⟨rb, rest, h1, h2, _⟩
  · exact Or.inl ⟨r, k, hr, hl, hk⟩
  · exact Or.inr ⟨rb, rest, h1, h2⟩

theorem od_routing_loop_inv (fuel : Nat) (cfg : od_config_t)
    (hlen : cfg.lex.toks.length < fuel) :
    ∃ (items : List od_routing_item) (rest0 : List od_token_t),
      (∀ x ∈ items, x.ok) ∧
      od_items_need od_routing_item.need items ≤ cfg.scheme.mem ∧
      cfg.lex.toks = od_items_tokens od_routing_item.tokens items ++ rest0 ∧
      ((∃ r k, od_configparse_routing_loop fuel cfg = some (-1, r) ∧
          r.lex = od_lexpops ((od_items_tokens od_routing_item.tokens items).length + k)
            cfg.lex ∧
          k ≤ rest0.length + 1) ∨
       (∃ rb rest, rest0 = rb :: rest ∧ rb.id = OD_RBRACE)) := by
  have key := od_loop_inv od_configparse_routing_loop od_routing_item.tokens
    od_routing_item.denote od_routing_item.ok od_routing_item.need
    (fun _ _ => True)
    (fun s x => by cases x <;> simp [od_routing_item.denote, od_routing_item.need])
    (fun x _ => by
      cases x <;> simp [od_routing_item.tokens, od_entry.tokens, od_field.tokens])
    (by
      intro fuel cfg hfuel
      rcases htoks : cfg.lex.toks with _ | ⟨t, rest⟩
      · exact Or.inl ⟨_, 1, od_configparse_routing_loop_eof fuel cfg htoks, rfl, by simp,
          trivial⟩
      · have hlen := congrArg List.length htoks
        simp at hlen
        have ht1 : (od_lexpops 1 cfg.lex).toks = rest :=
          od_lexpops_toks_app _ [t] _ 1 htoks rfl
        have hroute : ∀ name : Option od_token_t,
            (t.id = OD_LSTRING ∨ t.id = OD_LDEFAULT) →
            od_configparse_routing_loop (fuel + 1) cfg =
              (match od_configparse_route fuel
                { lex := od_lexpops 1 cfg.lex, log := cfg.log,
                  scheme := cfg.scheme } name with
              | none => none
              | some (rc, config) =>
                if rc = -1 then some (-1, config)
                else od_configparse_routing_loop fuel config) →
            (∃ r k, od_configparse_routing_loop (fuel + 1) cfg = some (-1, r) ∧
              r.lex = od_lexpops k cfg.lex ∧ k ≤ (t :: rest).length + 1 ∧ True) ∨
            (∃ t' rest', t :: rest = t' :: rest' ∧ t'.id = OD_RBRACE ∧
              od_configparse_routing_loop (fuel + 1) cfg =
                some (0, { lex := od_lexpops 1 cfg.lex, log := cfg.log,
                           scheme := cfg.scheme })) ∨
            (∃ x rest', od_routing_item.ok x ∧
              od_routing_item.need x ≤ cfg.scheme.mem ∧
              t :: rest = od_routing_item.tokens x ++ rest' ∧
              od_configparse_routing_loop (fuel + 1) cfg =
                od_configparse_routing_loop fuel
                  { lex := od_lexpops (od_routing_item.tokens x).length cfg.lex,
                    log := cfg.log,
                    scheme := od_routing_item.denote cfg.scheme x }) := by
          intro name hname hd
          rcases od_route_inv fuel
              { lex := od_lexpops 1 cfg.lex, log := cfg.log, scheme := cfg.scheme } name
              (by show (od_lexpops 1 cfg.lex).toks.length < fuel + 1
                  rw [ht1]; omega)
            with ⟨r, k, hr, hlex, hk, _⟩ | ⟨lb, fields, rb, rest2, hl, hrb2, hok, hm, htk⟩
          · refine Or.inl ⟨r, 1 + k, ?_, ?_, ?_, trivial⟩
            · rw [hd, hr]; rfl
            · rw [hlex]; simp only [od_lexpops_add]
            · have hk : k ≤ (od_lexpops 1 cfg.lex).toks.length + 1 := hk
              rw [ht1] at hk
              simp; omega
          · have htk : (od_lexpops 1 cfg.lex).toks =
                lb :: (od_items_tokens od_field.tokens fields ++ rb :: rest2) := htk
            rw [ht1] at htk
            have htoks2 : cfg.lex.toks =
                od_routing_item.tokens (od_routing_item.route ⟨t, lb, fields, rb⟩) ++
                  rest2 := by
              rw [htoks, htk]; simp [od_routing_item.tokens, od_entry.tokens]
            refine Or.inr (Or.inr ⟨od_routing_item.route ⟨t, lb, fields, rb⟩, rest2,
              ⟨hname, hl, hrb2, hok⟩, hm, by rw [← htoks, htoks2], ?_⟩)
            exact od_routing_loop_step fuel cfg
              (od_routing_item.route ⟨t, lb, fields, rb⟩) rest2
              ⟨hname, hl, hrb2, hok⟩ hm htoks2 hfuel
        by_cases hrb : t.id = OD_RBRACE
        · exact Or.inr (Or.inl ⟨t, rest, rfl, hrb,
            od_routing_loop_close fuel cfg t rest htoks hrb⟩)
        by_cases hs : t.id = OD_LSTRING
        · exact hroute (some t) (Or.inl hs) (od_routing_loop_string fuel cfg t rest htoks hs)
        by_cases hdf : t.id = OD_LDEFAULT
        · exact hroute none (Or.inr hdf) (od_routing_loop_default fuel cfg t rest htoks hdf)
        by_cases hk : od_mode_kind t.id = none
        · obtain ⟨r, hr, hl, _⟩ :=
            od_configparse_routing_loop_reject fuel cfg t rest htoks hk hrb hs hdf
          exact Or.inl ⟨r, 1, hr, hl, by simp, trivial⟩
        by_cases hv : od_field.ok od_mode_kind
            { key := t, value := (od_lexpop (od_lexpops 1 cfg.lex)).1 }
        · obtain ⟨v, rest', rfl, hok⟩ :=
            od_field_ok_popped od_mode_kind cfg.lex t rest htoks hv
          refine Or.inr (Or.inr ⟨od_routing_item.mode { key := t, value := v }, rest',
            hok, Nat.zero_le _, by simp [od_routing_item.tokens, od_field.tokens], ?_⟩)
          exact od_routing_loop_step fuel cfg
            (od_routing_item.mode { key := t, value := v }) rest' hok (Nat.zero_le _)
            (by simp [htoks, od_routing_item.tokens, od_field.tokens]) hfuel
        · obtain ⟨r, hr, hl, _⟩ :=
            od_configparse_routing_loop_value fuel cfg t rest htoks hk hv
          exact Or.inl ⟨r, 2, hr, hl, by simp, trivial⟩)
  obtain ⟨items, rest0, hok, hneed, htk, hres⟩ := key fuel cfg hlen
  refine ⟨items, rest0, hok, hneed, htk, ?_⟩
  rcases hres with ⟨r, k, hr, hl, hk, _⟩ | ⟨rb, rest, h1, h2, _⟩
  · exact Or.inl ⟨r, k, hr, hl, hk⟩
  · exact Or.inr ⟨rb, rest, h1, h2⟩

theorem od_routing_inv (fuel : Nat) (cfg : od_config_t)
    (hfuel : cfg.lex.toks.length < fuel + 1) :
    (∃ r k, od_configparse_routing fuel cfg = some (-1, r) ∧
        r.lex = od_lexpops k cfg.lex ∧ k ≤ cfg.lex.toks.length + 1) ∨
    (∃ (lb : od_token_t) (items : List od_routing_item) (rb : od_token_t)
        (rest : List od_token_t),
        lb.id = OD_LBRACE ∧ rb.id = OD_RBRACE ∧ (∀ x ∈ items, x.ok) ∧
        od_items_need od_routing_item.need items ≤ cfg.scheme.mem ∧
        cfg.lex.toks =
          lb :: (od_items_tokens od_routing_item.tokens items ++ rb :: rest)) := by
  rcases od_confignext_cases cfg OD_LBRACE (by simp [OD_LBRACE]) (by simp [OD_LBRACE])
    with ⟨h1, _, h3⟩ | ⟨lb, rest1, ht, hl, hc⟩
  · left
    refine ⟨(od_confignext cfg OD_LBRACE).2.2, 1, ?_, h3, by omega⟩
    unfold od_configparse_routing
    dsimp only
    rw [if_pos h1]
  · have hopen : od_configparse_routing fuel cfg =
        od_configparse_routing_loop fuel
          { lex := od_lexpops 1 cfg.lex, log := cfg.log, scheme := cfg.scheme } := by
      unfold od_configparse_routing
      rw [hc]
      dsimp only
      rw [if_neg (by decide)]
    have ht1 : (od_lexpops 1 cfg.lex).toks = rest1 :=
      od_lexpops_toks_app _ [lb] _ 1 ht rfl
    have hlen := congrArg List.length ht
    simp at hlen
    obtain ⟨items, rest0, hok, hneed, htk, hres⟩ := od_routing_loop_inv fuel
      { lex := od_lexpops 1 cfg.lex, log := cfg.log, scheme := cfg.scheme }
      (by show (od_lexpops 1 cfg.lex).toks.length < fuel
          rw [ht1]; omega)
    have htk1 : rest1 = od_items_tokens od_routing_item.tokens items ++ rest0 := by
      rw [← ht1]; exact htk
    have hlen1 := congrArg List.length htk1
    simp at hlen1
    rcases hres with ⟨r, k, hr, hlex, hk⟩ | ⟨rb, rest, hr0, hrb⟩
    · left
      refine ⟨r, 1 + ((od_items_tokens od_routing_item.tokens items).length + k),
        ?_, ?_, ?_⟩
      · rw [hopen, hr]
      · rw [hlex]; simp only [od_lexpops_add]
      · omega
    · right
      refine ⟨lb, items, rb, rest, hl, hrb, hok, hneed, ?_⟩
      rw [ht, htk1, hr0]

theorem od_users_inv (fuel : Nat) (cfg : od_config_t)
    (hfuel : cfg.lex.toks.length < fuel + 1) :
    (∃ r k, od_configparse_users fuel cfg = some (-1, r) ∧
        r.lex = od_lexpops k cfg.lex ∧ k ≤ cfg.lex.toks.length + 1) ∨
    (∃ (lb : od_token_t) (entries : List od_entry) (rb : od_token_t)
        (rest : List od_token_t),
        lb.id = OD_LBRACE ∧ rb.id = OD_RBRACE ∧
        (∀ e ∈ entries, e.name.id = OD_LSTRING ∧ e.ok od_user_kind) ∧
        entries.length ≤ cfg.scheme.mem ∧
        cfg.lex.toks =
          lb :: (od_items_tokens od_entry.tokens entries ++ rb :: rest)) := by
  rcases od_confignext_cases cfg OD_LBRACE (by simp [OD_LBRACE]) (by simp [OD_LBRACE])
    with ⟨h1, _, h3⟩ | ⟨lb, rest1, ht, hl, hc⟩
  · left
    refine ⟨(od_confignext cfg OD_LBRACE).2.2, 1, ?_, h3, by omega⟩
    unfold od_configparse_users
    dsimp only
    rw [if_pos h1]
  · have hopen : od_configparse_users fuel cfg =
        od_configparse_users_loop fuel
          { lex := od_lexpops 1 cfg.lex, log := cfg.log, scheme := cfg.scheme } := by
      unfold od_configparse_users
      rw [hc]
      dsimp only
      rw [if_neg (by decide)]
    have ht1 : (od_lexpops 1 cfg.lex).toks = rest1 :=
      od_lexpops_toks_app _ [lb] _ 1 ht rfl
    have hlen := congrArg List.length ht
    simp at hlen
    obtain ⟨items, rest0, hok, hneed, htk, hres⟩ := od_users_loop_inv fuel
      { lex := od_lexpops 1 cfg.lex, log := cfg.log, scheme := cfg.scheme }
      (by show (od_lexpops 1 cfg.lex).toks.length < fuel
          rw [ht1]; omega)
    have htk1 : rest1 = od_items_tokens od_entry.tokens items ++ rest0 := by
      rw [← ht1]; exact htk
    have hlen1 := congrArg List.length htk1
    simp at hlen1
    rcases hres with ⟨r, k, hr, hlex, hk⟩ | ⟨rb, rest, hr0, hrb⟩
    · left
      refine ⟨r, 1 + ((od_items_tokens od_entry.tokens items).length + k),
        ?_, ?_, ?_⟩
      · rw [hopen, hr]
      · rw [hlex]; simp only [od_lexpops_add]
      · omega
    · right
      refine ⟨lb, items, rb, rest, hl, hrb, hok, hneed, ?_⟩
      rw [ht, htk1, hr0]

theorem od_top_loop_inv (fuel : Nat) (cfg : od_config_t)
    (hlen : cfg.lex.toks.length < fuel) :
    ∃ (stmts : List od_stmt) (rest0 : List od_token_t),
      (∀ x ∈ stmts, x.ok) ∧
      od_items_need od_stmt.need stmts ≤ cfg.scheme.mem ∧
      cfg.lex.toks = od_items_tokens od_stmt.tokens stmts ++ rest0 ∧
      ((∃ r k, od_configparse_loop fuel cfg = some (-1, r) ∧
          r.lex = od_lexpops ((od_items_tokens od_stmt.tokens stmts).length + k)
            cfg.lex ∧
          k ≤ rest0.length + 1) ∨
       (∃ rb rest, rest0 = rb :: rest ∧ rb.id = OD_RBRACE)) := by
  have key := od_loop_inv od_configparse_loop od_stmt.tokens
    od_stmt.denote od_stmt.ok od_stmt.need
    (fun _ _ => True)
    (fun s x => od_stmt_denote_mem s x)
    (fun x _ => od_stmt_tokens_pos x)
    (by
      intro fuel cfg hfuel
      rcases htoks : cfg.lex.toks with _ | ⟨t, rest⟩
      · exact Or.inl ⟨_, 1, od_configparse_loop_eof fuel cfg htoks, rfl, by simp,
          trivial⟩
      · have hlen := congrArg List.length htoks
        simp at hlen
        have ht1 : (od_lexpops 1 cfg.lex).toks = rest :=
          od_lexpops_toks_app _ [t] _ 1 htoks rfl
        have hf1 : (od_lexpops 1 cfg.lex).toks.length < fuel + 1 := by
          rw [ht1]; omega
        by_cases hrb : t.id = OD_RBRACE
        · exact Or.inr (Or.inl ⟨t, rest, rfl, hrb,
            od_loop_close fuel cfg t rest htoks hrb⟩)
        by_cases h1 : t.id = OD_LLISTEN
        · have hd := od_loop_listen fuel cfg t rest htoks h1
          rcases od_listen_inv fuel
              { lex := od_lexpops 1 cfg.lex, log := cfg.log, scheme := cfg.scheme } hf1
            with ⟨r, k, hr, hlex, hk, _⟩ | ⟨lb, fields, rb, rest2, hl, hrb2, hok, htk⟩
          · refine Or.inl ⟨r, 1 + k, ?_, ?_, ?_, trivial⟩
            · rw [hd, hr]; rfl
            · rw [hlex]; simp only [od_lexpops_add]
            · have hk : k ≤ (od_lexpops 1 cfg.lex).toks.length + 1 := hk
              rw [ht1] at hk
              simp; omega
          · have htk : (od_lexpops 1 cfg.lex).toks =
                lb :: (od_items_tokens od_field.tokens fields ++ [rb]) ++ rest2 := htk
            rw [ht1] at htk
            have htoks2 : cfg.lex.toks =
                od_stmt.tokens (od_stmt.listen t lb fields rb) ++ rest2 := by
              rw [htoks, htk]; simp [od_stmt.tokens]
            refine Or.inr (Or.inr ⟨od_stmt.listen t lb fields rb, rest2,
              ⟨h1, hl, hrb2, hok⟩, Nat.zero_le _, by rw [← htoks, htoks2], ?_⟩)
            exact od_loop_step fuel cfg (od_stmt.listen t lb fields rb) rest2
              ⟨h1, hl, hrb2, hok⟩ (Nat.zero_le _) htoks2 hfuel
        by_cases h2 : t.id = OD_LSERVER
        · have hd := od_loop_server fuel cfg t rest htoks h2
          rcases od_server_inv fuel
              { lex := od_lexpops 1 cfg.lex, log := cfg.log, scheme := cfg.scheme } hf1
            with ⟨r, k, hr, hlex, hk, _⟩ | ⟨e, rest2, hn, hok, hm, htk⟩
          · refine Or.inl ⟨r, 1 + k, ?_, ?_, ?_, trivial⟩
            · rw [hd, hr]; rfl
            · rw [hlex]; simp only [od_lexpops_add]
            · have hk : k ≤ (od_lexpops 1 cfg.lex).toks.length + 1 := hk
              rw [ht1] at hk
              simp; omega
          · have htk : (od_lexpops 1 cfg.lex).toks = e.tokens ++ rest2 := htk
            rw [ht1] at htk
            have htoks2 : cfg.lex.toks =
                od_stmt.tokens (od_stmt.server t e) ++ rest2 := by
              rw [htoks, htk]; simp [od_stmt.tokens]
            refine Or.inr (Or.inr ⟨od_stmt.server t e, rest2,
              ⟨h2, hn, hok⟩, hm, by rw [← htoks, htoks2], ?_⟩)
            exact od_loop_step fuel cfg (od_stmt.server t e) rest2
              ⟨h2, hn, hok⟩ hm htoks2 hfuel
        by_cases h3 : t.id = OD_LROUTING
        · have hd := od_loop_routing fuel cfg t rest htoks h3
          rcases od_routing_inv fuel
              { lex := od_lexpops 1 cfg.lex, log := cfg.log, scheme := cfg.scheme } hf1
            with ⟨r, k, hr, hlex, hk⟩ |
              ⟨lb, items, rb, rest2, hl, hrb2, hok, hm, htk⟩
          · refine Or.inl ⟨r, 1 + k, ?_, ?_, ?_, trivial⟩
            · rw [hd, hr]; rfl
            · rw [hlex]; simp only [od_lexpops_add]
            · have hk : k ≤ (od_lexpops 1 cfg.lex).toks.length + 1 := hk
              rw [ht1] at hk
              simp; omega
          · have htk : (od_lexpops 1 cfg.lex).toks =
                lb :: (od_items_tokens od_routing_item.tokens items ++ rb :: rest2) :=
              htk
            rw [ht1] at htk
            have htoks2 : cfg.lex.toks =
                od_stmt.tokens (od_stmt.routing t lb items rb) ++ rest2 := by
              rw [htoks, htk]; simp [od_stmt.tokens]
            refine Or.inr (Or.inr ⟨od_stmt.routing t lb items rb, rest2,
              ⟨h3, hl, hrb2, hok⟩, hm, by rw [← htoks, htoks2], ?_⟩)
            exact od_loop_step fuel cfg (od_stmt.routing t lb items rb) rest2
              ⟨h3, hl, hrb2, hok⟩ hm htoks2 hfuel
        by_cases h4 : t.id = OD_LUSERS
        · have hd := od_loop_users fuel cfg t rest htoks h4
          rcases od_users_inv fuel
              { lex := od_lexpops 1 cfg.lex, log := cfg.log, scheme := cfg.scheme } hf1
            with ⟨r, k, hr, hlex, hk⟩ |
              ⟨lb, entries, rb, rest2, hl, hrb2, hok, hm, htk⟩
          · refine Or.inl ⟨r, 1 + k, ?_, ?_, ?_, trivial⟩
            · rw [hd, hr]; rfl
            · rw [hlex]; simp only [od_lexpops_add]
            · have hk : k ≤ (od_lexpops 1 cfg.lex).toks.length + 1 := hk
              rw [ht1] at hk
              simp; omega
          · have htk : (od_lexpops 1 cfg.lex).toks =
                lb :: (od_items_tokens od_entry.tokens entries ++ rb :: rest2) := htk
            rw [ht1] at htk
            have htoks2 : cfg.lex.toks =
                od_stmt.tokens (od_stmt.users t lb entries rb) ++ rest2 := by
              rw [htoks, htk]; simp [od_stmt.tokens]
            refine Or.inr (Or.inr ⟨od_stmt.users t lb entries rb, rest2,
              ⟨h4, hl, hrb2, hok⟩, hm, by rw [← htoks, htoks2], ?_⟩)
            exact od_loop_step fuel cfg (od_stmt.users t lb entries rb) rest2
              ⟨h4, hl, hrb2, hok⟩ hm htoks2 hfuel
        by_cases hk : od_global_kind t.id = none
        · obtain ⟨r, hr, hl, _⟩ :=
            od_configparse_loop_reject fuel cfg t rest htoks hk hrb h1 h2 h3 h4
          exact Or.inl ⟨r, 1, hr, hl, by simp, trivial⟩
        by_cases hv : od_field.ok od_global_kind
            { key := t, value := (od_lexpop (od_lexpops 1 cfg.lex)).1 }
        · obtain ⟨v, rest', rfl, hok⟩ :=
            od_field_ok_popped od_global_kind cfg.lex t rest htoks hv
          refine Or.inr (Or.inr ⟨od_stmt.global { key := t, value := v }, rest',
            hok, Nat.zero_le _, by simp [od_stmt.tokens, od_field.tokens], ?_⟩)
          exact od_loop_step fuel cfg
            (od_stmt.global { key := t, value := v }) rest' hok (Nat.zero_le _)
            (by simp [htoks, od_stmt.tokens, od_field.tokens]) hfuel
        · obtain ⟨r, hr, hl, _⟩ :=
            od_configparse_loop_value fuel cfg t rest htoks hk hv
          exact Or.inl ⟨r, 2, hr, hl, by simp, trivial⟩)
  obtain ⟨items, rest0, hok, hneed, htk, hres⟩ := key fuel cfg hlen
  refine ⟨items, rest0, hok, hneed, htk, ?_⟩
  rcases hres with ⟨r, k, hr, hl, hk, _⟩ | ⟨rb, rest, h1, h2, _⟩
  · exact Or.inl ⟨r, k, hr, hl, hk⟩
  · exact Or.inr ⟨rb, rest, h1, h2⟩

theorem od_configparse_inv (config : od_config_t) :
    (∃ r k, od_configparse config = some (-1, r) ∧
        r.lex = od_lexpops k config.lex ∧ k ≤ config.lex.toks.length + 1) ∨
    (∃ (c : od_sentence) (rest : List od_token_t),
        c.ok ∧ c.need ≤ config.scheme.mem ∧ config.lex.toks = c.tokens ++ rest) := by
  rcases od_confignext_cases config OD_LODISSEY (by simp) (by simp)
    with ⟨h1, _, h3⟩ | ⟨root, rest1, ht, hroot, hc⟩
  · left
    refine ⟨(od_confignext config OD_LODISSEY).2.2, 1, ?_, h3, by omega⟩
    unfold od_configparse od_configparse_fuel
    dsimp only
    rw [if_pos h1]
  have hlen := congrArg List.length ht
  simp at hlen
  have ht1 : (od_lexpops 1 config.lex).toks = rest1 :=
    od_lexpops_toks_app _ [root] _ 1 ht rfl
  rcases od_confignext_cases
      { lex := od_lexpops 1 config.lex, log := config.log, scheme := config.scheme }
      OD_LBRACE (by simp [OD_LBRACE]) (by simp [OD_LBRACE])
    with ⟨h1, _, h3⟩ | ⟨lb, rest2, ht2, hl, hc2⟩
  · left
    refine ⟨_, 2, ?_, h3, by omega⟩
    unfold od_configparse od_configparse_fuel
    rw [hc]
    dsimp only
    rw [if_neg (by decide), if_pos h1]
  have ht2 : (od_lexpops 1 config.lex).toks = lb :: rest2 := ht2
  have hr1 : rest1 = lb :: rest2 := by rw [← ht1]; exact ht2
  subst hr1
  simp at hlen
  have hopen : od_configparse config =
      od_configparse_loop (config.lex.toks.length + 1)
        { lex := od_lexpops 2 config.lex, log := config.log, scheme := config.scheme } := by
    unfold od_configparse od_configparse_fuel
    rw [hc]
    dsimp only
    rw [if_neg (by decide), hc2]
    dsimp only
    rw [if_neg (by decide)]
    rfl
  have ht3 : (od_lexpops 2 config.lex).toks = rest2 :=
    od_lexpops_toks_app _ [root, lb] _ 2 ht rfl
  obtain ⟨stmts, rest0, hok, hneed, htk, hres⟩ := od_top_loop_inv
    (config.lex.toks.length + 1)
    { lex := od_lexpops 2 config.lex, log := config.log, scheme := config.scheme }
    (by show (od_lexpops 2 config.lex).toks.length < config.lex.toks.length + 1
        rw [ht3]; omega)
  have htk1 : rest2 = od_items_tokens od_stmt.tokens stmts ++ rest0 := by
    rw [← ht3]; exact htk
  have hlen1 := congrArg List.length htk1
  simp at hlen1
  rcases hres with ⟨r, k, hr, hlex, hk⟩ | ⟨rb, rest, hr0, hrb⟩
  · left
    refine ⟨r, 2 + ((od_items_tokens od_stmt.tokens stmts).length + k), ?_, ?_, ?_⟩
    · rw [hopen, hr]
    · rw [hlex]; simp only [od_lexpops_add]
    · omega
  · right
    refine ⟨⟨root, lb, stmts, rb⟩, rest, ⟨hroot, hl, hrb, hok⟩, hneed, ?_⟩
    rw [ht, htk1, hr0]
    simp [od_sentence.tokens]

/-! ## Failure positions, the accepted language, and frames -/

theorem od_listen_frame_assign (s : od_scheme_t) (f : od_field) :
    od_listen_frame (od_listen_assign s f) = od_listen_frame s := by
  unfold od_listen_assign; split <;> rfl

theorem od_position_value (config : od_config_t) (p : od_position)
    (kw : od_token_t) (rest : List od_token_t)
    (hok : p.ok) (hmem : p.need ≤ config.scheme.mem)
    (htoks : config.lex.toks = p.tokens ++ kw :: rest)
    (hk : p.block.kind kw.id ≠ none)
    (hbad : ¬ od_field.ok p.block.kind
      { key := kw,
        value := (od_lexpop (od_lexpops (p.tokens.length + 1) config.lex)).1 }) :
    ∃ r, od_configparse config = some (-1, r) ∧
      r.lex = od_lexpops (p.tokens.length + 2) config.lex ∧
      r.scheme = p.scheme config.scheme := by
  obtain ⟨fuel, hfuel, h⟩ := od_position_reach config p (kw :: rest) hok hmem htoks
  obtain ⟨k, rfl⟩ : ∃ k, fuel = k + 1 := ⟨fuel - 1, by simp at hfuel; omega⟩
  have ht : (p.config config).lex.toks = kw :: rest :=
    od_lexpops_toks_app _ _ _ _ htoks rfl
  rw [od_lexpops_add] at hbad
  have hrun : ∃ r, p.block.run (k + 1) (p.config config) = some (-1, r) ∧
      r.lex = od_lexpops 2 (p.config config).lex ∧
      r.scheme = (p.config config).scheme := by
    cases hb : p.block <;> rw [hb] at hk hbad <;>
      simp only [od_open_block.run, od_open_block.kind] at hk hbad ⊢
    · exact od_configparse_loop_value k _ kw rest ht hk hbad
    · exact od_configparse_listen_loop_value k _ kw rest ht hk hbad
    · exact od_configparse_server_loop_value k _ _ kw rest ht hk hbad
    · exact od_configparse_routing_loop_value k _ kw rest ht hk hbad
    · exact od_configparse_route_loop_value k _ _ kw rest ht hk hbad
    · exact absurd rfl hk
    · exact od_configparse_user_loop_value k _ _ kw rest ht hk hbad
  obtain ⟨r, hr, hl, hs⟩ := hrun
  refine ⟨r, h r hr, ?_, hs⟩
  rw [hl, od_lexpops_add]
  rfl

/-- C17: on a finite token list of length n `od_configparse` always returns
(the fuel of the loops, one unit per token plus one, is never exhausted), with
0 or -1; it pops at most n + 1 tokens, so that at most one end-of-input token
is ever popped; and a run that popped the end-of-input token has failed. -/
theorem od_configparse_terminates (config : od_config_t) :
    ∃ rc r k, od_configparse config = some (rc, r) ∧ (rc = 0 ∨ rc = -1) ∧
      r.lex = od_lexpops k config.lex ∧
      r.lex.popped = config.lex.popped + k ∧
      k ≤ config.lex.toks.length + 1 ∧
      (k = config.lex.toks.length + 1 → rc = -1) := by
  rcases od_configparse_inv config with ⟨r, k, hr, hl, hk⟩ | ⟨c, rest, hok, hmem, htoks⟩
  · exact ⟨-1, r, k, hr, Or.inr rfl, hl, by rw [hl, od_lexpops_popped], hk,
      fun _ => rfl⟩
  · have hlen := congrArg List.length htoks
    simp at hlen
    refine ⟨0, _, c.tokens.length, od_configparse_sentence config c rest hok hmem htoks,
      Or.inl rfl, rfl, ?_, by omega, fun h => by omega⟩
    show (od_lexpops c.tokens.length config.lex).popped = _
    rw [od_lexpops_popped]

/-- C11, counterexample: a user entry with an empty body and a user entry
with two password fields are both accepted: on `odissey { users { "alice" { }
"bob" { password "x" password "y" } } }` the parser returns 0 without a
report and stores both users. -/
theorem od_configparse_loose_users_counterexample :
    (od_configparse (od_config_on od_example_loose_users 7 2)).map
      (fun r => (r.1, r.2.log, r.2.scheme.users)) =
      some (0, [], [{ user := some "alice", password := none },
                    { user := some "bob", password := some "y" }]) := by
  decide

/-- C11, amended: whenever `od_configparse` returns 0, the tokens it consumed
are the tokens of a sentence of the grammar in which a user entry is
`STRING '{' password* '}'` (any number of password fields, none included), and
the scheme is what that sentence denotes. -/
theorem od_configparse_accepts_sentence (config r : od_config_t)
    (h : od_configparse config = some (0, r)) :
    ∃ (c : od_sentence) (rest : List od_token_t),
      c.ok ∧ config.lex.toks = c.tokens ++ rest ∧
      r.lex = od_lexpops c.tokens.length config.lex ∧ r.lex.toks = rest ∧
      r.scheme = od_sentence.denote config.scheme c := by
  rcases od_configparse_inv config with ⟨r', k, hr, _, _⟩ | ⟨c, rest, hok, hmem, htoks⟩
  · rw [hr] at h
    simp at h
  · have hs := od_configparse_sentence config c rest hok hmem htoks
    rw [hs] at h
    simp only [Option.some.injEq, Prod.mk.injEq, true_and] at h
    subst h
    exact ⟨c, rest, hok, htoks, rfl, od_lexpops_toks_app _ _ _ _ htoks rfl, rfl⟩

/-- C11, witness: the end-to-end example of the specification, which returns
0. -/
theorem od_configparse_accepts_sentence_witness :
    od_configparse (od_config_on od_example_tokens 6 2) =
      some (0, { lex := od_lexpops 26 (od_config_on od_example_tokens 6 2).lex,
                 log := [],
                 scheme := od_sentence.denote (od_config_on od_example_tokens 6 2).scheme
                   od_example_sentence }) ∧
    ∃ (c : od_sentence) (rest : List od_token_t),
      c.ok ∧ (od_config_on od_example_tokens 6 2).lex.toks = c.tokens ++ rest ∧
      ({ lex := od_lexpops 26 (od_config_on od_example_tokens 6 2).lex,
         log := [],
         scheme := od_sentence.denote (od_config_on od_example_tokens 6 2).scheme
           od_example_sentence } : od_config_t).lex =
        od_lexpops c.tokens.length (od_config_on od_example_tokens 6 2).lex ∧
      ({ lex := od_lexpops 26 (od_config_on od_example_tokens 6 2).lex,
         log := [],
         scheme := od_sentence.denote (od_config_on od_example_tokens 6 2).scheme
           od_example_sentence } : od_config_t).lex.toks = rest ∧
      ({ lex := od_lexpops 26 (od_config_on od_example_tokens 6 2).lex,
         log := [],
         scheme := od_sentence.denote (od_config_on od_example_tokens 6 2).scheme
           od_example_sentence } : od_config_t).scheme =
        od_sentence.denote (od_config_on od_example_tokens 6 2).scheme c :=
  ⟨by decide,
   od_configparse_accepts_sentence (od_config_on od_example_tokens 6 2) _ (by decide)⟩

/-- C14: `od_configparse` stops at the closing brace of the top-level block.
When the parse of a token sequence `p` succeeds and consumes all of `p` (so `p`
ends in that closing brace), then for any two continuations `s1` and `s2` the
parses of `p ++ s1` and of `p ++ s2` both return 0, produce the same scheme
(the one of `p` alone), leave the log as it was, pop exactly the tokens of `p`
and leave the continuation unread. -/
theorem od_configparse_stops_at_close (config : od_config_t)
    (p s1 s2 : List od_token_t)
    (h : ∃ r, od_configparse (od_config_with config p) = some (0, r) ∧
      r.lex.popped = config.lex.popped + p.length) :
    ∃ r0 r1 r2,
      od_configparse (od_config_with config p) = some (0, r0) ∧
      od_configparse (od_config_with config (p ++ s1)) = some (0, r1) ∧
      od_configparse (od_config_with config (p ++ s2)) = some (0, r2) ∧
      r1.scheme = r2.scheme ∧ r1.scheme = r0.scheme ∧
      r1.log = config.log ∧ r2.log = config.log ∧
      r1.lex.toks = s1 ∧ r2.lex.toks = s2 ∧
      r1.lex.popped = config.lex.popped + p.length ∧
      r2.lex.popped = config.lex.popped + p.length := by
  obtain ⟨r, hr, hp⟩ := h
  rcases od_configparse_inv (od_config_with config p)
    with ⟨r', k, hr', _, _⟩ | ⟨c, rest, hok, hmem, htoks⟩
  · rw [hr'] at hr
    simp at hr
  · have htoks : p = c.tokens ++ rest := htoks
    have hs := od_configparse_sentence (od_config_with config p) c rest hok hmem htoks
    rw [hs] at hr
    simp only [Option.some.injEq, Prod.mk.injEq, true_and] at hr
    subst hr
    have hpop : (od_lexpops c.tokens.length (od_config_with config p).lex).popped =
        config.lex.popped + p.length := hp
    rw [od_lexpops_popped] at hpop
    have hlen := congrArg List.length htoks
    simp at hlen
    have hpl : c.tokens.length = p.length := by
      have : (od_config_with config p).lex.popped = config.lex.popped := rfl
      omega
    have hrest : rest = [] := List.length_eq_zero.mp (by omega)
    subst hrest
    simp only [List.append_nil] at htoks
    have hk : ∀ s, od_configparse (od_config_with config (p ++ s)) =
        some (0, { lex := od_lexpops c.tokens.length
                     (od_config_with config (p ++ s)).lex,
                   log := config.log,
                   scheme := od_sentence.denote config.scheme c }) := fun s =>
      od_configparse_sentence (od_config_with config (p ++ s)) c s hok hmem
        (by show p ++ s = c.tokens ++ s; rw [← htoks])
    have ht : ∀ s, (od_lexpops c.tokens.length
        (od_config_with config (p ++ s)).lex).toks = s := fun s =>
      od_lexpops_toks_app _ c.tokens s _ (by show p ++ s = c.tokens ++ s; rw [← htoks])
        rfl
    refine ⟨_, _, _, hs, hk s1, hk s2, rfl, rfl, rfl, rfl, ht s1, ht s2, ?_, ?_⟩
    · show (od_lexpops c.tokens.length (od_config_with config (p ++ s1)).lex).popped = _
      rw [od_lexpops_popped, hpl]; rfl
    · show (od_lexpops c.tokens.length (od_config_with config (p ++ s2)).lex).popped = _
      rw [od_lexpops_popped, hpl]; rfl

/-- C14, witness: the end-to-end example followed by an unknown keyword in one
run and by a stray closing brace and a string in the other. -/
theorem od_configparse_stops_at_close_witness :
    ∃ r0 r1 r2,
      od_configparse (od_config_with (od_config_on [] 6 2) od_example_tokens) =
        some (0, r0) ∧
      od_configparse (od_config_with (od_config_on [] 6 2)
        (od_example_tokens ++ [od_tok OD_LMODE 7])) = some (0, r1) ∧
      od_configparse (od_config_with (od_config_on [] 6 2)
        (od_example_tokens ++ [od_tok OD_RBRACE 7, od_tok_string "x" 8])) =
        some (0, r2) ∧
      r1.scheme = r2.scheme ∧ r1.scheme = r0.scheme ∧
      r1.log = (od_config_on [] 6 2).log ∧ r2.log = (od_config_on [] 6 2).log ∧
      r1.lex.toks = [od_tok OD_LMODE 7] ∧
      r2.lex.toks = [od_tok OD_RBRACE 7, od_tok_string "x" 8] ∧
      r1.lex.popped = (od_config_on [] 6 2).lex.popped + od_example_tokens.length ∧
      r2.lex.popped = (od_config_on [] 6 2).lex.popped + od_example_tokens.length :=
  od_configparse_stops_at_close (od_config_on [] 6 2) od_example_tokens
    [od_tok OD_LMODE 7] [od_tok OD_RBRACE 7, od_tok_string "x" 8]
    ⟨((od_configparse (od_config_with (od_config_on [] 6 2) od_example_tokens)).getD
        (0, od_config_on [] 6 2)).2, by decide, by decide⟩

/-- C18: fields of nested entries never leak into the global settings. With
fuel for the tokens at hand each of the three block parsers returns, and
whatever it returns: `od_configparse_server` leaves the scheme as it was but
for at most one entry appended to the Servers collection (so the global listen
host and port are unchanged); `od_configparse_route` leaves the scheme as it
was but for at most one entry appended to the Routes collection (so the
global client_max is unchanged); `od_configparse_listen` changes nothing
outside the seven global listen fields (so the Servers, Routes and Users
collections are unchanged). -/
theorem od_configparse_blocks_frame (fuel : Nat) (cfg : od_config_t)
    (name : Option od_token_t) (hfuel : cfg.lex.toks.length < fuel + 1) :
    (∃ rc r new, od_configparse_server fuel cfg = some (rc, r) ∧ new.length ≤ 1 ∧
      r.scheme = { cfg.scheme with servers := cfg.scheme.servers ++ new,
                                   mem := cfg.scheme.mem - new.length } ∧
      r.scheme.host = cfg.scheme.host ∧ r.scheme.port = cfg.scheme.port) ∧
    (∃ rc r new, od_configparse_route fuel cfg name = some (rc, r) ∧ new.length ≤ 1 ∧
      r.scheme = { cfg.scheme with routes := cfg.scheme.routes ++ new,
                                   mem := cfg.scheme.mem - new.length } ∧
      r.scheme.client_max = cfg.scheme.client_max) ∧
    (∃ rc r, od_configparse_listen fuel cfg = some (rc, r) ∧
      od_listen_frame r.scheme = od_listen_frame cfg.scheme ∧
      r.scheme.servers = cfg.scheme.servers ∧ r.scheme.routes = cfg.scheme.routes ∧
      r.scheme.users = cfg.scheme.users) := by
  refine ⟨?_, ?_, ?_⟩
  · rcases od_server_inv fuel cfg hfuel
      with ⟨r, k, hr, _, _, new, hn, hs⟩ | ⟨e, rest, hname, hok, hm, htoks⟩
    · exact ⟨-1, r, new, hr, hn, hs, by rw [hs], by rw [hs]⟩
    · exact ⟨0, _, [e.fields.foldl od_server_assign { name := some e.name.string }],
        od_server_block fuel cfg e rest hname hok hm htoks hfuel, by simp, rfl, rfl, rfl⟩
  · rcases od_route_inv fuel cfg name hfuel
      with ⟨r, k, hr, _, _, new, hn, hs⟩ | ⟨lb, fields, rb, rest, hl, hrb, hok, hm, htoks⟩
    · exact ⟨-1, r, new, hr, hn, hs, by rw [hs]⟩
    · exact ⟨0, _, [fields.foldl od_route_assign (od_route_init name)],
        od_route_block fuel cfg name lb fields rb rest hl hrb hok hm htoks hfuel,
        by simp, rfl, rfl⟩
  · have hframe : ∀ fields : List od_field,
        od_listen_frame (fields.foldl od_listen_assign cfg.scheme) =
          od_listen_frame cfg.scheme := fun fields =>
      od_foldl_preserve od_listen_frame od_listen_assign od_listen_frame_assign fields
        cfg.scheme
    have hcoll : ∀ s : od_scheme_t, od_listen_frame s = od_listen_frame cfg.scheme →
        s.servers = cfg.scheme.servers ∧ s.routes = cfg.scheme.routes ∧
        s.users = cfg.scheme.users := fun s h =>
      ⟨by have h1 := congrArg (fun x : od_scheme_t => x.servers) h; exact h1,
       by have h1 := congrArg (fun x : od_scheme_t => x.routes) h; exact h1,
       by have h1 := congrArg (fun x : od_scheme_t => x.users) h; exact h1⟩
    rcases od_listen_inv fuel cfg hfuel
      with ⟨r, k, hr, _, _, fields, hs⟩ | ⟨lb, fields, rb, rest, hl, hrb, hok, htoks⟩
    · have h := hframe fields
      rw [← hs] at h
      exact ⟨-1, r, hr, h, hcoll _ h⟩
    · exact ⟨0, _, od_listen_block fuel cfg lb fields rb rest hl hrb hok htoks hfuel,
        hframe fields, hcoll _ (hframe fields)⟩

/-- C18, witness: `"b" { host "h" }` parsed by `od_configparse_server` into a
scheme that already holds one server. -/
theorem od_configparse_blocks_frame_witness :
    (∃ rc r new,
      od_configparse_server 6
        (od_example_config_one_server
          [od_tok_string "b" 1, od_tok OD_LBRACE 1, od_tok OD_LHOST 2,
           od_tok_string "h" 2, od_tok OD_RBRACE 3]) = some (rc, r) ∧
      new.length ≤ 1 ∧
      r.scheme = { (od_example_config_one_server
          [od_tok_string "b" 1, od_tok OD_LBRACE 1, od_tok OD_LHOST 2,
           od_tok_string "h" 2, od_tok OD_RBRACE 3]).scheme with
        servers := (od_example_config_one_server
          [od_tok_string "b" 1, od_tok OD_LBRACE 1, od_tok OD_LHOST 2,
           od_tok_string "h" 2, od_tok OD_RBRACE 3]).scheme.servers ++ new,
        mem := (od_example_config_one_server
          [od_tok_string "b" 1, od_tok OD_LBRACE 1, od_tok OD_LHOST 2,
           od_tok_string "h" 2, od_tok OD_RBRACE 3]).scheme.mem - new.length } ∧
      r.scheme.host = (od_example_config_one_server
          [od_tok_string "b" 1, od_tok OD_LBRACE 1, od_tok OD_LHOST 2,
           od_tok_string "h" 2, od_tok OD_RBRACE 3]).scheme.host ∧
      r.scheme.port = (od_example_config_one_server
          [od_tok_string "b" 1, od_tok OD_LBRACE 1, od_tok OD_LHOST 2,
           od_tok_string "h" 2, od_tok OD_RBRACE 3]).scheme.port) ∧
    od_configparse_server 6
        (od_example_config_one_server
          [od_tok_string "b" 1, od_tok OD_LBRACE 1, od_tok OD_LHOST 2,
           od_tok_string "h" 2, od_tok OD_RBRACE 3]) =
      some (0, { lex := { toks := [], eof_line := 6, line := 3, error := "",
                          popped := 5 },
                 log := [],
                 scheme := { config_file := "odissey.conf",
                             servers := [{ name := some "old", host := none, port := 7 },
                                         { name := some "b", host := some "h", port := 0 }],
                             mem := 1 } }) :=
  ⟨(od_configparse_blocks_frame 6
      (od_example_config_one_server
        [od_tok_string "b" 1, od_tok OD_LBRACE 1, od_tok OD_LHOST 2,
         od_tok_string "h" 2, od_tok OD_RBRACE 3]) none (by decide)).1,
   by decide⟩

/-! ## Repeated fields: the last occurrence wins -/

theorem od_confignext_off (c : od_config_t) (id : od_tokenid)
    (hm : (od_lexpop c.lex).1.id ≠ id) :
    (od_confignext c id).1 = -1 ∧
    (od_confignext c id).2.2.lex = od_lexpops 1 c.lex ∧
    (od_confignext c id).2.2.scheme = c.scheme ∧
    ((od_lexpop c.lex).1.id ≠ OD_LERROR →
      (od_confignext c id).2.2.log = c.log ++
        [{ file := c.scheme.config_file, line := (od_lexpop c.lex).1.line,
           msg := od_expected_text id }]) := by
  obtain ⟨h1, h2, h3⟩ := od_confignext_fail c id hm
  refine ⟨h1, h3, h2, fun he => ?_⟩
  rw [od_confignext_mismatch c id he hm]
  simp [od_configerror, od_msg256_expected]

theorem od_read_value_off (vk : od_valuekind) (c : od_config_t)
    (h : ¬ vk.accepts (od_lexpop c.lex).1) :
    (od_read_value vk c).1 = -1 ∧
    (od_read_value vk c).2.lex = od_lexpops 1 c.lex ∧
    (od_read_value vk c).2.scheme = c.scheme ∧
    ((od_lexpop c.lex).1.id ≠ OD_LERROR →
      (od_read_value vk c).2.log = c.log ++
        [{ file := c.scheme.config_file, line := (od_lexpop c.lex).1.line,
           msg := od_value_text vk }]) := by
  cases vk with
  | string => exact od_confignext_off c OD_LSTRING h
  | number => exact od_confignext_off c OD_LNUMBER h
  | yes_no =>
    have hy : (od_lexpop c.lex).1.id ≠ OD_LYES := fun e => h (Or.inl e)
    have hn : (od_lexpop c.lex).1.id ≠ OD_LNO := fun e => h (Or.inr e)
    simp [od_read_value, od_confignext_yes_no, hy, hn, od_configerror, od_lexpops,
      od_value_text, od_msg256_yes_no]

set_option maxHeartbeats 1000000 in
theorem od_configparse_loop_read (fuel : Nat) (config : od_config_t)
    (kw : od_token_t) (rest : List od_token_t) (vk : od_valuekind)
    (htoks : config.lex.toks = kw :: rest)
    (hk : od_global_kind kw.id = some vk)
    (h : (od_read_value vk
      { lex := od_lexpops 1 config.lex, log := config.log,
        scheme := config.scheme }).1 = -1) :
    od_configparse_loop (fuel + 1) config =
      some (-1, (od_read_value vk
        { lex := od_lexpops 1 config.lex, log := config.log,
          scheme := config.scheme }).2) := by
  cases hkid : kw.id <;> simp [od_global_kind, hkid] at hk <;> subst hk <;>
    simp only [od_read_value] at h ⊢ <;>
    simp [od_configparse_loop, od_lexpop, od_lexpops, htoks, hkid] at h ⊢ <;>
    simp [h]

set_option maxHeartbeats 1000000 in
theorem od_configparse_listen_loop_read (fuel : Nat) (config : od_config_t)
    (kw : od_token_t) (rest : List od_token_t) (vk : od_valuekind)
    (htoks : config.lex.toks = kw :: rest)
    (hk : od_listen_kind kw.id = some vk)
    (h : (od_read_value vk
      { lex := od_lexpops 1 config.lex, log := config.log,
        scheme := config.scheme }).1 = -1) :
    od_configparse_listen_loop (fuel + 1) config =
      some (-1, (od_read_value vk
        { lex := od_lexpops 1 config.lex, log := config.log,
          scheme := config.scheme }).2) := by
  cases hkid : kw.id <;> simp [od_listen_kind, hkid] at hk <;> subst hk <;>
    simp only [od_read_value] at h ⊢ <;>
    simp [od_configparse_listen_loop, od_lexpop, od_lexpops, htoks, hkid] at h ⊢ <;>
    simp [h]

set_option maxHeartbeats 1000000 in
theorem od_configparse_server_loop_read (fuel : Nat) (config : od_config_t) (handle : Nat)
    (kw : od_token_t) (rest : List od_token_t) (vk : od_valuekind)
    (htoks : config.lex.toks = kw :: rest)
    (hk : od_server_kind kw.id = some vk)
    (h : (od_read_value vk
      { lex := od_lexpops 1 config.lex, log := config.log,
        scheme := config.scheme }).1 = -1) :
    od_configparse_server_loop (fuel + 1) config handle =
      some (-1, (od_read_value vk
        { lex := od_lexpops 1 config.lex, log := config.log,
          scheme := config.scheme }).2) := by
  cases hkid : kw.id <;> simp [od_server_kind, hkid] at hk <;> subst hk <;>
    simp only [od_read_value] at h ⊢ <;>
    simp [od_configparse_server_loop, od_lexpop, od_lexpops, htoks, hkid] at h ⊢ <;>
    simp [h]

set_option maxHeartbeats 1000000 in
theorem od_configparse_routing_loop_read (fuel : Nat) (config : od_config_t)
    (kw : od_token_t) (rest : List od_token_t) (vk : od_valuekind)
    (htoks : config.lex.toks = kw :: rest)
    (hk : od_mode_kind kw.id = some vk)
    (h : (od_read_value vk
      { lex := od_lexpops 1 config.lex, log := config.log,
        scheme := config.scheme }).1 = -1) :
    od_configparse_routing_loop (fuel + 1) config =
      some (-1, (od_read_value vk
        { lex := od_lexpops 1 config.lex, log := config.log,
          scheme := config.scheme }).2) := by
  cases hkid : kw.id <;> simp [od_mode_kind, hkid] at hk
  subst hk
  simp only [od_read_value] at h ⊢
  simp [od_configparse_routing_loop, od_lexpop, od_lexpops, htoks, hkid] at h ⊢
  simp [h]

set_option maxHeartbeats 1000000 in
theorem od_configparse_route_loop_read (fuel : Nat) (config : od_config_t) (handle : Nat)
    (kw : od_token_t) (rest : List od_token_t) (vk : od_valuekind)
    (htoks : config.lex.toks = kw :: rest)
    (hk : od_route_kind kw.id = some vk)
    (h : (od_read_value vk
      { lex := od_lexpops 1 config.lex, log := config.log,
        scheme := config.scheme }).1 = -1) :
    od_configparse_route_loop (fuel + 1) config handle =
      some (-1, (od_read_value vk
        { lex := od_lexpops 1 config.lex, log := config.log,
          scheme := config.scheme }).2) := by
  cases hkid : kw.id <;> simp [od_route_kind, hkid] at hk <;> subst hk <;>
    simp only [od_read_value] at h ⊢ <;>
    simp [od_configparse_route_loop, od_lexpop, od_lexpops, htoks, hkid] at h ⊢ <;>
    simp [h]

set_option maxHeartbeats 1000000 in
theorem od_configparse_user_loop_read (fuel : Nat) (config : od_config_t) (handle : Nat)
    (kw : od_token_t) (rest : List od_token_t) (vk : od_valuekind)
    (htoks : config.lex.toks = kw :: rest)
    (hk : od_user_kind kw.id = some vk)
    (h : (od_read_value vk
      { lex := od_lexpops 1 config.lex, log := config.log,
        scheme := config.scheme }).1 = -1) :
    od_configparse_user_loop (fuel + 1) config handle =
      some (-1, (od_read_value vk
        { lex := od_lexpops 1 config.lex, log := config.log,
          scheme := config.scheme }).2) := by
  cases hkid : kw.id <;> simp [od_user_kind, hkid] at hk
  subst hk
  simp only [od_read_value] at h ⊢
  simp [od_configparse_user_loop, od_lexpop, od_lexpops, htoks, hkid] at h ⊢
  simp [h]

theorem od_loop_open_block (fuel : Nat) (config : od_config_t)
    (kw : od_token_t) (rest : List od_token_t)
    (htoks : config.lex.toks = kw :: rest)
    (hkw : kw.id = OD_LLISTEN ∨ kw.id = OD_LROUTING ∨ kw.id = OD_LUSERS)
    (h : (od_confignext
      { lex := od_lexpops 1 config.lex, log := config.log,
        scheme := config.scheme } OD_LBRACE).1 = -1) :
    od_configparse_loop (fuel + 1) config =
      some (-1, (od_confignext
        { lex := od_lexpops 1 config.lex, log := config.log,
          scheme := config.scheme } OD_LBRACE).2.2) := by
  rcases hkw with hk | hk | hk
  · rw [od_loop_listen fuel config kw rest htoks hk]
    unfold od_configparse_listen
    dsimp only
    rw [if_pos h]
    rfl
  · rw [od_loop_routing fuel config kw rest htoks hk]
    unfold od_configparse_routing
    dsimp only
    rw [if_pos h]
    rfl
  · rw [od_loop_users fuel config kw rest htoks hk]
    unfold od_configparse_users
    dsimp only
    rw [if_pos h]
    rfl

theorem od_loop_open_server (fuel : Nat) (config : od_config_t)
    (kw : od_token_t) (rest : List od_token_t)
    (htoks : config.lex.toks = kw :: rest)
    (hkw : kw.id = OD_LSERVER) (hmem : ¬ config.scheme.mem = 0)
    (h : (od_confignext
      { lex := od_lexpops 1 config.lex, log := config.log,
        scheme := { config.scheme with
          servers := config.scheme.servers ++ [{}],
          mem := config.scheme.mem - 1 } } OD_LSTRING).1 = -1) :
    od_configparse_loop (fuel + 1) config =
      some (-1, (od_confignext
        { lex := od_lexpops 1 config.lex, log := config.log,
          scheme := { config.scheme with
            servers := config.scheme.servers ++ [{}],
            mem := config.scheme.mem - 1 } } OD_LSTRING).2.2) := by
  rw [od_loop_server fuel config kw rest htoks hkw]
  unfold od_configparse_server od_schemeserver_add
  dsimp only
  rw [if_neg hmem]
  dsimp only
  rw [if_pos h]
  rfl

theorem od_server_named_scheme (s : od_scheme_t) (name : String) :
    od_scheme_t.server_set
        { s with servers := s.servers ++ [{}], mem := s.mem - 1 }
        s.servers.length (fun e => { e with name := some name }) =
      { s with servers := s.servers ++ [{ name := some name }], mem := s.mem - 1 } := by
  simp [od_scheme_t.server_set, od_entry_update_last]

theorem od_loop_open_server_named (fuel : Nat) (config : od_config_t)
    (kw name : od_token_t) (rest : List od_token_t)
    (htoks : config.lex.toks = kw :: name :: rest)
    (hkw : kw.id = OD_LSERVER) (hn : name.id = OD_LSTRING)
    (hmem : ¬ config.scheme.mem = 0)
    (h : (od_confignext
      { lex := od_lexpops 2 config.lex, log := config.log,
        scheme := { config.scheme with
          servers := config.scheme.servers ++ [{ name := some name.string }],
          mem := config.scheme.mem - 1 } } OD_LBRACE).1 = -1) :
    od_configparse_loop (fuel + 1) config =
      some (-1, (od_confignext
        { lex := od_lexpops 2 config.lex, log := config.log,
          scheme := { config.scheme with
            servers := config.scheme.servers ++ [{ name := some name.string }],
            mem := config.scheme.mem - 1 } } OD_LBRACE).2.2) := by
  rw [od_loop_server fuel config kw (name :: rest) htoks hkw]
  unfold od_configparse_server od_schemeserver_add
  dsimp only
  rw [if_neg hmem]
  dsimp only
  rw [od_confignext_ok _ OD_LSTRING name rest ?h1 hn (by simp)]
  case h1 => exact od_lexpops_toks_app _ [kw] _ 1 htoks rfl
  dsimp only [Option.getD]
  rw [if_neg (by decide), od_server_named_scheme]
  have hl : od_lexpops 1 (od_lexpops 1 config.lex) = od_lexpops 2 config.lex := rfl
  rw [hl, if_pos h]
  rfl

theorem od_routing_loop_open (fuel : Nat) (config : od_config_t)
    (kw : od_token_t) (rest : List od_token_t)
    (htoks : config.lex.toks = kw :: rest)
    (hkw : kw.id = OD_LSTRING ∨ kw.id = OD_LDEFAULT)
    (hmem : ¬ config.scheme.mem = 0)
    (h : (od_confignext
      { lex := od_lexpops 1 config.lex, log := config.log,
        scheme := { config.scheme with
          routes := config.scheme.routes ++ [od_route_start kw],
          mem := config.scheme.mem - 1 } } OD_LBRACE).1 = -1) :
    od_configparse_routing_loop (fuel + 1) config =
      some (-1, (od_confignext
        { lex := od_lexpops 1 config.lex, log := config.log,
          scheme := { config.scheme with
            routes := config.scheme.routes ++ [od_route_start kw],
            mem := config.scheme.mem - 1 } } OD_LBRACE).2.2) := by
  rcases hkw with hk | hk
  · rw [od_route_start_string kw hk] at h ⊢
    rw [od_routing_loop_string fuel config kw rest htoks hk,
      od_route_prologue fuel
        { lex := od_lexpops 1 config.lex, log := config.log, scheme := config.scheme }
        (some kw) hmem]
    dsimp only
    rw [if_pos h]
    rfl
  · rw [od_route_start_default kw hk] at h ⊢
    rw [od_routing_loop_default fuel config kw rest htoks hk,
      od_route_prologue fuel
        { lex := od_lexpops 1 config.lex, log := config.log, scheme := config.scheme }
        none hmem]
    dsimp only
    rw [if_pos h]
    rfl

theorem od_users_loop_open (fuel : Nat) (config : od_config_t)
    (kw : od_token_t) (rest : List od_token_t)
    (htoks : config.lex.toks = kw :: rest)
    (hkw : kw.id = OD_LSTRING)
    (hmem : ¬ config.scheme.mem = 0)
    (h : (od_confignext
      { lex := od_lexpops 1 config.lex, log := config.log,
        scheme := { config.scheme with
          users := config.scheme.users ++ [{ user := some kw.string }],
          mem := config.scheme.mem - 1 } } OD_LBRACE).1 = -1) :
    od_configparse_users_loop (fuel + 1) config =
      some (-1, (od_confignext
        { lex := od_lexpops 1 config.lex, log := config.log,
          scheme := { config.scheme with
            users := config.scheme.users ++ [{ user := some kw.string }],
            mem := config.scheme.mem - 1 } } OD_LBRACE).2.2) := by
  rw [od_users_loop_string fuel config kw rest htoks hkw,
    od_user_prologue fuel
      { lex := od_lexpops 1 config.lex, log := config.log, scheme := config.scheme }
      kw hmem]
  dsimp only
  rw [if_pos h]
  rfl

theorem od_run_started (b : od_open_block) (fuel : Nat) (cfg : od_config_t)
    (ts rest : List od_token_t) (a : od_awaited)
    (htoks : cfg.lex.toks = ts ++ rest) (ha : b.awaits ts = some a)
    (hmem : b.pending_need ts ≤ cfg.scheme.mem)
    (hoff : ¬ a.accepts (od_lexpop (od_lexpops ts.length cfg.lex)).1) :
    ∃ r, b.run (fuel + 1) cfg = some (-1, r) ∧
      r.lex = od_lexpops (ts.length + 1) cfg.lex ∧
      r.scheme = b.started ts cfg.scheme ∧
      ((od_lexpop (od_lexpops ts.length cfg.lex)).1.id ≠ OD_LERROR →
        r.log = cfg.log ++
          [{ file := cfg.scheme.config_file,
             line := (od_lexpop (od_lexpops ts.length cfg.lex)).1.line,
             msg := a.text }]) := by
  cases b with
  | top =>
    rcases ts with _ | ⟨kw, _ | ⟨name, _ | ⟨x, ts⟩⟩⟩
    · simp [od_open_block.awaits] at ha
    · cases hk : od_global_kind kw.id with
      | some vk =>
        simp [od_open_block.awaits, hk] at ha
        subst ha
        have hns : kw.id ≠ OD_LSERVER := by
          intro h; rw [h] at hk; simp [od_global_kind] at hk
        obtain ⟨h1, h2, h3, h4⟩ := od_read_value_off vk
          { lex := od_lexpops 1 cfg.lex, log := cfg.log, scheme := cfg.scheme } hoff
        refine ⟨_, od_configparse_loop_read fuel cfg kw rest vk htoks hk h1, h2, ?_, h4⟩
        rw [h3]
        simp [od_open_block.started, hns]
      | none =>
        by_cases hs : kw.id = OD_LSERVER
        · simp only [od_open_block.awaits, hk] at ha
          simp [hs] at ha
          subst ha
          have hm : ¬ cfg.scheme.mem = 0 := by
            simp [od_open_block.pending_need, hs] at hmem; omega
          obtain ⟨h1, h2, h3, h4⟩ := od_confignext_off
            { lex := od_lexpops 1 cfg.lex, log := cfg.log,
              scheme := { cfg.scheme with
                servers := cfg.scheme.servers ++ [{}],
                mem := cfg.scheme.mem - 1 } } OD_LSTRING hoff
          refine ⟨_, od_loop_open_server fuel cfg kw rest htoks hs hm h1, h2, ?_, h4⟩
          rw [h3]
          simp [od_open_block.started, hs]
        · simp only [od_open_block.awaits, hk, hs, if_false] at ha
          split at ha
          · rename_i hb
            simp at ha
            subst ha
            obtain ⟨h1, h2, h3, h4⟩ := od_confignext_off
              { lex := od_lexpops 1 cfg.lex, log := cfg.log, scheme := cfg.scheme }
              OD_LBRACE hoff
            refine ⟨_, od_loop_open_block fuel cfg kw rest htoks hb h1, h2, ?_, h4⟩
            rw [h3]
            simp [od_open_block.started, hs]
          · simp at ha
    · simp only [od_open_block.awaits] at ha
      split at ha
      · rename_i hb
        simp at ha
        subst ha
        have hm : ¬ cfg.scheme.mem = 0 := by
          simp [od_open_block.pending_need] at hmem; omega
        obtain ⟨h1, h2, h3, h4⟩ := od_confignext_off
          { lex := od_lexpops 2 cfg.lex, log := cfg.log,
            scheme := { cfg.scheme with
              servers := cfg.scheme.servers ++ [{ name := some name.string }],
              mem := cfg.scheme.mem - 1 } } OD_LBRACE hoff
        exact ⟨_, od_loop_open_server_named fuel cfg kw name rest htoks hb.1 hb.2 hm h1,
          h2, h3, h4⟩
      · simp at ha
    · simp [od_open_block.awaits] at ha
  | listen kw0 lb0 fs0 =>
    rcases ts with _ | ⟨kw, _ | ⟨x, ts⟩⟩ <;> simp [od_open_block.awaits] at ha
    obtain ⟨vk, hk, rfl⟩ := ha
    obtain ⟨h1, h2, h3, h4⟩ := od_read_value_off vk
      { lex := od_lexpops 1 cfg.lex, log := cfg.log, scheme := cfg.scheme } hoff
    exact ⟨_, od_configparse_listen_loop_read fuel cfg kw rest vk htoks hk h1, h2, h3, h4⟩
  | server kw0 n0 lb0 fs0 =>
    rcases ts with _ | ⟨kw, _ | ⟨x, ts⟩⟩ <;> simp [od_open_block.awaits] at ha
    obtain ⟨vk, hk, rfl⟩ := ha
    obtain ⟨h1, h2, h3, h4⟩ := od_read_value_off vk
      { lex := od_lexpops 1 cfg.lex, log := cfg.log, scheme := cfg.scheme } hoff
    exact ⟨_, od_configparse_server_loop_read fuel cfg _ kw rest vk htoks hk h1,
      h2, h3, h4⟩
  | routing kw0 lb0 items0 =>
    rcases ts with _ | ⟨kw, _ | ⟨x, ts⟩⟩
    · simp [od_open_block.awaits] at ha
    · cases hk : od_mode_kind kw.id with
      | some vk =>
        simp [od_open_block.awaits, hk] at ha
        subst ha
        have hns : ¬ (kw.id = OD_LSTRING ∨ kw.id = OD_LDEFAULT) := by
          rintro (h | h) <;> rw [h] at hk <;> simp [od_mode_kind] at hk
        obtain ⟨h1, h2, h3, h4⟩ := od_read_value_off vk
          { lex := od_lexpops 1 cfg.lex, log := cfg.log, scheme := cfg.scheme } hoff
        refine ⟨_, od_configparse_routing_loop_read fuel cfg kw rest vk htoks hk h1, h2,
          ?_, h4⟩
        rw [h3]
        simp only [od_open_block.started, if_neg hns]
      | none =>
        simp only [od_open_block.awaits, hk] at ha
        split at ha
        · rename_i hb
          simp at ha
          subst ha
          have hm : ¬ cfg.scheme.mem = 0 := by
            simp only [od_open_block.pending_need, if_pos hb] at hmem; omega
          obtain ⟨h1, h2, h3, h4⟩ := od_confignext_off
            { lex := od_lexpops 1 cfg.lex, log := cfg.log,
              scheme := { cfg.scheme with
                routes := cfg.scheme.routes ++ [od_route_start kw],
                mem := cfg.scheme.mem - 1 } } OD_LBRACE hoff
          refine ⟨_, od_routing_loop_open fuel cfg kw rest htoks hb hm h1, h2, ?_, h4⟩
          rw [h3]
          simp only [od_open_block.started, if_pos hb]
        · simp at ha
    · simp [od_open_block.awaits] at ha
  | route kw0 lb0 items0 n0 lb1 fs0 =>
    rcases ts with _ | ⟨kw, _ | ⟨x, ts⟩⟩ <;> simp [od_open_block.awaits] at ha
    obtain ⟨vk, hk, rfl⟩ := ha
    obtain ⟨h1, h2, h3, h4⟩ := od_read_value_off vk
      { lex := od_lexpops 1 cfg.lex, log := cfg.log, scheme := cfg.scheme } hoff
    exact ⟨_, od_configparse_route_loop_read fuel cfg _ kw rest vk htoks hk h1,
      h2, h3, h4⟩
  | users kw0 lb0 es0 =>
    rcases ts with _ | ⟨kw, _ | ⟨x, ts⟩⟩ <;> simp [od_open_block.awaits] at ha
    obtain ⟨hb, rfl⟩ := ha
    have hm : ¬ cfg.scheme.mem = 0 := by
      simp [od_open_block.pending_need] at hmem; omega
    obtain ⟨h1, h2, h3, h4⟩ := od_confignext_off
      { lex := od_lexpops 1 cfg.lex, log := cfg.log,
        scheme := { cfg.scheme with
          users := cfg.scheme.users ++ [{ user := some kw.string }],
          mem := cfg.scheme.mem - 1 } } OD_LBRACE hoff
    exact ⟨_, od_users_loop_open fuel cfg kw rest htoks hb hm h1, h2, h3, h4⟩
  | user kw0 lb0 es0 n0 lb1 fs0 =>
    rcases ts with _ | ⟨kw, _ | ⟨x, ts⟩⟩ <;> simp [od_open_block.awaits] at ha
    obtain ⟨vk, hk, rfl⟩ := ha
    obtain ⟨h1, h2, h3, h4⟩ := od_read_value_off vk
      { lex := od_lexpops 1 cfg.lex, log := cfg.log, scheme := cfg.scheme } hoff
    exact ⟨_, od_configparse_user_loop_read fuel cfg _ kw rest vk htoks hk h1,
      h2, h3, h4⟩

theorem od_position_started (config : od_config_t) (p : od_position)
    (ts rest : List od_token_t) (a : od_awaited)
    (hok : p.ok) (hmem : p.need + p.block.pending_need ts ≤ config.scheme.mem)
    (htoks : config.lex.toks = p.tokens ++ ts ++ rest)
    (ha : p.block.awaits ts = some a)
    (hoff : ¬ a.accepts
      (od_lexpop (od_lexpops (p.tokens.length + ts.length) config.lex)).1) :
    ∃ r, od_configparse config = some (-1, r) ∧
      r.lex = od_lexpops (p.tokens.length + ts.length + 1) config.lex ∧
      r.scheme = p.block.started ts (p.scheme config.scheme) ∧
      ((od_lexpop (od_lexpops (p.tokens.length + ts.length) config.lex)).1.id ≠
          OD_LERROR →
        r.log = config.log ++
          [{ file := config.scheme.config_file,
             line := (od_lexpop
               (od_lexpops (p.tokens.length + ts.length) config.lex)).1.line,
             msg := a.text }]) := by
  have htoks2 : config.lex.toks = p.tokens ++ (ts ++ rest) := by
    rw [htoks, List.append_assoc]
  obtain ⟨fuel, hfuel, h⟩ := od_position_reach config p (ts ++ rest) hok (by omega) htoks2
  have hts : ts ≠ [] := by
    rintro rfl
    cases hb : p.block <;> rw [hb] at ha <;> simp [od_open_block.awaits] at ha
  obtain ⟨k, rfl⟩ : ∃ k, fuel = k + 1 :=
    ⟨fuel - 1, by
      have : 0 < ts.length := List.length_pos.mpr hts
      simp at hfuel
      omega⟩
  have ht : (p.config config).lex.toks = ts ++ rest :=
    od_lexpops_toks_app _ _ _ _ htoks2 rfl
  have hm : p.block.pending_need ts ≤ (p.config config).scheme.mem := by
    show _ ≤ (p.scheme config.scheme).mem
    rw [od_position_scheme_mem]
    omega
  rw [od_lexpops_add] at hoff
  obtain ⟨r, hr, hl, hs, hlog⟩ :=
    od_run_started p.block k (p.config config) ts rest a ht ha hm hoff
  refine ⟨r, h r hr, ?_, hs, ?_⟩
  · rw [hl, Nat.add_assoc, od_lexpops_add p.tokens.length]
    rfl
  · intro he
    rw [od_lexpops_add] at he ⊢
    rw [hlog he]
    show config.log ++ [{ file := (p.scheme config.scheme).config_file, line := _,
                          msg := _ }] = _
    rw [od_position_scheme_config_file]
    rfl

/-- C2, amended: a token stream that follows the grammar up to its end and
ends inside an open block (top level, listen, server, routing, route, users
or user) makes `od_configparse` fail with exactly one report, at the line of
the end-of-input token. When the input ends where the block expects a field
keyword or its closing brace, the end-of-input token is popped by the block's
dispatch and the message is "unexpected end of config file"; when it ends
inside a construct of the block (after a field keyword, a block keyword, an
entry name or the `server` keyword) the report is the one of `od_confignext`
or `od_confignext_yes_no` for the awaited token: "expected yes/no" for the
value of a yes/no field, "expected 'string'" or "expected 'number'" for any
other value, "expected 'string'" for the name of a server and "expected"
with the quoted opening brace for the brace of a block. The scheme store must
be able to allocate the entries read so far, the one of the started construct
included. -/
theorem od_configparse_eof_in_block :
    (∀ (config : od_config_t) (p : od_position),
      p.ok → p.need ≤ config.scheme.mem →
      config.lex.toks = p.tokens →
      ∃ r, od_configparse config = some (-1, r) ∧
        r.log = config.log ++
          [{ file := config.scheme.config_file,
             line := (od_lexpop (od_lexpops p.tokens.length config.lex)).1.line,
             msg := "unexpected end of config file" }] ∧
        (od_lexpop (od_lexpops p.tokens.length config.lex)).1 =
          { id := OD_LEOF, line := config.lex.eof_line }) ∧
    (∀ (config : od_config_t) (p : od_position) (ts : List od_token_t)
      (a : od_awaited),
      p.ok → p.need + p.block.pending_need ts ≤ config.scheme.mem →
      config.lex.toks = p.tokens ++ ts →
      p.block.awaits ts = some a →
      ∃ r, od_configparse config = some (-1, r) ∧
        r.log = config.log ++
          [{ file := config.scheme.config_file, line := config.lex.eof_line,
             msg := a.text }] ∧
        a.text =
          (match a with
           | od_awaited.value od_valuekind.yes_no => "expected yes/no"
           | od_awaited.value od_valuekind.string => "expected 'string'"
           | od_awaited.value od_valuekind.number => "expected 'number'"
           | od_awaited.name => "expected 'string'"
           | od_awaited.brace => "expected '\x7b'") ∧
        a.text ≠ "unexpected end of config file") := by
  constructor
  · intro config p hok hmem htoks
    have ht : (od_lexpops p.tokens.length config.lex).toks = [] :=
      od_lexpops_toks_app _ _ _ _ (by simpa using htoks) rfl
    have hpop : (od_lexpop (od_lexpops p.tokens.length config.lex)).1 =
        { id := OD_LEOF, line := config.lex.eof_line } := by
      simp [od_lexpop, ht, od_lexpops_eof_line]
    refine ⟨_, od_position_eof config p hok hmem htoks, ?_, hpop⟩
    rw [hpop]
    simp [od_configerror, od_msg256_eof, od_position_scheme_config_file]
  · intro config p ts a hok hmem htoks ha
    have ht : (od_lexpops (p.tokens.length + ts.length) config.lex).toks = [] :=
      od_lexpops_toks_app _ (p.tokens ++ ts) [] _ (by simpa using htoks) (by simp)
    have hpop : (od_lexpop (od_lexpops (p.tokens.length + ts.length) config.lex)).1 =
        { id := OD_LEOF, line := config.lex.eof_line } := by
      simp [od_lexpop, ht, od_lexpops_eof_line]
    have hoff : ¬ a.accepts
        (od_lexpop (od_lexpops (p.tokens.length + ts.length) config.lex)).1 := by
      rw [hpop]
      cases a with
      | value vk => cases vk <;> simp [od_awaited.accepts, od_valuekind.accepts]
      | brace => simp [od_awaited.accepts, OD_LBRACE]
      | name => simp [od_awaited.accepts]
    obtain ⟨r, hr, _, _, hlog⟩ := od_position_started config p ts [] a hok hmem
      (by simpa using htoks) ha hoff
    rw [hpop] at hlog
    refine ⟨r, hr, hlog (by simp), ?_, ?_⟩
    · cases a with
      | value vk => cases vk <;> decide
      | brace => decide
      | name => decide
    · cases a with
      | value vk => cases vk <;> decide
      | brace => decide
      | name => decide

/-- C2, witness: the input ends inside a route block, after
`odissey { routing { "db" { pool_min 1`, on line 9; and the input ends after
`odissey { daemonize`, on line 3, in a scheme that can allocate nothing. -/
theorem od_configparse_eof_in_block_witness :
    (∃ r, od_configparse
        (od_config_on od_example_route_position.tokens 9 1) = some (-1, r) ∧
      r.log = [] ++
        [{ file := "odissey.conf",
           line := (od_lexpop (od_lexpops od_example_route_position.tokens.length
             (od_config_on od_example_route_position.tokens 9 1).lex)).1.line,
           msg := "unexpected end of config file" }] ∧
      (od_lexpop (od_lexpops od_example_route_position.tokens.length
          (od_config_on od_example_route_position.tokens 9 1).lex)).1 =
        { id := OD_LEOF, line := 9 }) ∧
    (∃ r, od_configparse
        (od_config_on
          [od_tok OD_LODISSEY 1, od_tok OD_LBRACE 1, od_tok OD_LDAEMONIZE 2] 3 0) =
          some (-1, r) ∧
      r.log = [] ++
        [{ file := "odissey.conf", line := 3, msg := "expected yes/no" }]) :=
  ⟨od_configparse_eof_in_block.1 (od_config_on od_example_route_position.tokens 9 1)
    od_example_route_position
    (by simp [od_position.ok, od_example_route_position, od_open_block.ok,
          od_field.ok, od_route_kind, od_tok, od_tok_string, od_tok_number,
          OD_LBRACE])
    (by decide) rfl,
   (od_configparse_eof_in_block.2
      (od_config_on
        [od_tok OD_LODISSEY 1, od_tok OD_LBRACE 1, od_tok OD_LDAEMONIZE 2] 3 0)
      { root := od_tok OD_LODISSEY 1, lbrace := od_tok OD_LBRACE 1, stmts := [],
        block := od_open_block.top }
      [od_tok OD_LDAEMONIZE 2] (od_awaited.value od_valuekind.yes_no)
      (by simp [od_position.ok, od_open_block.ok, od_tok, OD_LBRACE])
      (by decide) rfl (by decide)).imp (fun _ h => ⟨h.1, h.2.1⟩)⟩

theorem od_configparse_loop_eof_token (fuel : Nat) (config : od_config_t)
    (t : od_token_t) (rest : List od_token_t)
    (htoks : config.lex.toks = t :: rest) (hid : t.id = OD_LEOF) :
    ∃ r, od_configparse_loop (fuel + 1) config = some (-1, r) ∧
      r.lex = od_lexpops 1 config.lex ∧ r.scheme = config.scheme := by
  simp [od_configparse_loop, od_lexpop, od_lexpops, htoks, hid, od_configerror]

theorem od_configparse_listen_loop_eof_token (fuel : Nat) (config : od_config_t)
    (t : od_token_t) (rest : List od_token_t)
    (htoks : config.lex.toks = t :: rest) (hid : t.id = OD_LEOF) :
    ∃ r, od_configparse_listen_loop (fuel + 1) config = some (-1, r) ∧
      r.lex = od_lexpops 1 config.lex ∧ r.scheme = config.scheme := by
  simp [od_configparse_listen_loop, od_lexpop, od_lexpops, htoks, hid, od_configerror]

theorem od_configparse_server_loop_eof_token (fuel : Nat) (config : od_config_t) (handle : Nat)
    (t : od_token_t) (rest : List od_token_t)
    (htoks : config.lex.toks = t :: rest) (hid : t.id = OD_LEOF) :
    ∃ r, od_configparse_server_loop (fuel + 1) config handle = some (-1, r) ∧
      r.lex = od_lexpops 1 config.lex ∧ r.scheme = config.scheme := by
  simp [od_configparse_server_loop, od_lexpop, od_lexpops, htoks, hid, od_configerror]

theorem od_configparse_routing_loop_eof_token (fuel : Nat) (config : od_config_t)
    (t : od_token_t) (rest : List od_token_t)
    (htoks : config.lex.toks = t :: rest) (hid : t.id = OD_LEOF) :
    ∃ r, od_configparse_routing_loop (fuel + 1) config = some (-1, r) ∧
      r.lex = od_lexpops 1 config.lex ∧ r.scheme = config.scheme := by
  simp [od_configparse_routing_loop, od_lexpop, od_lexpops, htoks, hid, od_configerror]

theorem od_configparse_route_loop_eof_token (fuel : Nat) (config : od_config_t) (handle : Nat)
    (t : od_token_t) (rest : List od_token_t)
    (htoks : config.lex.toks = t :: rest) (hid : t.id = OD_LEOF) :
    ∃ r, od_configparse_route_loop (fuel + 1) config handle = some (-1, r) ∧
      r.lex = od_lexpops 1 config.lex ∧ r.scheme = config.scheme := by
  simp [od_configparse_route_loop, od_lexpop, od_lexpops, htoks, hid, od_configerror]

theorem od_configparse_users_loop_eof_token (fuel : Nat) (config : od_config_t)
    (t : od_token_t) (rest : List od_token_t)
    (htoks : config.lex.toks = t :: rest) (hid : t.id = OD_LEOF) :
    ∃ r, od_configparse_users_loop (fuel + 1) config = some (-1, r) ∧
      r.lex = od_lexpops 1 config.lex ∧ r.scheme = config.scheme := by
  simp [od_configparse_users_loop, od_lexpop, od_lexpops, htoks, hid, od_configerror]

theorem od_configparse_user_loop_eof_token (fuel : Nat) (config : od_config_t) (handle : Nat)
    (t : od_token_t) (rest : List od_token_t)
    (htoks : config.lex.toks = t :: rest) (hid : t.id = OD_LEOF) :
    ∃ r, od_configparse_user_loop (fuel + 1) config handle = some (-1, r) ∧
      r.lex = od_lexpops 1 config.lex ∧ r.scheme = config.scheme := by
  simp [od_configparse_user_loop, od_lexpop, od_lexpops, htoks, hid, od_configerror]

theorem od_position_dispatch (config : od_config_t) (p : od_position)
    (rest : List od_token_t)
    (hok : p.ok) (hmem : p.need ≤ config.scheme.mem)
    (htoks : config.lex.toks = p.tokens ++ rest)
    (hoff : (od_lexpop (od_lexpops p.tokens.length config.lex)).1.id = OD_LEOF ∨
      (od_lexpop (od_lexpops p.tokens.length config.lex)).1.id ∉ p.block.labels) :
    ∃ r, od_configparse config = some (-1, r) ∧
      r.lex = od_lexpops (p.tokens.length + 1) config.lex ∧
      r.scheme = p.scheme config.scheme := by
  rcases rest with _ | ⟨t, rest1⟩
  · exact ⟨_, od_position_eof config p hok hmem (by simpa using htoks), rfl, rfl⟩
  · have ht : (od_lexpops p.tokens.length config.lex).toks = t :: rest1 :=
      od_lexpops_toks_app _ _ _ _ htoks rfl
    have hpop : (od_lexpop (od_lexpops p.tokens.length config.lex)).1 = t :=
      od_lexpop_cons _ t rest1 ht
    rw [hpop] at hoff
    by_cases hl : t.id ∈ p.block.labels
    · have hid : t.id = OD_LEOF := hoff.resolve_right (fun h => h hl)
      obtain ⟨fuel, hfuel, h⟩ := od_position_reach config p (t :: rest1) hok hmem htoks
      obtain ⟨k, rfl⟩ : ∃ k, fuel = k + 1 := ⟨fuel - 1, by simp at hfuel; omega⟩
      have ht2 : (p.config config).lex.toks = t :: rest1 := ht
      have hrun : ∃ r, p.block.run (k + 1) (p.config config) = some (-1, r) ∧
          r.lex = od_lexpops 1 (p.config config).lex ∧
          r.scheme = (p.config config).scheme := by
        cases hb : p.block <;> simp only [od_open_block.run]
        · exact od_configparse_loop_eof_token k _ t rest1 ht2 hid
        · exact od_configparse_listen_loop_eof_token k _ t rest1 ht2 hid
        · exact od_configparse_server_loop_eof_token k _ _ t rest1 ht2 hid
        · exact od_configparse_routing_loop_eof_token k _ t rest1 ht2 hid
        · exact od_configparse_route_loop_eof_token k _ _ t rest1 ht2 hid
        · exact od_configparse_users_loop_eof_token k _ t rest1 ht2 hid
        · exact od_configparse_user_loop_eof_token k _ _ t rest1 ht2 hid
      obtain ⟨r, hr, hlx, hs⟩ := hrun
      refine ⟨r, h r hr, ?_, hs⟩
      rw [hlx, od_lexpops_add]
      rfl
    · exact ⟨_, od_position_unknown config p t rest1 hok hmem htoks hl, rfl, rfl⟩

/-- C16: there is no rollback. At a position reached by well-formed statements
(complete top-level statements, then the part read of the statement that is
open), followed by the tokens `pend` of a construct that has been started
there (none, a field keyword, a block keyword, an entry name, `server` with or
without its name) and then by an offending token, `od_configparse` returns -1.
The offending token is the next token popped (the end-of-input token when the
input has ended): where the open block dispatches, end of input or an unknown
option; after a started construct, any token that is not the awaited value,
name or opening brace. It is the last token popped, and the scheme is the
scheme the same complete statements give when followed by the closing brace,
plus what the open statement has written so far and the entry that the
started construct has already added. -/
theorem od_configparse_no_rollback (config : od_config_t) (p : od_position)
    (pend rest : List od_token_t) (rb : od_token_t)
    (hok : p.ok) (hmem : p.need + p.block.pending_need pend ≤ config.scheme.mem)
    (htoks : config.lex.toks = p.tokens ++ pend ++ rest)
    (hrb : rb.id = OD_RBRACE)
    (hoff :
      (pend = [] ∧
        ((od_lexpop (od_lexpops (p.tokens.length + pend.length) config.lex)).1.id =
            OD_LEOF ∨
         (od_lexpop (od_lexpops (p.tokens.length + pend.length) config.lex)).1.id ∉
            p.block.labels)) ∨
      (∃ a, p.block.awaits pend = some a ∧
        ¬ a.accepts
          (od_lexpop (od_lexpops (p.tokens.length + pend.length) config.lex)).1)) :
    ∃ r good,
      od_configparse config = some (-1, r) ∧
      r.lex = od_lexpops (p.tokens.length + pend.length + 1) config.lex ∧
      r.lex.popped = config.lex.popped + p.tokens.length + pend.length + 1 ∧
      od_configparse (od_config_with config
        (p.root :: p.lbrace :: (od_items_tokens od_stmt.tokens p.stmts ++ [rb]))) =
        some (0, good) ∧
      good.scheme = p.stmts.foldl od_stmt.denote config.scheme ∧
      r.scheme = p.block.started pend (p.block.scheme good.scheme) := by
  have hneed : od_items_need od_stmt.need p.stmts ≤ config.scheme.mem := by
    unfold od_position.need at hmem
    omega
  have hgood := od_configparse_sentence
    (od_config_with config
      (p.root :: p.lbrace :: (od_items_tokens od_stmt.tokens p.stmts ++ [rb])))
    ⟨p.root, p.lbrace, p.stmts, rb⟩ [] ⟨hok.1, hok.2.1, hrb, hok.2.2.1⟩ hneed
    (by simp [od_config_with, od_sentence.tokens])
  have hstart : ∀ s, p.block.started [] s = s := by
    intro s
    cases p.block <;> rfl
  have hfail : ∃ r, od_configparse config = some (-1, r) ∧
      r.lex = od_lexpops (p.tokens.length + pend.length + 1) config.lex ∧
      r.scheme = p.block.started pend (p.scheme config.scheme) := by
    rcases hoff with ⟨rfl, hd⟩ | ⟨a, ha, hbad⟩
    · have hm : p.need ≤ config.scheme.mem := by omega
      obtain ⟨r, hr, hl, hs⟩ := od_position_dispatch config p rest hok hm
        (by simpa using htoks) hd
      exact ⟨r, hr, hl, by rw [hs, hstart]⟩
    · obtain ⟨r, hr, hl, hs, _⟩ :=
        od_position_started config p pend rest a hok hmem htoks ha hbad
      exact ⟨r, hr, hl, hs⟩
  obtain ⟨r, hr, hl, hs⟩ := hfail
  refine ⟨r, _, hr, hl, ?_, hgood, rfl, hs⟩
  rw [hl, od_lexpops_popped]
  omega

/-- C16, witness: `server 5432` at the top level, after `odissey {`, in a
scheme that holds no server: the run fails at `5432`, the fourth token popped,
and the nameless server entry that `od_configparse_server` has added stays.
Then `odissey { listen` followed by the end of input: the run fails at the
end-of-input token, the fourth popped, with the scheme as it was. Then
`ttl "soon"` inside a route block, after `odissey { routing { "db" {
pool_min 1`: the route entry with pool_min 1 stays. -/
theorem od_configparse_no_rollback_witness :
    (∃ r, od_configparse
        (od_config_on
          [od_tok OD_LODISSEY 1, od_tok OD_LBRACE 1, od_tok OD_LSERVER 2,
           od_tok_number 5432 2, od_tok OD_RBRACE 3] 4 1) = some (-1, r) ∧
      r.lex.popped = 4 ∧
      r.scheme.servers = [{ name := none, host := none, port := 0 }] ∧
      r.scheme.routes = [] ∧ r.scheme.users = []) ∧
    (∃ r, od_configparse
        (od_config_on
          [od_tok OD_LODISSEY 1, od_tok OD_LBRACE 1, od_tok OD_LLISTEN 2] 3 0) =
          some (-1, r) ∧
      r.lex.popped = 4 ∧
      r.scheme = { config_file := "odissey.conf" }) ∧
    (∃ r, od_configparse
        (od_config_on (od_example_route_position.tokens ++
          [od_tok OD_LTTL 5, od_tok_string "soon" 5, od_tok OD_RBRACE 6]) 9 1) =
          some (-1, r) ∧
      r.lex.popped = 10 ∧
      r.scheme.routes = [{ target := some "db", pool_min := 1 }]) := by
  refine ⟨?_, ?_, ?_⟩
  · obtain ⟨r, good, h1, _, h3, _, h5, h6⟩ :=
      od_configparse_no_rollback
        (od_config_on
          [od_tok OD_LODISSEY 1, od_tok OD_LBRACE 1, od_tok OD_LSERVER 2,
           od_tok_number 5432 2, od_tok OD_RBRACE 3] 4 1)
        { root := od_tok OD_LODISSEY 1, lbrace := od_tok OD_LBRACE 1, stmts := [],
          block := od_open_block.top }
        [od_tok OD_LSERVER 2] [od_tok_number 5432 2, od_tok OD_RBRACE 3]
        (od_tok OD_RBRACE 2)
        (by simp [od_position.ok, od_open_block.ok, od_tok, OD_LBRACE])
        (by decide) rfl (by decide)
        (Or.inr ⟨od_awaited.name, by decide,
          by show ¬ ((od_lexpop _).1.id = OD_LSTRING); decide⟩)
    rw [h5] at h6
    exact ⟨r, h1, h3, by rw [h6]; rfl, by rw [h6]; rfl, by rw [h6]; rfl⟩
  · obtain ⟨r, good, h1, _, h3, _, h5, h6⟩ :=
      od_configparse_no_rollback
        (od_config_on
          [od_tok OD_LODISSEY 1, od_tok OD_LBRACE 1, od_tok OD_LLISTEN 2] 3 0)
        { root := od_tok OD_LODISSEY 1, lbrace := od_tok OD_LBRACE 1, stmts := [],
          block := od_open_block.top }
        [od_tok OD_LLISTEN 2] [] (od_tok OD_RBRACE 2)
        (by simp [od_position.ok, od_open_block.ok, od_tok, OD_LBRACE])
        (by decide) rfl (by decide)
        (Or.inr ⟨od_awaited.brace, by decide,
          by show ¬ ((od_lexpop _).1.id = OD_LBRACE); decide⟩)
    rw [h5] at h6
    exact ⟨r, h1, h3, by rw [h6]; rfl⟩
  · obtain ⟨r, good, h1, _, h3, _, h5, h6⟩ :=
      od_configparse_no_rollback
        (od_config_on (od_example_route_position.tokens ++
          [od_tok OD_LTTL 5, od_tok_string "soon" 5, od_tok OD_RBRACE 6]) 9 1)
        od_example_route_position
        [od_tok OD_LTTL 5] [od_tok_string "soon" 5, od_tok OD_RBRACE 6]
        (od_tok OD_RBRACE 2)
        (by simp [od_position.ok, od_example_route_position, od_open_block.ok,
              od_field.ok, od_route_kind, od_tok, od_tok_string, od_tok_number,
              OD_LBRACE])
        (by decide) rfl (by decide)
        (Or.inr ⟨od_awaited.value od_valuekind.number, by decide,
          by show ¬ ((od_lexpop _).1.id = OD_LNUMBER); decide⟩)
    rw [h5] at h6
    exact ⟨r, h1, h3, by rw [h6]; rfl⟩
